import Mathlib

/-
Verification of the intervention-orchestration engine of `models/alignable_base.py`
(class `AlignableModel`), against its natural-language specification.

The Python code is shallowly embedded:
  * Python dicts become association lists (`alookup` / `aupdate`), with dict
    mutation modeled by in-place overwrite-or-append, matching insertion-order
    semantics of CPython dicts.
  * Python object identity for the mutable `self.activations` dict is modeled
    by a small heap (`OrchState.heap`) of numbered dict cells plus a reference
    (`OrchState.actRef`), so that rebinding (`self.activations = d`) and
    in-place clearing (`self.activations.clear()`) are distinguishable.
  * Python exceptions (AssertionError, KeyError, IndexError, ValueError,
    NameError, TypeError) become an error component that carries the
    post-mutation state, since a raised exception does not roll back state.
  * f-string rendering of a nonnegative integer is modeled by `pyNatStr`,
    a fuel-based decimal printer proven injective below.
-/

namespace Pyvene

/-- Python exception kinds raised by the code paths under verification. -/
inductive PyErr where
  | assertionError
  | keyError
  | indexError
  | valueError
  | nameError
  | typeError
deriving DecidableEq, Repr

/-- Dict lookup: first binding for the key (dict keys are unique in practice). -/
def alookup {α β : Type} [DecidableEq α] : List (α × β) → α → Option β
  | [], _ => none
  | (x, y) :: t, a => if x = a then some y else alookup t a

/-- Dict write `d[a] = b`: overwrite in place if present, else append
(matching CPython insertion-order semantics). -/
def aupdate {α β : Type} [DecidableEq α] : List (α × β) → α → β → List (α × β)
  | [], a, b => [(a, b)]
  | (x, y) :: t, a, b => if x = a then (a, b) :: t else (x, y) :: aupdate t a b

/-! ### Python decimal rendering of a natural number

Models the f-string / `str(int)` rendering used in `_get_representation_key`
and in the serial-mode location keys `source_i->source_j`. -/

/-- One decimal digit as a character. -/
def digitChar (d : Nat) : Char :=
  match d with
  | 0 => '0' | 1 => '1' | 2 => '2' | 3 => '3' | 4 => '4'
  | 5 => '5' | 6 => '6' | 7 => '7' | 8 => '8' | 9 => '9'
  | _ => '?'

/-- Least-significant-first decimal digits, with explicit fuel so that the
definition is structural (hence reducible by `decide`). -/
def pyDigitsRevAux : Nat → Nat → List Nat
  | _, 0 => []
  | 0, _ + 1 => []
  | f + 1, n + 1 => (n + 1) % 10 :: pyDigitsRevAux f ((n + 1) / 10)

/-- Least-significant-first decimal digits of `n`. -/
def pyDigitsRev (n : Nat) : List Nat := pyDigitsRevAux n n

/-- Evaluation of least-significant-first digit lists; a left inverse used to
prove the decimal printer injective. -/
def ofDigitsRev : List Nat → Nat
  | [] => 0
  | d :: t => d + 10 * ofDigitsRev t

/-- Decimal digits of `n`, most significant first, as Python prints them
(so `0` prints as a single digit). -/
def pyDigits (n : Nat) : List Nat :=
  if n = 0 then [0] else (pyDigitsRev n).reverse

/-- Python rendering of a nonnegative integer as a string. -/
def pyNatStr (n : Nat) : String := String.mk ((pyDigits n).map digitChar)

/-! ### Splitting a key at its final hash sign

Keys have the form `proposal ++ "#" ++ counter` where the counter rendering
contains no hash sign. The split at the last hash sign is therefore unique,
which drives the global-uniqueness argument for registry keys. -/

/-! ### Key Registry (`_get_representation_key`, source lines 110-123) -/

/-- The configuration value identifying one intervention point
(`AlignableRepresentationConfig` fields consumed by the core). -/
structure AlignableRepresentation where
  alignable_layer : Nat
  alignable_representation_type : String
  alignable_unit : String
  max_number_of_units : Nat
  alignable_low_rank_dimension : Nat := 0
  subspace_partition : Option (List (List Nat)) := none
deriving DecidableEq, Repr

/-- The base key string built from the addressing fields
(source line 118: layer.L.repr.R.unit.U.nunit.N). -/
def keyProposal (r : AlignableRepresentation) : String :=
  "layer." ++ pyNatStr r.alignable_layer ++ ".repr." ++ r.alignable_representation_type
    ++ ".unit." ++ r.alignable_unit ++ ".nunit." ++ pyNatStr r.max_number_of_units

/-- One step of `_get_representation_key`: threads the collision-counter dict
and returns the disambiguated key (source lines 110-123). -/
def getRepresentationKey (counter : List (String × Nat)) (r : AlignableRepresentation) :
    List (String × Nat) × String :=
  let p := keyProposal r
  match alookup counter p with
  | none => (aupdate counter p 0, p ++ "#" ++ pyNatStr 0)
  | some c => (aupdate counter p (c + 1), p ++ "#" ++ pyNatStr (c + 1))

/-- The registration loop of the constructor (source lines 62-78), restricted to
its key-derivation effect. -/
def registerKeysAux (counter : List (String × Nat)) :
    List AlignableRepresentation → List String
  | [] => []
  | r :: t =>
    let res := getRepresentationKey counter r
    res.2 :: registerKeysAux res.1 t

/-- Keys produced by registering the given descriptors in order, starting from
the empty collision-counter dict of a fresh instance. -/
def registerKeys (l : List AlignableRepresentation) : List String :=
  registerKeysAux [] l

/-- Number of registrations of proposal `p` recorded by the collision counter
(`none` means not registered yet; `some c` means `c + 1` registrations). -/
def cntOf (counter : List (String × Nat)) (p : String) : Nat :=
  match alookup counter p with
  | none => 0
  | some c => c + 1

/-! ### Core embedding: state, effects, hooks, and the opaque model

Activation values are abstracted as integers; gather/scatter, subcomponent
slicing and `do_intervention` (which live in `models/utils.py` and
`models/interventions.py`, outside the analyzed file) are abstract function
parameters bundled in `Semantics`. The opaque model is a chain of modules
executing in a fixed structural order, with hooks firing after the module
they are registered on (the pre-hook/post-hook and args/kwargs dispatch of
the callbacks is not modeled: every hook point is treated uniformly as a
module-output hook). -/

/-- Activation value flowing through the opaque model. -/
abbrev Val := Int

/-- A unit-location index structure (batched index lists); passed through
opaquely to the gather/scatter semantics. -/
abbrev Loc := List (List Nat)

/-- Subspace indices for one intervention. -/
abbrev Subsp := List Nat

/-- The `self.activations` dict contents: intervention key to captured value. -/
abbrev Cache := List (String × Val)

inductive HookKind where
  | getter
  | setter
deriving DecidableEq, Repr

/-- One registered forward hook. `hid` is the handler identity used by
`HandlerList.remove`. A getter uses `locSource` for its gather; a setter
callback uses only `locBase` (the `unit_locations_source` argument of
`_intervention_setter` is never read by its callback, source lines 374-419). -/
structure Hook where
  hid : Nat
  kind : HookKind
  key : String
  locSource : Loc
  locBase : Loc
  subspace : Option Subsp
deriving DecidableEq, Repr

/-- Trace event: one invocation of the opaque model (`gen` distinguishes
`model.generate` from plain `model(...)`) with the hooks attached at that
moment and the activations-dict contents on entry. Events are an observation
device for the theorems; the Python code has no counterpart, and no code path
reads them. -/
structure Event where
  gen : Bool
  input : Val
  hooks : List Hook
  cacheBefore : Cache
deriving DecidableEq, Repr

/-- Mutable state of an `AlignableModel` instance. The heap of numbered dict
cells models Python object identity for activations dicts: `actRef` is the
cell `self.activations` currently refers to, and caller-supplied
`activations_sources` dicts are other cells. -/
structure OrchState where
  heap : List (Nat × Cache)
  actRef : Nat
  getterCount : List (String × Nat)
  setterCount : List (String × Nat)
  attached : List Hook
  isGeneration : Bool
  intervOnPrompt : Option Bool
  nextHid : Nat
deriving DecidableEq, Repr

/-- Immutable per-instance configuration: the topologically sorted
intervention keys (`sorted_alignable_keys`), the module executing at each key
(derived from the representation's module hook), and the mode string. -/
structure OrchConfig where
  sortedKeys : List String
  modOf : String → Nat
  mode : String

/-- Abstract semantics of the externally defined gather/scatter and
intervention transform, per intervention key. -/
structure Semantics where
  gatherF : String → Loc → Val → Val
  scatterF : String → Loc → Val → Val → Val
  intervF : String → Val → Val → Option Subsp → Val

/-- The opaque model: `numModules` modules executing in order, each
transforming the running value; `nextInput` feeds a generation output back as
the next decode-step input. -/
structure OpaqueModel where
  numModules : Nat
  step : Nat → Val → Val
  nextInput : Val → Val

/-- Computation over orchestrator state that can raise a Python exception and
appends trace events. A raised exception keeps the state mutations made so
far, as in Python. -/
def PyM (α : Type) : Type := OrchState → Except PyErr α × OrchState × List Event

def PyM.pure {α : Type} (a : α) : PyM α := fun s => (.ok a, s, [])

def PyM.bind {α β : Type} (m : PyM α) (f : α → PyM β) : PyM β := fun s =>
  match m s with
  | (.ok a, s', t₁) =>
    match f a s' with
    | (r, s'', t₂) => (r, s'', t₁ ++ t₂)
  | (.error e, s', t₁) => (.error e, s', t₁)

def pmodifyState (f : OrchState → OrchState) : PyM Unit := fun s => (.ok (), f s, [])

def pthrow {α : Type} (e : PyErr) : PyM α := fun s => (.error e, s, [])

/-- A Python `assert`. -/
def passert (b : Bool) : PyM Unit := fun s =>
  ((if b then .ok () else .error .assertionError), s, [])

/-- Python dict subscript `d[k]`: KeyError when absent. -/
def pyDictGet {β : Type} (d : List (String × β)) (k : String) : PyM β :=
  match alookup d k with
  | some v => PyM.pure v
  | none => pthrow .keyError

/-- Python list subscript `l[i]`: IndexError when out of range. -/
def pyListGet {β : Type} (l : List β) (i : Nat) : PyM β :=
  match l.get? i with
  | some v => PyM.pure v
  | none => pthrow .indexError

/-- Contents of the dict `self.activations` currently refers to. -/
def heapCache (s : OrchState) : Cache := (alookup s.heap s.actRef).getD []

/-- In-place write to the dict `self.activations` currently refers to. -/
def setHeapCache (s : OrchState) (c : Cache) : OrchState :=
  { s with heap := aupdate s.heap s.actRef c }

/-- `_cleanup_states` (source lines 143-150): exit generation mode, remove all
forward hooks, zero both hook-call counters, and clear `self.activations`
in place. -/
def cleanupStates (s : OrchState) : OrchState :=
  setHeapCache
    { s with isGeneration := false,
             attached := [],
             getterCount := s.getterCount.map (fun p => (p.1, 0)),
             setterCount := s.setterCount.map (fun p => (p.1, 0)),
             intervOnPrompt := s.intervOnPrompt }
    []

/-- The generation gate at the top of each hook callback (source lines
338-343 and 375-380): reads the per-key call counter, increments it when
`not self._intervene_on_prompt or is_prompt`, and tells whether the callback
proceeds (`False` when `self._intervene_on_prompt ^ is_prompt`). When
`_intervene_on_prompt` is `None` the xor raises TypeError (after the counter
update, which is kept). -/
def hookGate (iop : Option Bool) (counts : List (String × Nat)) (key : String) :
    List (String × Nat) × Except PyErr Bool :=
  match alookup counts key with
  | none => (counts, .error .keyError)
  | some c =>
    let isPrompt := c == 0
    let counts' :=
      if (match iop with | none => true | some b => !b) || isPrompt
      then aupdate counts key (c + 1) else counts
    match iop with
    | none => (counts', .error .typeError)
    | some b => (counts', .ok (!(b ^^ isPrompt)))

/-- Effect of an active getter callback: gather at the hook's location and
store into `self.activations[key]` (source lines 355-358). -/
def getterAction (sem : Semantics) (h : Hook) (s : OrchState) (v : Val) : OrchState :=
  setHeapCache s (aupdate (heapCache s) h.key (sem.gatherF h.key h.locSource v))

/-- Effect of an active setter callback: gather the base's current activation
at the hook's base location, run `do_intervention` against the cached source
activation `self.activations[key]` (KeyError when nothing was captured), and
scatter the result back (source lines 406-419). -/
def setterAction (sem : Semantics) (h : Hook) (s : OrchState) (v : Val) : Except PyErr Val :=
  match alookup (heapCache s) h.key with
  | none => .error .keyError
  | some src =>
    .ok (sem.scatterF h.key h.locBase v
          (sem.intervF h.key (sem.gatherF h.key h.locBase v) src h.subspace))

/-- One hook callback firing on the value flowing out of its module
(`hook_callback` of `_intervention_getter` / `_intervention_setter`,
source lines 337-358 and 374-419). -/
def fireHook (sem : Semantics) (h : Hook) (v : Val) : PyM Val := fun s =>
  match h.kind with
  | .getter =>
    if s.isGeneration then
      match hookGate s.intervOnPrompt s.getterCount h.key with
      | (counts', .error e) => (.error e, { s with getterCount := counts' }, [])
      | (counts', .ok true) =>
        (.ok v, getterAction sem h { s with getterCount := counts' } v, [])
      | (counts', .ok false) => (.ok v, { s with getterCount := counts' }, [])
    else (.ok v, getterAction sem h s v, [])
  | .setter =>
    if s.isGeneration then
      match hookGate s.intervOnPrompt s.setterCount h.key with
      | (counts', .error e) => (.error e, { s with setterCount := counts' }, [])
      | (counts', .ok true) =>
        (setterAction sem h { s with setterCount := counts' } v,
         { s with setterCount := counts' }, [])
      | (counts', .ok false) => (.ok v, { s with setterCount := counts' }, [])
    else (setterAction sem h s v, s, [])

/-- Fire, in registration order, every hook of `hooks` attached at module `m`. -/
def fireHooksAt (cfg : OrchConfig) (sem : Semantics) (hooks : List Hook) (m : Nat)
    (v : Val) : PyM Val :=
  match hooks with
  | [] => PyM.pure v
  | h :: t =>
    if cfg.modOf h.key = m then
      PyM.bind (fireHook sem h v) (fun v' => fireHooksAt cfg sem t m v')
    else fireHooksAt cfg sem t m v

/-- Run modules `lo, lo+1, ..., lo+cnt-1` of the opaque model on the running
value, firing the given hooks after each module computes its output. -/
def runFrom (cfg : OrchConfig) (sem : Semantics) (M : OpaqueModel) (hooks : List Hook) :
    Nat → Nat → Val → PyM Val
  | _, 0, v => PyM.pure v
  | lo, cnt + 1, v =>
    PyM.bind (fireHooksAt cfg sem hooks lo (M.step lo v)) (fun v' =>
      runFrom cfg sem M hooks (lo + 1) cnt v')

/-- Hook-free composition of modules `lo, ..., lo+cnt-1`. -/
def stagesFrom (M : OpaqueModel) : Nat → Nat → Val → Val
  | _, 0, v => v
  | lo, cnt + 1, v => stagesFrom M (lo + 1) cnt (M.step lo v)

/-- One plain call of the opaque model (`self.model(**x)`): records a trace
event with the currently attached hooks, then runs all modules. -/
def modelCall (cfg : OrchConfig) (sem : Semantics) (M : OpaqueModel) (x : Val) :
    PyM Val := fun s =>
  match runFrom cfg sem M s.attached 0 M.numModules x s with
  | (r, s', t) => (r, s', ⟨false, x, s.attached, heapCache s⟩ :: t)

/-- The decode-step passes of one `model.generate` call. -/
def genLoop (cfg : OrchConfig) (sem : Semantics) (M : OpaqueModel) (hooks : List Hook) :
    Nat → Val → PyM Val
  | 0, v => PyM.pure v
  | g + 1, v =>
    PyM.bind (runFrom cfg sem M hooks 0 M.numModules (M.nextInput v)) (fun v' =>
      genLoop cfg sem M hooks g v')

/-- One call of the opaque model's generation routine
(`self.model.generate(inputs=..., **kwargs)`): a prompt pass followed by
`gsteps` autoregressive passes, all with the same attached hooks. -/
def modelGenerate (cfg : OrchConfig) (sem : Semantics) (M : OpaqueModel) (gsteps : Nat)
    (x : Val) : PyM Val := fun s =>
  match (PyM.bind (runFrom cfg sem M s.attached 0 M.numModules x) (fun v =>
          genLoop cfg sem M s.attached gsteps v)) s with
  | (r, s', t) => (r, s', ⟨true, x, s.attached, heapCache s⟩ :: t)

/-- Register a new hook on the model (the `alignable_module_hook(hook_callback,
with_kwargs=True)` registration), returning its handler id. -/
def attachHook (kind : HookKind) (key : String) (locS locB : Loc)
    (sub : Option Subsp) : PyM Nat := fun s =>
  (.ok s.nextHid,
   { s with attached := s.attached ++ [⟨s.nextHid, kind, key, locS, locB, sub⟩],
            nextHid := s.nextHid + 1 }, [])

/-- `HandlerList.remove`: deregister the hooks with the given handler ids. -/
def removeHandlers (ids : List Nat) : PyM Unit :=
  pmodifyState (fun s => { s with attached := s.attached.filter (fun h => !(ids.contains h.hid)) })

/-- `_intervention_getter` (source lines 328-361): registers getter hooks for
the listed keys, the hook at position `i` gathering with `unit_locations[i]`;
returns the handler ids. -/
def interventionGetter : List String → List Loc → PyM (List Nat)
  | [], _ => PyM.pure []
  | k :: kt, locs =>
    match locs with
    | [] => pthrow .indexError
    | loc :: lt =>
      PyM.bind (attachHook .getter k loc [] none) (fun hid =>
      PyM.bind (interventionGetter kt lt) (fun rest => PyM.pure (hid :: rest)))

/-- `_intervention_setter` (source lines 364-422): registers setter hooks for
the listed keys; returns the handler ids. -/
def interventionSetter : List String → List Loc → List Loc →
    Option (List (Option Subsp)) → PyM (List Nat)
  | [], _, _, _ => PyM.pure []
  | k :: kt, locsS, locsB, subs =>
    match locsS, locsB with
    | locS :: lst, locB :: lbt =>
      match subs with
      | none =>
        PyM.bind (attachHook .setter k locS locB none) (fun hid =>
        PyM.bind (interventionSetter kt lst lbt none) (fun rest => PyM.pure (hid :: rest)))
      | some subl =>
        match subl with
        | [] => pthrow .indexError
        | sub :: subt =>
          PyM.bind (attachHook .setter k locS locB sub) (fun hid =>
          PyM.bind (interventionSetter kt lst lbt (some subt)) (fun rest =>
            PyM.pure (hid :: rest)))
    | _, _ => pthrow .indexError

/-- The expression `[subspaces[key_i]] if subspaces is not None else None`
(source lines 545 and 585). -/
def subAt (subs : Option (List (Option Subsp))) (i : Nat) :
    PyM (Option (List (Option Subsp))) :=
  match subs with
  | none => PyM.pure none
  | some l =>
    match l.get? i with
    | none => pthrow .indexError
    | some x => PyM.pure (some [x])

/-- The location-dict key consulted by serial mode for point `i` of `n`
(source lines 553-557). -/
def serialLocKey (i n : Nat) : String :=
  if i ≠ n - 1 then "source_" ++ pyNatStr i ++ "->source_" ++ pyNatStr (i + 1)
  else "source_" ++ pyNatStr i ++ "->base"

/-- Arguments of `AlignableModel.forward`. `activationsSources` is a heap
reference to the caller's dict (Python passes the object, not a copy). -/
structure ForwardArgs where
  base : Val
  sources : Option (List Val)
  unitLocations : List (String × (List Loc × List Loc))
  activationsSources : Option Nat
  subspaces : Option (List (Option Subsp))
deriving Repr

/-- The `assert len(activations_sources) == len(self.sorted_alignable_keys)`
of source line 504, reading the caller's dict through the heap. -/
def passertActLen (ref : Nat) (n : Nat) : PyM Unit := fun s =>
  ((if ((alookup s.heap ref).getD []).length = n then .ok () else .error .assertionError),
   s, [])

/-- Parallel-mode getter phase (source lines 524-531): for each intervention
point in sorted order, register its getter, run the model on that point's
source, and deregister the getter. -/
def parallelGetterLoop (cfg : OrchConfig) (sem : Semantics) (M : OpaqueModel)
    (sources : List Val) (ulS : List Loc) : List (Nat × String) → PyM Unit
  | [] => PyM.pure ()
  | (i, key) :: rest =>
    PyM.bind (pyListGet ulS i) (fun loc =>
    PyM.bind (interventionGetter [key] [loc]) (fun gids =>
    PyM.bind (pyListGet sources i) (fun src =>
    PyM.bind (modelCall cfg sem M src) (fun _ =>
    PyM.bind (removeHandlers gids) (fun _ =>
    parallelGetterLoop cfg sem M sources ulS rest)))))

/-- The `assert alignable_key in self.activations` loop of the
precomputed-activations path (source lines 535-536). -/
def parallelActivationsCheck : List String → PyM Unit
  | [] => PyM.pure ()
  | k :: t =>
    PyM.bind
      (fun s => (((if (alookup (heapCache s) k).isSome then .ok () else .error .assertionError)
        : Except PyErr Unit), s, ([] : List Event)))
      (fun _ => parallelActivationsCheck t)

/-- Parallel-mode setter phase (source lines 540-548): registers one setter
per intervention point, accumulating all handler ids without removing any. -/
def parallelSetterLoop (ulS ulB : List Loc) (subs : Option (List (Option Subsp))) :
    List (Nat × String) → List Nat → PyM (List Nat)
  | [], acc => PyM.pure acc
  | (i, key) :: rest, acc =>
    PyM.bind (pyListGet ulS i) (fun locS =>
    PyM.bind (pyListGet ulB i) (fun locB =>
    PyM.bind (subAt subs i) (fun sub =>
    PyM.bind (interventionSetter [key] [locS] [locB] sub) (fun sids =>
    parallelSetterLoop ulS ulB subs rest (acc ++ sids)))))

/-- Serial-mode loop (source lines 553-588). For each point `i` in sorted
order: look up its location entry, fetch the `[0][0]`-indexed source/base
locations, run the getter on `sources[i]` (with the previous point's setter
still attached) then drop that previous setter — or, on the
precomputed-activations path, write `activations_sources[key]` into
`self.activations[key]` with no setter removal — and finally register point
`i`'s setter, extending the accumulated handler list. -/
def serialLoop (cfg : OrchConfig) (sem : Semantics) (M : OpaqueModel) (n : Nat)
    (sources : Option (List Val)) (ul : List (String × (List Loc × List Loc)))
    (actSrcRef : Option Nat) (subs : Option (List (Option Subsp))) :
    List (Nat × String) → List Nat → PyM (List Nat)
  | [], acc => PyM.pure acc
  | (i, key) :: rest, acc =>
    PyM.bind (pyDictGet ul (serialLocKey i n)) (fun entry =>
    PyM.bind (pyListGet entry.1 0) (fun locS =>
    PyM.bind (pyListGet entry.2 0) (fun locB =>
    PyM.bind
      (match actSrcRef, sources with
       | none, some srcs =>
         PyM.bind (interventionGetter [key] [locS]) (fun gids =>
         PyM.bind (pyListGet srcs i) (fun src =>
         PyM.bind (modelCall cfg sem M src) (fun _ =>
         PyM.bind (removeHandlers gids) (fun _ =>
         if acc.isEmpty then PyM.pure acc
         else PyM.bind (removeHandlers acc) (fun _ => PyM.pure ([] : List Nat))))))
       | some ref, _ =>
         PyM.bind
           (fun s =>
             (match alookup ((alookup s.heap ref).getD []) key with
              | none => ((.error .keyError : Except PyErr Unit), s, ([] : List Event))
              | some v =>
                (.ok (), setHeapCache s (aupdate (heapCache s) key v), ([] : List Event))))
           (fun _ => PyM.pure acc)
       | none, none => pthrow .typeError)
      (fun accBase =>
    PyM.bind (subAt subs i) (fun sub =>
    PyM.bind (interventionSetter [key] [locS] [locB] sub) (fun sids =>
    serialLoop cfg sem M n sources ul actSrcRef subs rest (accBase ++ sids)))))))

/-- The mode-specific location-map validation of source lines 506-512 (and its
verbatim duplicate in `generate`, lines 650-656): asserts the presence or
absence of "sources->base" per mode, returning the parallel-mode entry. -/
def forwardValidate (cfg : OrchConfig) (sources : Option (List Val))
    (unitLocations : List (String × (List Loc × List Loc)))
    (activationsSources : Option Nat) : PyM (Option (List Loc × List Loc)) :=
  if cfg.mode = "parallel" then
    match alookup unitLocations "sources->base" with
    | none => pthrow .assertionError
    | some e => PyM.pure (some e)
  else if activationsSources.isNone && (cfg.mode = "serial" : Bool) then
    match alookup unitLocations "sources->base" with
    | some _ => pthrow .assertionError
    | none =>
      match sources with
      | some srcs =>
        PyM.bind (passert (srcs.length == unitLocations.length)) (fun _ => PyM.pure none)
      | none => PyM.pure none
  else PyM.pure none

/-- The body of `forward` from the mode-specific validation on (source lines
506-592): validation, the no-gradient base reference run, then the parallel
or serial intervention schedule and the counterfactual run. -/
def forwardCore (cfg : OrchConfig) (sem : Semantics) (M : OpaqueModel)
    (args : ForwardArgs) : PyM (Val × Option Val) :=
  PyM.bind
    (forwardValidate cfg args.sources args.unitLocations args.activationsSources)
    (fun ulPair =>
  PyM.bind (modelCall cfg sem M args.base) (fun baseOutputs =>
  if cfg.mode = "parallel" then
    match ulPair with
    | some (ulS, ulB) =>
      PyM.bind
        (match args.activationsSources with
         | none =>
           match args.sources with
           | some srcs => parallelGetterLoop cfg sem M srcs ulS cfg.sortedKeys.enum
           | none => pthrow .typeError
         | some ref =>
           PyM.bind (pmodifyState (fun s => { s with actRef := ref }))
             (fun _ => parallelActivationsCheck cfg.sortedKeys))
        (fun _ =>
      PyM.bind (parallelSetterLoop ulS ulB args.subspaces cfg.sortedKeys.enum [])
        (fun setIds =>
      PyM.bind (modelCall cfg sem M args.base) (fun cf =>
      PyM.bind (removeHandlers setIds) (fun _ =>
      PyM.pure (baseOutputs, some cf)))))
    | none => pthrow .typeError
  else if cfg.mode = "serial" then
    PyM.bind
      (serialLoop cfg sem M cfg.sortedKeys.length args.sources args.unitLocations
        args.activationsSources args.subspaces cfg.sortedKeys.enum [])
      (fun setIds =>
    PyM.bind (modelCall cfg sem M args.base) (fun cf =>
    PyM.bind (removeHandlers setIds) (fun _ =>
    PyM.pure (baseOutputs, some cf))))
  else
    pthrow .nameError))

/-- `AlignableModel.forward` (source lines 425-592). The final `else` branch
of the mode dispatch models the NameError a mode string other than
"parallel"/"serial" would produce at `return` (the name
`counterfactual_outputs` is never bound). -/
def forward (cfg : OrchConfig) (sem : Semantics) (M : OpaqueModel)
    (args : ForwardArgs) : PyM (Val × Option Val) :=
  PyM.bind (pmodifyState cleanupStates) (fun _ =>
  match args.sources, args.activationsSources with
  | none, none =>
    PyM.bind (modelCall cfg sem M args.base) (fun out => PyM.pure (out, none))
  | some srcs, _ =>
    PyM.bind (passert (srcs.length == cfg.sortedKeys.length)) (fun _ =>
      forwardCore cfg sem M args)
  | none, some ref =>
    PyM.bind (passertActLen ref cfg.sortedKeys.length) (fun _ =>
      forwardCore cfg sem M args))

/-- Arguments of `AlignableModel.generate`. `gsteps` abstracts the number of
autoregressive decode passes the generation options in `**kwargs` induce. -/
structure GenerateArgs where
  base : Val
  sources : Option (List Val)
  unitLocations : List (String × (List Loc × List Loc))
  activationsSources : Option Nat
  intervene_on_prompt : Bool
  gsteps : Nat
deriving Repr

/-- The getter-or-precomputed step of `generate`'s first serial iteration
(source lines 715-728), for point 0. -/
def generateSerialStepZero (cfg : OrchConfig) (sem : Semantics) (M : OpaqueModel)
    (key : String) (locS : Loc) (sources : Option (List Val))
    (actSrcRef : Option Nat) : PyM Unit :=
  match actSrcRef, sources with
  | none, some srcs =>
    PyM.bind (interventionGetter [key] [locS]) (fun gids =>
    PyM.bind (pyListGet srcs 0) (fun src =>
    PyM.bind (modelCall cfg sem M src) (fun _ =>
    removeHandlers gids)))
  | some ref, _ =>
    PyM.bind
      (fun s =>
        (match alookup ((alookup s.heap ref).getD []) key with
         | none => ((.error .keyError : Except PyErr Unit), s, ([] : List Event))
         | some v =>
           (.ok (), setHeapCache s (aupdate (heapCache s) key v), ([] : List Event))))
      (fun _ => PyM.pure ())
  | none, none => pthrow .typeError

/-- The body of `generate` from the mode-specific validation on (source lines
650-745). `generate` has no `subspaces` parameter, yet lines 692 and 735
evaluate the bare name `subspaces` when building each setter; with at least
one registered intervention point both modes therefore raise NameError at
the first setter construction. With zero registered points the setter loops
have no iterations and generation completes. -/
def generateCore (cfg : OrchConfig) (sem : Semantics) (M : OpaqueModel)
    (args : GenerateArgs) : PyM (Val × Option Val) :=
  PyM.bind
    (forwardValidate cfg args.sources args.unitLocations args.activationsSources)
    (fun ulPair =>
  PyM.bind (modelGenerate cfg sem M args.gsteps args.base) (fun baseOutputs =>
  if cfg.mode = "parallel" then
    match ulPair with
    | some (ulS, _) =>
      PyM.bind
        (match args.activationsSources with
         | none =>
           match args.sources with
           | some srcs => parallelGetterLoop cfg sem M srcs ulS cfg.sortedKeys.enum
           | none => pthrow .typeError
         | some ref =>
           PyM.bind (pmodifyState (fun s => { s with actRef := ref }))
             (fun _ => parallelActivationsCheck cfg.sortedKeys))
        (fun _ =>
      match cfg.sortedKeys with
      | [] =>
        PyM.bind (modelGenerate cfg sem M args.gsteps args.base) (fun cf =>
        PyM.bind (removeHandlers []) (fun _ =>
        PyM.bind (pmodifyState (fun s => { s with isGeneration := false })) (fun _ =>
        PyM.pure (baseOutputs, some cf))))
      | _ :: _ =>
        -- line 692: the unbound name `subspaces` is evaluated
        pthrow .nameError)
    | none => pthrow .typeError
  else if cfg.mode = "serial" then
    match cfg.sortedKeys with
    | [] =>
      PyM.bind (modelGenerate cfg sem M args.gsteps args.base) (fun cf =>
      PyM.bind (removeHandlers []) (fun _ =>
      PyM.bind (pmodifyState (fun s => { s with isGeneration := false })) (fun _ =>
      PyM.pure (baseOutputs, some cf))))
    | k₀ :: _ =>
      PyM.bind (pyDictGet args.unitLocations (serialLocKey 0 cfg.sortedKeys.length))
        (fun entry =>
      PyM.bind (pyListGet entry.1 0) (fun locS =>
      PyM.bind (pyListGet entry.2 0) (fun _ =>
      PyM.bind (generateSerialStepZero cfg sem M k₀ locS args.sources
                  args.activationsSources) (fun _ =>
      -- line 735: the unbound name `subspaces` is evaluated
      pthrow .nameError))))
  else
    pthrow .nameError))

/-- `AlignableModel.generate` (source lines 595-745): cleanup, set the
generation flags, then the same two-mode structure as `forward` with
`model.generate` in place of the base-output and counterfactual model calls
(the per-source getter runs still use plain `model(...)`, lines 677 and 721).
The warning print of lines 632-635 has no modeled effect. -/
def generate (cfg : OrchConfig) (sem : Semantics) (M : OpaqueModel)
    (args : GenerateArgs) : PyM (Val × Option Val) :=
  PyM.bind (pmodifyState cleanupStates) (fun _ =>
  PyM.bind (pmodifyState (fun s =>
    { s with intervOnPrompt := some args.intervene_on_prompt, isGeneration := true }))
    (fun _ =>
  match args.sources, args.activationsSources with
  | none, none =>
    PyM.bind (modelGenerate cfg sem M args.gsteps args.base) (fun out =>
      PyM.pure (out, none))
  | some srcs, _ =>
    PyM.bind (passert (srcs.length == cfg.sortedKeys.length)) (fun _ =>
      generateCore cfg sem M args)
  | none, some ref =>
    PyM.bind (passertActLen ref cfg.sortedKeys.length) (fun _ =>
      generateCore cfg sem M args)))

/-! ### Batch location preprocessing (`_batch_process_unit_location`)

Python string helpers are modeled structurally (with explicit fuel) so that
closed evaluations reduce inside the kernel. -/

/-- Fuel-based worker for Python `str.split(sep)` with nonempty `sep`:
left-to-right, non-overlapping. -/
def pySplitAux (sep : List Char) : Nat → List Char → List Char → List (List Char)
  | _, [], acc => [acc.reverse]
  | 0, l, acc => [acc.reverse ++ l]
  | f + 1, c :: rest, acc =>
    if sep.isPrefixOf (c :: rest) then
      acc.reverse :: pySplitAux sep f (List.drop (sep.length - 1) rest) []
    else pySplitAux sep f rest (c :: acc)

/-- Python `s.split(sep)` for nonempty `sep`. -/
def pySplit (s sep : String) : List String :=
  (pySplitAux sep.data s.data.length s.data []).map String.mk

/-- Python `sub in s` substring test (for nonempty `sub`). -/
def pyContains (s sub : String) : Bool := (pySplit s sub).length > 1

/-- Python `int(s)` for the strings arising in the source-index scan: a
digits-only parse; anything else raises ValueError (signs and surrounding
whitespace do not occur in these inputs and are not modeled). -/
def pyInt (s : String) : Except PyErr Nat :=
  if s.data ≠ [] ∧ s.data.all Char.isDigit then
    .ok (s.data.foldl (fun acc c => acc * 10 + (c.toNat - 48)) 0)
  else .error .valueError

/-- A batched index list (one index list per example), as supplied in the flat
inputs of `_batch_process_unit_location`. -/
abbrev BLoc := List (List Nat)

/-- An aggregated per-point location: the raw batched list for a
single-granularity unit, or one batched list per granularity level for a
composite unit such as "h.pos" (the 3D-vs-4D distinction of the source). -/
inductive BAgg where
  | single (l : BLoc)
  | multi (ls : List BLoc)
deriving DecidableEq, Repr

/-- The inner loop of the source-index scan (source lines 798-800): for each
piece of the key split at "->" that mentions "source", parse
`int(sub_k.split("_")[1])`. -/
def scanKeyPieces : List String → Except PyErr (List Nat)
  | [] => .ok []
  | sk :: t =>
    if pyContains sk "source" then
      match (pySplit sk "_").get? 1 with
      | none => .error .indexError
      | some numStr =>
        match pyInt numStr with
        | .error e => .error e
        | .ok n =>
          match scanKeyPieces t with
          | .error e => .error e
          | .ok rest => .ok (n :: rest)
    else scanKeyPieces t

/-- The source-index scan over all input keys (source lines 795-801). -/
def scanSourceIndices : List (String × BLoc) → Except PyErr (List Nat)
  | [] => .ok []
  | (k, _) :: rest =>
    if pyContains k "->" then
      match scanKeyPieces (pySplit k "->") with
      | .error e => .error e
      | .ok ns =>
        match scanSourceIndices rest with
        | .error e => .error e
        | .ok ms => .ok (ns ++ ms)
    else scanSourceIndices rest

/-- The per-granularity-level input lookups for one prefix (source lines
818-822 and 847-851): `inputs[f"{prefix}.{sub_loc}"]`, KeyError when absent. -/
def subLocLookups (inputs : List (String × BLoc)) (pref : String) :
    List String → Except PyErr (List BLoc)
  | [] => .ok []
  | sl :: t =>
    match alookup inputs (pref ++ "." ++ sl) with
    | none => .error .keyError
    | some b =>
      match subLocLookups inputs pref t with
      | .error e => .error e
      | .ok rest => .ok (b :: rest)

/-- Collapse of a one-level aggregation (source lines 823-825 and 852-854). -/
def aggOf (ls : List BLoc) (nLevels : Nat) : BAgg :=
  if nLevels = 1 then BAgg.single (ls.headD []) else BAgg.multi ls

/-- Parallel-branch aggregation (source lines 806-833), over the registered
representations' unit strings in insertion order. -/
def parallelAggr (inputs : List (String × BLoc)) :
    List String → Nat → Except PyErr (List BAgg × List BAgg)
  | [], _ => .ok ([], [])
  | u :: ut, ind =>
    let subLocs := pySplit u "."
    let prefStr := "source_" ++ pyNatStr ind ++ "->base"
    match subLocLookups inputs (prefStr ++ ".0") subLocs with
    | .error e => .error e
    | .ok ls =>
      match subLocLookups inputs (prefStr ++ ".1") subLocs with
      | .error e => .error e
      | .ok rs =>
        match parallelAggr inputs ut (ind + 1) with
        | .error e => .error e
        | .ok (lt, rt) =>
          .ok (aggOf ls subLocs.length :: lt, aggOf rs subLocs.length :: rt)

/-- Serial-branch aggregation (source lines 835-859). The non-final prefix is
built exactly as line 842 builds it: "source_i->source{i+1}", with no
underscore before the successor index. -/
def serialAggr (inputs : List (String × BLoc)) (total : Nat) :
    List String → Nat → Except PyErr (List (String × (List BAgg × List BAgg)))
  | [], _ => .ok []
  | u :: ut, ind =>
    let subLocs := pySplit u "."
    let prefStr :=
      if ind + 1 == total then "source_" ++ pyNatStr ind ++ "->base"
      else "source_" ++ pyNatStr ind ++ "->source" ++ pyNatStr (ind + 1)
    match subLocLookups inputs (prefStr ++ ".0") subLocs with
    | .error e => .error e
    | .ok ls =>
      match subLocLookups inputs (prefStr ++ ".1") subLocs with
      | .error e => .error e
      | .ok rs =>
        match serialAggr inputs total ut (ind + 1) with
        | .error e => .error e
        | .ok rest =>
          .ok ((prefStr, ([aggOf ls subLocs.length], [aggOf rs subLocs.length])) :: rest)

/-- `_batch_process_unit_location` (source lines 748-861), parametrized by the
mode and the `alignable_unit` strings of the registered representations in
insertion order. `max(_source_ind)` on an empty list raises ValueError. -/
def batchProcessUnitLocation (mode : String) (units : List String)
    (inputs : List (String × BLoc)) :
    Except PyErr (List (String × (List BAgg × List BAgg))) :=
  match scanSourceIndices inputs with
  | .error e => .error e
  | .ok inds =>
    if inds.isEmpty then .error .valueError
    else if mode = "parallel" then
      match parallelAggr inputs units 0 with
      | .error e => .error e
      | .ok (ls, rs) => .ok [("sources->base", (ls, rs))]
    else
      serialAggr inputs units.length units 0

/-! ### Specification-side reference forms

These definitions restate, in closed form, what the hooked runs compute; the
proofs below establish that the embedded code equals them. -/

/-- The edit a setter applies to the value `v` flowing past its module:
scatter back the intervention of the gathered slice against the cached
source slice `srcv`. -/
def setterEdit (sem : Semantics) (k : String) (loc : Loc) (sub : Option Subsp)
    (srcv v : Val) : Val :=
  sem.scatterF k loc v (sem.intervF k (sem.gatherF k loc v) srcv sub)

/-- Closed form of one model pass with a setter edit at each listed point
(module order strictly increasing): plain stages interleaved with the edits,
each edit consuming its own cached source value. -/
def multiEdit (cfg : OrchConfig) (sem : Semantics) (M : OpaqueModel) :
    List (String × Loc × Val) → Nat → Val → Val
  | [], lo, v => stagesFrom M lo (M.numModules - lo) v
  | (k, loc, srcv) :: t, lo, v =>
    multiEdit cfg sem M t (cfg.modOf k + 1)
      (setterEdit sem k loc none srcv (stagesFrom M lo (cfg.modOf k + 1 - lo) v))

/-- Reference decomposition of a hooked run whose hook modules are strictly
increasing and in range: plain stages up to and including each hook's module,
the hook callback on the value there, then continue. -/
def hooksRun (cfg : OrchConfig) (sem : Semantics) (M : OpaqueModel) :
    List Hook → Nat → Nat → Val → PyM Val
  | [], lo, cnt, v => PyM.pure (stagesFrom M lo cnt v)
  | h :: t, lo, cnt, v =>
    PyM.bind (fireHook sem h (stagesFrom M lo (cfg.modOf h.key + 1 - lo) v)) (fun v' =>
      hooksRun cfg sem M t (cfg.modOf h.key + 1) (lo + cnt - (cfg.modOf h.key + 1)) v')

/-- Closed form of the serial chain: the activation captured at point `i`
during the run on `sources[i]`; from `i = 1` on it is gathered from a
computation that already contains point `i-1`'s edit, applied at point
`i-1`'s module with the previous capture. -/
def chainCapture (cfg : OrchConfig) (sem : Semantics) (M : OpaqueModel)
    (key : Nat → String) (src : Nat → Val) (locS locB : Nat → Loc) : Nat → Val
  | 0 => sem.gatherF (key 0) (locS 0) (stagesFrom M 0 (cfg.modOf (key 0) + 1) (src 0))
  | i + 1 =>
    sem.gatherF (key (i + 1)) (locS (i + 1))
      (stagesFrom M (cfg.modOf (key i) + 1) (cfg.modOf (key (i + 1)) - cfg.modOf (key i))
        (setterEdit sem (key i) (locB i) none
          (chainCapture cfg sem M key src locS locB i)
          (stagesFrom M 0 (cfg.modOf (key i) + 1) (src (i + 1)))))

/-- Getter hook record as registered by `_intervention_getter`. -/
def mkGetter (hid : Nat) (k : String) (l : Loc) : Hook := ⟨hid, .getter, k, l, [], none⟩

/-- Setter hook record as registered by `_intervention_setter` with no
subspace. -/
def mkSetter (hid : Nat) (k : String) (lS lB : Loc) : Hook := ⟨hid, .setter, k, lS, lB, none⟩

/-- Closed form of the activation captured for parallel point `i`: gather at
that point's source location from the plain run of `sources[i]` up to and
including the point's module. -/
def parallelCapture (cfg : OrchConfig) (sem : Semantics) (M : OpaqueModel)
    (ulS : List Loc) (srcs : List Val) (i : Nat) : Val :=
  sem.gatherF (cfg.sortedKeys.getD i "") (ulS.getD i [])
    (stagesFrom M 0 (cfg.modOf (cfg.sortedKeys.getD i "") + 1) (srcs.getD i 0))

/-- The activations dict after the first `u` parallel getter runs. -/
def parallelCache (cfg : OrchConfig) (sem : Semantics) (M : OpaqueModel)
    (ulS : List Loc) (srcs : List Val) (u : Nat) : Cache :=
  (List.range u).map (fun i => (cfg.sortedKeys.getD i "", parallelCapture cfg sem M ulS srcs i))

/-- The activations dict after the first `u` serial getter runs: each key
maps to its chained capture. -/
def serialCache (cfg : OrchConfig) (sem : Semantics) (M : OpaqueModel)
    (key : Nat → String) (src : Nat → Val) (locS locB : Nat → Loc) (u : Nat) : Cache :=
  (List.range u).map (fun j => (key j, chainCapture cfg sem M key src locS locB j))

/-- Common shape of the states a forward call passes through after its
opening cleanup: the entry state `s` with counters zeroed, generation mode
off, and the given activations-dict contents, attached hooks and allocator
value. -/
def midState (s : OrchState) (c : Cache) (att : List Hook) (nh : Nat) : OrchState :=
  { heap := aupdate s.heap s.actRef c,
    actRef := s.actRef,
    getterCount := s.getterCount.map (fun p => (p.1, 0)),
    setterCount := s.setterCount.map (fun p => (p.1, 0)),
    attached := att,
    isGeneration := false,
    intervOnPrompt := s.intervOnPrompt,
    nextHid := nh }

/-- The state fields no model run (hooked or not) can change. -/
def RunFrame (s s' : OrchState) : Prop :=
  s'.attached = s.attached ∧ s'.nextHid = s.nextHid ∧ s'.actRef = s.actRef ∧
  s'.isGeneration = s.isGeneration ∧ s'.intervOnPrompt = s.intervOnPrompt

deriving instance DecidableEq for Except

/-! ### Concrete fixtures used by witnesses and counterexamples

A two-module model; two intervention points, "k0" hooked on module 0 and
"k1" on module 1; identity-style gather/scatter with a replacement
intervention. -/

def exM : OpaqueModel := ⟨2, fun i v => v + (i + 1), fun v => v⟩

def exSem : Semantics := ⟨fun _ _ v => v, fun _ _ _ r => r, fun _ _ src _ => src⟩

def exCfgSerial : OrchConfig := ⟨["k0", "k1"], fun k => if k = "k0" then 0 else 1, "serial"⟩

def exCfgParallel : OrchConfig := ⟨["k0", "k1"], fun k => if k = "k0" then 0 else 1, "parallel"⟩

def exState : OrchState :=
  ⟨[(0, [])], 0, [("k0", 0), ("k1", 0)], [("k0", 0), ("k1", 0)], [], false, none, 0⟩

def exLoc : Loc := [[0]]

def exGenState : OrchState :=
  ⟨[(0, [])], 0, [("k0", 0), ("k1", 0)], [("k0", 0), ("k1", 0)], [], true, some true, 0⟩

def exGetterHook : Hook := ⟨0, .getter, "k0", [[0]], [], none⟩

def exSetterHook : Hook := ⟨1, .setter, "k0", [[0]], [[0]], none⟩

/-- A state whose heap also holds a caller-supplied activations dict (cell 7)
with entries for both registered keys. -/
def exStateAct : OrchState :=
  ⟨[(0, []), (7, [("k0", 100), ("k1", 200)])], 0,
   [("k0", 0), ("k1", 0)], [("k0", 0), ("k1", 0)], [], false, none, 0⟩

/-- A serial-mode forward call with precomputed activations whose location map
nevertheless contains the parallel key "sources->base". -/
def exArgsC6 : ForwardArgs :=
  ⟨1, none,
   [("sources->base", ([exLoc, exLoc], [exLoc, exLoc])),
    ("source_0->source_1", ([exLoc], [exLoc])), ("source_1->base", ([exLoc], [exLoc]))],
   some 7, none⟩

/-- A serial-mode forward call that fails partway: the location map has point
0's key "source_0->source_1" but not point 1's "source_1->base", so iteration
1 raises KeyError after point 0's setter hook was registered. -/
def exArgsC8err : ForwardArgs :=
  ⟨1, some [10, 20],
   [("source_0->source_1", ([exLoc], [exLoc])), ("bogus", ([exLoc], [exLoc]))],
   none, none⟩

/-- A serial-mode forward call that succeeds: both serial keys present. -/
def exArgsC8ok : ForwardArgs :=
  ⟨1, some [10, 20],
   [("source_0->source_1", ([exLoc], [exLoc])), ("source_1->base", ([exLoc], [exLoc]))],
   none, none⟩

/-- A parallel-mode forward call with two sources. -/
def exArgsC2 : ForwardArgs :=
  ⟨1, some [10, 20], [("sources->base", ([exLoc, exLoc], [exLoc, exLoc]))], none, none⟩

/-- A computation that never changes which dict cell `self.activations`
refers to. -/
def PreservesActRef {α : Type} (m : PyM α) : Prop :=
  ∀ s, ((m s).2.1).actRef = s.actRef

/-- A computation that leaves the state unchanged and emits no events. -/
def StatePure {α : Type} (m : PyM α) : Prop :=
  ∀ s, ((m s).2.1 = s ∧ (m s).2.2 = [])

/-- All hooks present (attached, and allocated ids) were created at or after
allocator position `n₀`, and the allocator is past every attached hook. -/
def HidBound (n₀ : Nat) (s : OrchState) : Prop :=
  n₀ ≤ s.nextHid ∧ ∀ h ∈ s.attached, n₀ ≤ h.hid ∧ h.hid < s.nextHid

/-- Every hook recorded in the trace was created at or after allocator
position `n₀`. -/
def EvOK (n₀ : Nat) (t : List Event) : Prop :=
  ∀ e ∈ t, ∀ h ∈ e.hooks, n₀ ≤ h.hid

/-- Hoare triple over the embedded effects: from a state satisfying `P`, a
successful run establishes `Q` and emits only fresh-hook events; a failing
run still emits only fresh-hook events. -/
def PyTriple (n₀ : Nat) (P : OrchState → Prop) {α : Type} (m : PyM α)
    (Q : α → OrchState → Prop) : Prop :=
  ∀ s, P s →
    (∀ a s' t, m s = (.ok a, s', t) → Q a s' ∧ EvOK n₀ t) ∧
    (∀ e s' t, m s = (.error e, s', t) → EvOK n₀ t)

/-! ### Proofs -/

theorem PyM.bind_assoc {α β γ : Type} (m : PyM α) (f : α → PyM β) (g : β → PyM γ) :
    PyM.bind (PyM.bind m f) g = PyM.bind m (fun a => PyM.bind (f a) g) := by
  funext s
  simp only [PyM.bind]
  rcases hm : m s with ⟨r, s', t₁⟩
  cases r with
  | error e => rfl
  | ok a =>
    rcases hf : f a s' with ⟨r₂, s'', t₂⟩
    simp only [hf]
    cases r₂ with
    | error e => rfl
    | ok b =>
      rcases hg : g b s'' with ⟨r₃, s₃, t₃⟩
      simp [hg]

theorem PyM.pure_bind {α β : Type} (a : α) (f : α → PyM β) :
    PyM.bind (PyM.pure a) f = f a := by
  funext s
  simp only [PyM.bind, PyM.pure]
  rcases f a s with ⟨r, s', t⟩
  simp

theorem PyM.bind_pure {α : Type} (m : PyM α) : PyM.bind m PyM.pure = m := by
  funext s
  simp only [PyM.bind, PyM.pure]
  rcases hm : m s with ⟨r, s', t⟩
  cases r <;> simp

theorem RunFrame.rfl' (s : OrchState) : RunFrame s s := ⟨rfl, rfl, rfl, rfl, rfl⟩

theorem RunFrame.trans' {s₁ s₂ s₃ : OrchState} (h₁ : RunFrame s₁ s₂) (h₂ : RunFrame s₂ s₃) :
    RunFrame s₁ s₃ := by
  obtain ⟨a₁, b₁, c₁, d₁, e₁⟩ := h₁
  obtain ⟨a₂, b₂, c₂, d₂, e₂⟩ := h₂
  exact ⟨a₂.trans a₁, b₂.trans b₁, c₂.trans c₁, d₂.trans d₁, e₂.trans e₁⟩

theorem fireHook_frame (sem : Semantics) (h : Hook) (v : Val) (s : OrchState) :
    RunFrame s (fireHook sem h v s).2.1 ∧ (fireHook sem h v s).2.2 = [] := by
  unfold fireHook
  cases hk : h.kind
  case getter =>
    cases hgb : s.isGeneration
    case false => exact ⟨⟨rfl, rfl, rfl, rfl, rfl⟩, rfl⟩
    case true =>
      rcases hookGate s.intervOnPrompt s.getterCount h.key with ⟨counts', r⟩
      rcases r with e | pb
      · exact ⟨⟨rfl, rfl, rfl, hgb.symm, rfl⟩, rfl⟩
      · cases pb
        · exact ⟨⟨rfl, rfl, rfl, hgb.symm, rfl⟩, rfl⟩
        · exact ⟨⟨rfl, rfl, rfl, hgb.symm, rfl⟩, rfl⟩
  case setter =>
    cases hgb : s.isGeneration
    case false => exact ⟨⟨rfl, rfl, rfl, rfl, rfl⟩, rfl⟩
    case true =>
      rcases hookGate s.intervOnPrompt s.setterCount h.key with ⟨counts', r⟩
      rcases r with e | pb
      · exact ⟨⟨rfl, rfl, rfl, hgb.symm, rfl⟩, rfl⟩
      · cases pb
        · exact ⟨⟨rfl, rfl, rfl, hgb.symm, rfl⟩, rfl⟩
        · exact ⟨⟨rfl, rfl, rfl, hgb.symm, rfl⟩, rfl⟩

theorem fireHooksAt_frame (cfg : OrchConfig) (sem : Semantics) (hooks : List Hook) (m : Nat) :
    ∀ v s, RunFrame s ((fireHooksAt cfg sem hooks m v) s).2.1 ∧
           ((fireHooksAt cfg sem hooks m v) s).2.2 = [] := by
  induction hooks with
  | nil => intro v s; exact ⟨RunFrame.rfl' s, rfl⟩
  | cons h t ih =>
    intro v s
    unfold fireHooksAt
    by_cases hm : cfg.modOf h.key = m
    · rw [if_pos hm]
      simp only [PyM.bind]
      rcases hfh : fireHook sem h v s with ⟨r, s', t₁⟩
      have hframe := fireHook_frame sem h v s
      rw [hfh] at hframe
      cases r with
      | error e => exact ⟨hframe.1, hframe.2⟩
      | ok v' =>
        dsimp only
        rcases hrec : (fireHooksAt cfg sem t m v') s' with ⟨r₂, s'', t₂⟩
        have hrec' := ih v' s'
        rw [hrec] at hrec'
        exact ⟨RunFrame.trans' hframe.1 hrec'.1,
          by simp [show t₁ = [] from hframe.2, show t₂ = [] from hrec'.2]⟩
    · rw [if_neg hm]
      exact ih v s

theorem runFrom_frame (cfg : OrchConfig) (sem : Semantics) (M : OpaqueModel)
    (hooks : List Hook) :
    ∀ cnt lo v s, RunFrame s ((runFrom cfg sem M hooks lo cnt v) s).2.1 ∧
                  ((runFrom cfg sem M hooks lo cnt v) s).2.2 = [] := by
  intro cnt
  induction cnt with
  | zero => intro lo v s; exact ⟨RunFrame.rfl' s, rfl⟩
  | succ c ih =>
    intro lo v s
    unfold runFrom
    simp only [PyM.bind]
    rcases hfa : fireHooksAt cfg sem hooks lo (M.step lo v) s with ⟨r, s', t₁⟩
    have h₁ := fireHooksAt_frame cfg sem hooks lo (M.step lo v) s
    rw [hfa] at h₁
    cases r with
    | error e => exact ⟨h₁.1, h₁.2⟩
    | ok v' =>
      dsimp only
      rcases hrec : runFrom cfg sem M hooks (lo + 1) c v' s' with ⟨r₂, s'', t₂⟩
      have h₂ := ih (lo + 1) v' s'
      rw [hrec] at h₂
      exact ⟨RunFrame.trans' h₁.1 h₂.1,
        by simp [show t₁ = [] from h₁.2, show t₂ = [] from h₂.2]⟩

theorem modelCall_frame (cfg : OrchConfig) (sem : Semantics) (M : OpaqueModel)
    (x : Val) (s : OrchState) :
    RunFrame s ((modelCall cfg sem M x) s).2.1 ∧
    ((modelCall cfg sem M x) s).2.2 = [⟨false, x, s.attached, heapCache s⟩] := by
  unfold modelCall
  rcases hr : runFrom cfg sem M s.attached 0 M.numModules x s with ⟨r, s', t⟩
  have h := runFrom_frame cfg sem M s.attached M.numModules 0 x s
  rw [hr] at h
  exact ⟨h.1, by simp [show t = [] from h.2]⟩

theorem genLoop_frame (cfg : OrchConfig) (sem : Semantics) (M : OpaqueModel)
    (hooks : List Hook) :
    ∀ g v s, RunFrame s ((genLoop cfg sem M hooks g v) s).2.1 ∧
             ((genLoop cfg sem M hooks g v) s).2.2 = [] := by
  intro g
  induction g with
  | zero => intro v s; exact ⟨RunFrame.rfl' s, rfl⟩
  | succ g ih =>
    intro v s
    unfold genLoop
    simp only [PyM.bind]
    rcases hr : runFrom cfg sem M hooks 0 M.numModules (M.nextInput v) s with ⟨r, s', t₁⟩
    have h₁ := runFrom_frame cfg sem M hooks M.numModules 0 (M.nextInput v) s
    rw [hr] at h₁
    cases r with
    | error e => exact ⟨h₁.1, h₁.2⟩
    | ok v' =>
      dsimp only
      rcases hrec : genLoop cfg sem M hooks g v' s' with ⟨r₂, s'', t₂⟩
      have h₂ := ih v' s'
      rw [hrec] at h₂
      exact ⟨RunFrame.trans' h₁.1 h₂.1,
        by simp [show t₁ = [] from h₁.2, show t₂ = [] from h₂.2]⟩

theorem stagesFrom_snoc (M : OpaqueModel) :
    ∀ cnt lo v, stagesFrom M lo (cnt + 1) v = M.step (lo + cnt) (stagesFrom M lo cnt v) := by
  intro cnt
  induction cnt with
  | zero => intro lo v; rfl
  | succ c ih =>
    intro lo v
    show stagesFrom M (lo + 1) (c + 1) (M.step lo v) = _
    rw [ih (lo + 1) (M.step lo v)]
    have : lo + 1 + c = lo + (c + 1) := by omega
    rw [this]
    rfl

theorem fireHooksAt_cons (cfg : OrchConfig) (sem : Semantics) (h : Hook) (t : List Hook)
    (m : Nat) (v : Val) :
    fireHooksAt cfg sem (h :: t) m v
      = if cfg.modOf h.key = m
        then PyM.bind (fireHook sem h v) (fun v' => fireHooksAt cfg sem t m v')
        else fireHooksAt cfg sem t m v := rfl

theorem fireHooksAt_skip (cfg : OrchConfig) (sem : Semantics) (hooks : List Hook) (m : Nat)
    (v : Val) (hout : ∀ h ∈ hooks, cfg.modOf h.key ≠ m) :
    fireHooksAt cfg sem hooks m v = PyM.pure v := by
  induction hooks with
  | nil => rfl
  | cons h t ih =>
    unfold fireHooksAt
    rw [if_neg (hout h (by simp))]
    exact ih (fun h' hh' => hout h' (by simp [hh']))

theorem runFrom_skip (cfg : OrchConfig) (sem : Semantics) (M : OpaqueModel)
    (hooks : List Hook) :
    ∀ cnt lo v, (∀ h ∈ hooks, cfg.modOf h.key < lo ∨ lo + cnt ≤ cfg.modOf h.key) →
      runFrom cfg sem M hooks lo cnt v = PyM.pure (stagesFrom M lo cnt v) := by
  intro cnt
  induction cnt with
  | zero => intro lo v _; rfl
  | succ c ih =>
    intro lo v hout
    show PyM.bind (fireHooksAt cfg sem hooks lo (M.step lo v)) _ = _
    rw [fireHooksAt_skip cfg sem hooks lo (M.step lo v)
        (fun h hh => by rcases hout h hh with h' | h' <;> omega)]
    rw [PyM.pure_bind]
    rw [ih (lo + 1) (M.step lo v) (fun h hh => by rcases hout h hh with h' | h' <;> omega)]
    rfl

theorem runFrom_one (cfg : OrchConfig) (sem : Semantics) (M : OpaqueModel)
    (hooks : List Hook) (lo : Nat) (v : Val) :
    runFrom cfg sem M hooks lo 1 v
      = PyM.bind (fireHooksAt cfg sem hooks lo (M.step lo v)) PyM.pure := rfl

theorem runFrom_split (cfg : OrchConfig) (sem : Semantics) (M : OpaqueModel)
    (hooks : List Hook) :
    ∀ c₁ c₂ lo v, runFrom cfg sem M hooks lo (c₁ + c₂) v
      = PyM.bind (runFrom cfg sem M hooks lo c₁ v)
          (fun v' => runFrom cfg sem M hooks (lo + c₁) c₂ v') := by
  intro c₁
  induction c₁ with
  | zero =>
    intro c₂ lo v
    rw [Nat.zero_add]
    show _ = PyM.bind (PyM.pure v) fun v' => runFrom cfg sem M hooks (lo + 0) c₂ v'
    rw [PyM.pure_bind]
    rfl
  | succ c ih =>
    intro c₂ lo v
    have h1 : c + 1 + c₂ = (c + c₂) + 1 := by omega
    rw [h1]
    show PyM.bind (fireHooksAt cfg sem hooks lo (M.step lo v))
        (fun v' => runFrom cfg sem M hooks (lo + 1) (c + c₂) v') = _
    simp only [ih c₂ (lo + 1)]
    show _ = PyM.bind (PyM.bind (fireHooksAt cfg sem hooks lo (M.step lo v))
        (fun v' => runFrom cfg sem M hooks (lo + 1) c v'))
        (fun v' => runFrom cfg sem M hooks (lo + (c + 1)) c₂ v')
    rw [PyM.bind_assoc]
    have h2 : lo + 1 + c = lo + (c + 1) := by omega
    simp only [h2]

theorem runFrom_drop (cfg : OrchConfig) (sem : Semantics) (M : OpaqueModel)
    (h : Hook) (t : List Hook) :
    ∀ cnt lo v, (cfg.modOf h.key < lo ∨ lo + cnt ≤ cfg.modOf h.key) →
      runFrom cfg sem M (h :: t) lo cnt v = runFrom cfg sem M t lo cnt v := by
  intro cnt
  induction cnt with
  | zero => intro lo v _; rfl
  | succ c ih =>
    intro lo v hout
    show PyM.bind (fireHooksAt cfg sem (h :: t) lo (M.step lo v)) _
      = PyM.bind (fireHooksAt cfg sem t lo (M.step lo v)) _
    have hne : cfg.modOf h.key ≠ lo := by omega
    rw [fireHooksAt_cons, if_neg hne]
    have hfun : (fun v' => runFrom cfg sem M (h :: t) (lo + 1) c v')
        = (fun v' => runFrom cfg sem M t (lo + 1) c v') :=
      funext fun v' => ih (lo + 1) v' (by omega)
    rw [hfun]

theorem runFrom_eq_hooksRun (cfg : OrchConfig) (sem : Semantics) (M : OpaqueModel) :
    ∀ (hooks : List Hook) (lo cnt : Nat) (v : Val),
      List.Pairwise (fun a b => cfg.modOf a.key < cfg.modOf b.key) hooks →
      (∀ h ∈ hooks, lo ≤ cfg.modOf h.key ∧ cfg.modOf h.key < lo + cnt) →
      runFrom cfg sem M hooks lo cnt v = hooksRun cfg sem M hooks lo cnt v := by
  intro hooks
  induction hooks with
  | nil =>
    intro lo cnt v _ _
    rw [runFrom_skip cfg sem M [] cnt lo v (by simp)]
    rfl
  | cons h t ih =>
    intro lo cnt v hpw hin
    obtain ⟨hlo, hhi⟩ := hin h (by simp)
    have htgt : ∀ h' ∈ t, cfg.modOf h.key < cfg.modOf h'.key :=
      fun h' hh' => (List.pairwise_cons.mp hpw).1 h' hh'
    have hskipt : ∀ v' : Val, fireHooksAt cfg sem t (cfg.modOf h.key) v' = PyM.pure v' :=
      fun v' => fireHooksAt_skip cfg sem t (cfg.modOf h.key) v'
        (fun h' hh' => by have := htgt h' hh'; omega)
    have hc₁ : cfg.modOf h.key + 1 - lo = (cfg.modOf h.key - lo) + 1 := by omega
    have hm : lo + (cfg.modOf h.key - lo) = cfg.modOf h.key := by omega
    -- the first chunk, up to and including the head hook's module:
    -- plain stages, then exactly the head hook fires
    have hfirst : runFrom cfg sem M (h :: t) lo (cfg.modOf h.key + 1 - lo) v
        = PyM.bind (fireHook sem h (stagesFrom M lo (cfg.modOf h.key + 1 - lo) v))
            PyM.pure := by
      rw [hc₁, runFrom_split]
      rw [runFrom_skip cfg sem M (h :: t) (cfg.modOf h.key - lo) lo v
          (by
            intro h' hh'
            rcases List.mem_cons.mp hh' with rfl | hh'
            · omega
            · exact Or.inr (by have := htgt h' hh'; omega))]
      rw [PyM.pure_bind, hm, runFrom_one]
      rw [fireHooksAt_cons, if_pos rfl]
      simp only [hskipt]
      have hstep : M.step (cfg.modOf h.key) (stagesFrom M lo (cfg.modOf h.key - lo) v)
          = stagesFrom M lo (cfg.modOf h.key + 1 - lo) v := by
        rw [hc₁, stagesFrom_snoc, hm]
      rw [hstep]
      rw [PyM.bind_assoc]
      have hfun : (fun v' => PyM.bind (PyM.pure v') (PyM.pure : Val → PyM Val))
          = (PyM.pure : Val → PyM Val) :=
        funext fun v' => PyM.pure_bind v' PyM.pure
      rw [hfun, hc₁]
    have hc : cnt = (cfg.modOf h.key + 1 - lo) + (lo + cnt - (cfg.modOf h.key + 1)) := by
      omega
    rw [hc, runFrom_split, hfirst, PyM.bind_assoc]
    have hm₂ : lo + (cfg.modOf h.key + 1 - lo) = cfg.modOf h.key + 1 := by omega
    simp only [PyM.pure_bind, hm₂]
    show PyM.bind (fireHook sem h (stagesFrom M lo (cfg.modOf h.key + 1 - lo) v))
        (fun v' => runFrom cfg sem M (h :: t) (cfg.modOf h.key + 1)
          (lo + cnt - (cfg.modOf h.key + 1)) v') = _
    unfold hooksRun
    have hfun : (fun v' => runFrom cfg sem M (h :: t) (cfg.modOf h.key + 1)
          (lo + cnt - (cfg.modOf h.key + 1)) v')
        = (fun v' => hooksRun cfg sem M t (cfg.modOf h.key + 1)
          (lo + cnt - (cfg.modOf h.key + 1)) v') := by
      funext v'
      rw [runFrom_drop cfg sem M h t _ _ v' (by omega)]
      exact ih (cfg.modOf h.key + 1) (lo + cnt - (cfg.modOf h.key + 1)) v'
        (List.pairwise_cons.mp hpw).2
        (fun h' hh' => by have := htgt h' hh'; have := (hin h' (by simp [hh'])).2; omega)
    rw [hfun]
    have harith : lo + (cfg.modOf h.key + 1 - lo + (lo + cnt - (cfg.modOf h.key + 1)))
        - (cfg.modOf h.key + 1) = lo + cnt - (cfg.modOf h.key + 1) := by omega
    rw [harith]

theorem modelGenerate_frame (cfg : OrchConfig) (sem : Semantics) (M : OpaqueModel)
    (g : Nat) (x : Val) (s : OrchState) :
    RunFrame s ((modelGenerate cfg sem M g x) s).2.1 ∧
    ((modelGenerate cfg sem M g x) s).2.2 = [⟨true, x, s.attached, heapCache s⟩] := by
  unfold modelGenerate
  simp only [PyM.bind]
  rcases hr : runFrom cfg sem M s.attached 0 M.numModules x s with ⟨r, s', t₁⟩
  have h₁ := runFrom_frame cfg sem M s.attached M.numModules 0 x s
  rw [hr] at h₁
  cases r with
  | error e => exact ⟨h₁.1, by simp [show t₁ = [] from h₁.2]⟩
  | ok v =>
    dsimp only
    rcases hg : genLoop cfg sem M s.attached g v s' with ⟨r₂, s'', t₂⟩
    have h₂ := genLoop_frame cfg sem M s.attached g v s'
    rw [hg] at h₂
    exact ⟨RunFrame.trans' h₁.1 h₂.1,
      by simp [show t₁ = [] from h₁.2, show t₂ = [] from h₂.2]⟩

theorem alookup_aupdate_self {α β : Type} [DecidableEq α]
    (l : List (α × β)) (a : α) (b : β) : alookup (aupdate l a b) a = some b := by
  induction l with
  | nil => simp [alookup, aupdate]
  | cons h t ih =>
    obtain ⟨x, y⟩ := h
    by_cases hx : x = a <;> simp [alookup, aupdate, hx, ih]

theorem alookup_aupdate_ne {α β : Type} [DecidableEq α]
    (l : List (α × β)) (a a' : α) (b : β) (h : a' ≠ a) :
    alookup (aupdate l a b) a' = alookup l a' := by
  have h' : a ≠ a' := fun he => h he.symm
  induction l with
  | nil => simp [alookup, aupdate, h']
  | cons hd t ih =>
    obtain ⟨x, y⟩ := hd
    by_cases hx : x = a
    · subst hx
      simp [alookup, aupdate, h']
    · by_cases hx' : x = a' <;> simp [alookup, aupdate, hx, hx', h, h', ih]

theorem pyDigitsRevAux_fuel :
    ∀ f f' n : Nat, n ≤ f → n ≤ f' → pyDigitsRevAux f n = pyDigitsRevAux f' n := by
  intro f
  induction f with
  | zero =>
    intro f' n hn _
    interval_cases n
    cases f' <;> rfl
  | succ f ih =>
    intro f' n hn hn'
    match n, f' with
    | 0, f' => cases f' <;> rfl
    | m + 1, 0 => omega
    | m + 1, f' + 1 =>
      show (m + 1) % 10 :: pyDigitsRevAux f ((m + 1) / 10)
          = (m + 1) % 10 :: pyDigitsRevAux f' ((m + 1) / 10)
      have hq : (m + 1) / 10 < m + 1 := Nat.div_lt_self (Nat.succ_pos m) (by omega)
      rw [ih f' ((m + 1) / 10) (by omega) (by omega)]

theorem pyDigitsRev_succ (n : Nat) :
    pyDigitsRev (n + 1) = (n + 1) % 10 :: pyDigitsRev ((n + 1) / 10) := by
  show (n + 1) % 10 :: pyDigitsRevAux n ((n + 1) / 10)
      = (n + 1) % 10 :: pyDigitsRevAux ((n + 1) / 10) ((n + 1) / 10)
  have hq : (n + 1) / 10 < n + 1 := Nat.div_lt_self (Nat.succ_pos n) (by omega)
  rw [pyDigitsRevAux_fuel n ((n + 1) / 10) ((n + 1) / 10) (by omega) (le_refl _)]

theorem ofDigitsRev_pyDigitsRev : ∀ n : Nat, ofDigitsRev (pyDigitsRev n) = n := by
  intro n
  induction n using Nat.strong_induction_on with
  | _ n ih =>
    match n with
    | 0 => rfl
    | m + 1 =>
      rw [pyDigitsRev_succ]
      have hq : (m + 1) / 10 < m + 1 := Nat.div_lt_self (Nat.succ_pos m) (by omega)
      show (m + 1) % 10 + 10 * ofDigitsRev (pyDigitsRev ((m + 1) / 10)) = m + 1
      rw [ih _ hq, Nat.mod_add_div]

theorem pyDigitsRev_lt_ten : ∀ n : Nat, ∀ d ∈ pyDigitsRev n, d < 10 := by
  intro n
  induction n using Nat.strong_induction_on with
  | _ n ih =>
    match n with
    | 0 => intro d hd; simp [pyDigitsRev, pyDigitsRevAux] at hd
    | m + 1 =>
      rw [pyDigitsRev_succ]
      intro d hd
      rcases List.mem_cons.mp hd with h | h
      · subst h; exact Nat.mod_lt _ (by omega)
      · exact ih _ (Nat.div_lt_self (Nat.succ_pos m) (by omega)) d h

theorem ofDigitsRev_reverse_pyDigits (n : Nat) : ofDigitsRev (pyDigits n).reverse = n := by
  by_cases h : n = 0
  · subst h; rfl
  · simp only [pyDigits, if_neg h, List.reverse_reverse]
    exact ofDigitsRev_pyDigitsRev n

theorem pyDigits_lt_ten (n : Nat) : ∀ d ∈ pyDigits n, d < 10 := by
  intro d hd
  by_cases h : n = 0
  · subst h; simp [pyDigits] at hd; omega
  · simp only [pyDigits, if_neg h, List.mem_reverse] at hd
    exact pyDigitsRev_lt_ten n d hd

theorem digitChar_inj : ∀ d < 10, ∀ e < 10, digitChar d = digitChar e → d = e := by decide

theorem digitChar_ne_hash : ∀ d < 10, digitChar d ≠ '#' := by decide

theorem map_digitChar_inj :
    ∀ l₁ l₂ : List Nat, (∀ d ∈ l₁, d < 10) → (∀ d ∈ l₂, d < 10) →
      l₁.map digitChar = l₂.map digitChar → l₁ = l₂ := by
  intro l₁
  induction l₁ with
  | nil => intro l₂ _ _ h; cases l₂ <;> simp_all
  | cons d t ih =>
    intro l₂ h₁ h₂ h
    cases l₂ with
    | nil => simp at h
    | cons e t₂ =>
      simp only [List.map_cons, List.cons.injEq] at h
      have hd : d = e :=
        digitChar_inj d (h₁ d (by simp)) e (h₂ e (by simp)) h.1
      have ht : t = t₂ :=
        ih t₂ (fun x hx => h₁ x (by simp [hx])) (fun x hx => h₂ x (by simp [hx])) h.2
      rw [hd, ht]

theorem pyNatStr_inj : ∀ n m : Nat, pyNatStr n = pyNatStr m → n = m := by
  intro n m h
  have hdata : (pyDigits n).map digitChar = (pyDigits m).map digitChar :=
    congrArg String.data h
  have hdig : pyDigits n = pyDigits m :=
    map_digitChar_inj _ _ (pyDigits_lt_ten n) (pyDigits_lt_ten m) hdata
  have := ofDigitsRev_reverse_pyDigits n
  rw [hdig, ofDigitsRev_reverse_pyDigits m] at this
  exact this.symm

theorem pyNatStr_no_hash (n : Nat) : ∀ c ∈ (pyNatStr n).data, c ≠ '#' := by
  intro c hc
  simp only [pyNatStr, String.mk, List.mem_map] at hc
  obtain ⟨d, hd, rfl⟩ := hc
  exact digitChar_ne_hash d (pyDigits_lt_ten n d hd)

theorem append_hash_eq :
    ∀ p₁ p₂ a b : List Char, '#' ∉ a → '#' ∉ b →
      p₁ ++ '#' :: a = p₂ ++ '#' :: b → p₁ = p₂ ∧ a = b := by
  intro p₁
  induction p₁ with
  | nil =>
    intro p₂ a b ha hb h
    cases p₂ with
    | nil => simpa using h
    | cons c p₂' =>
      simp only [List.nil_append, List.cons_append, List.cons.injEq] at h
      exact absurd (h.2 ▸ List.mem_append_right p₂' (List.mem_cons_self _ _)) ha
  | cons c p₁' ih =>
    intro p₂ a b ha hb h
    cases p₂ with
    | nil =>
      simp only [List.cons_append, List.nil_append, List.cons.injEq] at h
      exact absurd (h.2.symm ▸ List.mem_append_right p₁' (List.mem_cons_self _ _)) hb
    | cons d p₂' =>
      simp only [List.cons_append, List.cons.injEq] at h
      obtain ⟨he, hr⟩ := ih p₂' a b ha hb h.2
      exact ⟨by rw [h.1, he], hr⟩

theorem getRepresentationKey_key (counter : List (String × Nat))
    (r : AlignableRepresentation) :
    (getRepresentationKey counter r).2
      = keyProposal r ++ "#" ++ pyNatStr (cntOf counter (keyProposal r)) := by
  unfold getRepresentationKey cntOf
  rcases h : alookup counter (keyProposal r) with _ | c <;> simp [h]

theorem getRepresentationKey_cnt (counter : List (String × Nat))
    (r : AlignableRepresentation) (p : String) :
    cntOf (getRepresentationKey counter r).1 p
      = if p = keyProposal r then cntOf counter p + 1 else cntOf counter p := by
  by_cases hp : p = keyProposal r
  · subst hp
    unfold getRepresentationKey cntOf
    rcases h : alookup counter (keyProposal r) with _ | c <;>
      simp [h, alookup_aupdate_self]
  · unfold getRepresentationKey cntOf
    rcases h : alookup counter (keyProposal r) with _ | c <;>
      simp [h, hp, alookup_aupdate_ne _ _ _ _ hp]

theorem cntOf_step_le (counter : List (String × Nat))
    (r : AlignableRepresentation) (p : String) :
    cntOf counter p ≤ cntOf (getRepresentationKey counter r).1 p := by
  rw [getRepresentationKey_cnt]
  split <;> omega

/-- Equal key strings force equal proposals and equal collision counters:
the collision counter rendering contains no hash sign, so a key splits
uniquely at its final hash sign. -/
theorem keyString_inj (p₁ p₂ : String) (c₁ c₂ : Nat)
    (h : p₁ ++ "#" ++ pyNatStr c₁ = p₂ ++ "#" ++ pyNatStr c₂) :
    p₁ = p₂ ∧ c₁ = c₂ := by
  have hdata : p₁.data ++ '#' :: (pyNatStr c₁).data
      = p₂.data ++ '#' :: (pyNatStr c₂).data := by
    have := congrArg String.data h
    simpa [String.data_append] using this
  have h₁ : '#' ∉ (pyNatStr c₁).data := fun hc => pyNatStr_no_hash c₁ '#' hc rfl
  have h₂ : '#' ∉ (pyNatStr c₂).data := fun hc => pyNatStr_no_hash c₂ '#' hc rfl
  obtain ⟨hp, hc⟩ := append_hash_eq _ _ _ _ h₁ h₂ hdata
  refine ⟨String.ext hp, pyNatStr_inj c₁ c₂ (String.ext hc)⟩

theorem registerKeysAux_mem (l : List AlignableRepresentation) :
    ∀ counter k, k ∈ registerKeysAux counter l →
      ∃ r ∈ l, ∃ c, cntOf counter (keyProposal r) ≤ c ∧
        k = keyProposal r ++ "#" ++ pyNatStr c := by
  induction l with
  | nil => intro counter k hk; simp [registerKeysAux] at hk
  | cons r t ih =>
    intro counter k hk
    simp only [registerKeysAux, List.mem_cons] at hk
    rcases hk with hk | hk
    · exact ⟨r, by simp, cntOf counter (keyProposal r), le_refl _,
        by rw [hk, getRepresentationKey_key]⟩
    · obtain ⟨r', hr', c, hc, hk'⟩ := ih (getRepresentationKey counter r).1 k hk
      exact ⟨r', by simp [hr'], c, le_trans (cntOf_step_le counter r _) hc, hk'⟩

theorem registerKeysAux_nodup (l : List AlignableRepresentation) :
    ∀ counter, (registerKeysAux counter l).Nodup := by
  induction l with
  | nil => intro counter; simp [registerKeysAux]
  | cons r t ih =>
    intro counter
    simp only [registerKeysAux, List.nodup_cons]
    refine ⟨fun hmem => ?_, ih _⟩
    obtain ⟨r', hr', c, hc, hk'⟩ :=
      registerKeysAux_mem t (getRepresentationKey counter r).1 _ hmem
    rw [getRepresentationKey_key] at hk'
    obtain ⟨hp, hcnt⟩ := keyString_inj _ _ _ _ hk'
    rw [getRepresentationKey_cnt, ← hp, if_pos rfl] at hc
    omega

theorem registerKeysAux_collide (l : List AlignableRepresentation) :
    ∀ counter p, (∀ r ∈ l, keyProposal r = p) →
      registerKeysAux counter l
        = (List.range l.length).map (fun i => p ++ "#" ++ pyNatStr (cntOf counter p + i)) := by
  induction l with
  | nil => intro counter p _; simp [registerKeysAux]
  | cons r t ih =>
    intro counter p hp
    have hr : keyProposal r = p := hp r (by simp)
    have hcnt : cntOf (getRepresentationKey counter r).1 p = cntOf counter p + 1 := by
      rw [getRepresentationKey_cnt, if_pos hr.symm]
    simp only [registerKeysAux, List.length_cons, List.range_succ_eq_map, List.map_cons,
      List.map_map]
    rw [getRepresentationKey_key, hr,
      ih (getRepresentationKey counter r).1 p (fun r' hr' => hp r' (by simp [hr'])), hcnt]
    simp only [Nat.add_zero]
    congr 1
    apply List.map_congr_left
    intro i _
    have harith : cntOf counter p + 1 + i = cntOf counter p + (i + 1) := by omega
    simp [Function.comp_apply, harith]

/-- Claim C9: registering N descriptors that collide on the addressing fields
(layer, representation kind, unit, max units) yields the N distinct keys
`proposal#0`, ..., `proposal#(N-1)` in registration order, and the keys of any
registration sequence are pairwise distinct for the lifetime of the instance. -/
theorem C9_key_registry (l : List AlignableRepresentation) :
    (registerKeys l).Nodup ∧
      ∀ p, (∀ r ∈ l, keyProposal r = p) →
        registerKeys l = (List.range l.length).map (fun c => p ++ "#" ++ pyNatStr c) := by
  constructor
  · exact registerKeysAux_nodup l []
  · intro p hp
    have := registerKeysAux_collide l [] p hp
    simpa [registerKeys, cntOf, alookup] using this

/-- Witness for C9: three descriptors with identical addressing fields receive
the keys suffixed `#0`, `#1`, `#2`. -/
theorem C9_key_registry_witness :
    (∀ r ∈ [({ alignable_layer := 2, alignable_representation_type := "block_output",
               alignable_unit := "pos", max_number_of_units := 1 } : AlignableRepresentation),
             { alignable_layer := 2, alignable_representation_type := "block_output",
               alignable_unit := "pos", max_number_of_units := 1 },
             { alignable_layer := 2, alignable_representation_type := "block_output",
               alignable_unit := "pos", max_number_of_units := 1 }],
        keyProposal r = "layer.2.repr.block_output.unit.pos.nunit.1") ∧
      registerKeys [{ alignable_layer := 2, alignable_representation_type := "block_output",
                      alignable_unit := "pos", max_number_of_units := 1 },
                    { alignable_layer := 2, alignable_representation_type := "block_output",
                      alignable_unit := "pos", max_number_of_units := 1 },
                    { alignable_layer := 2, alignable_representation_type := "block_output",
                      alignable_unit := "pos", max_number_of_units := 1 }]
        = (List.range 3).map
            (fun c => "layer.2.repr.block_output.unit.pos.nunit.1" ++ "#" ++ pyNatStr c) :=
  ⟨by decide, (C9_key_registry _).2 _ (by decide)⟩

theorem aupdate_aupdate_self {α β : Type} [DecidableEq α]
    (l : List (α × β)) (a : α) (b b' : β) :
    aupdate (aupdate l a b) a b' = aupdate l a b' := by
  induction l with
  | nil => simp [aupdate]
  | cons h t ih =>
    obtain ⟨x, y⟩ := h
    by_cases hx : x = a
    · subst hx; simp [aupdate]
    · simp [aupdate, hx, ih]

theorem cleanupStates_idem (s : OrchState) :
    cleanupStates (cleanupStates s) = cleanupStates s := by
  unfold cleanupStates setHeapCache
  dsimp only
  rw [aupdate_aupdate_self, List.map_map, List.map_map]
  rfl

/-- Claim C5: the cleanup phase that opens every top-level `forward` and
`generate` call empties the activations dict, zeroes both per-key call
counters, removes every forward hook, and exits generation mode; and both
entry points compute exactly the same function of a residue-laden state as of
the cleaned state, so no cached activation, counter value, or hook
registration left by a previous call (failed or not) can affect the new
call. -/
theorem C5_cleanup_isolation (s : OrchState) :
    (heapCache (cleanupStates s) = [] ∧
     (∀ p ∈ (cleanupStates s).getterCount, p.2 = 0) ∧
     (∀ p ∈ (cleanupStates s).setterCount, p.2 = 0) ∧
     (cleanupStates s).attached = [] ∧
     (cleanupStates s).isGeneration = false) ∧
    (∀ cfg sem M args, forward cfg sem M args s = forward cfg sem M args (cleanupStates s)) ∧
    (∀ cfg sem M gargs, generate cfg sem M gargs s = generate cfg sem M gargs (cleanupStates s)) := by
  refine ⟨⟨?_, ?_, ?_, rfl, rfl⟩, ?_, ?_⟩
  · simp [cleanupStates, setHeapCache, heapCache, alookup_aupdate_self]
  · intro p hp
    simp only [cleanupStates, setHeapCache, List.mem_map] at hp
    obtain ⟨q, _, rfl⟩ := hp
    rfl
  · intro p hp
    simp only [cleanupStates, setHeapCache, List.mem_map] at hp
    obtain ⟨q, _, rfl⟩ := hp
    rfl
  · intro cfg sem M args
    unfold forward
    simp only [PyM.bind, pmodifyState, cleanupStates_idem]
  · intro cfg sem M gargs
    unfold generate
    simp only [PyM.bind, pmodifyState, cleanupStates_idem]

/-- Claim C4: in generation mode with prompt-only intervention
(`intervene_on_prompt=True`), a hook callback performs its gather-and-cache
(getter) or transform-and-scatter (setter) action exactly on the first
invocation for its key — incrementing that key's counter from 0 to 1 — and is
a complete no-op (value, counters, cache and all other state untouched) on
every later invocation, whose counter stays as it was. -/
theorem C4_prompt_only_gating (sem : Semantics) (h : Hook) (s : OrchState) (v : Val) (c : Nat)
    (hgen : s.isGeneration = true) (hiop : s.intervOnPrompt = some true) :
    (h.kind = .getter → alookup s.getterCount h.key = some c →
      ((c = 0 → fireHook sem h v s
          = (.ok v, getterAction sem h { s with getterCount := aupdate s.getterCount h.key 1 } v,
             [])) ∧
       (c ≠ 0 → fireHook sem h v s = (.ok v, s, [])))) ∧
    (h.kind = .setter → alookup s.setterCount h.key = some c →
      ((c = 0 → fireHook sem h v s
          = (setterAction sem h { s with setterCount := aupdate s.setterCount h.key 1 } v,
             { s with setterCount := aupdate s.setterCount h.key 1 }, [])) ∧
       (c ≠ 0 → fireHook sem h v s = (.ok v, s, [])))) := by
  constructor
  · intro hk hcnt
    constructor
    · intro hc
      subst hc
      unfold fireHook hookGate
      simp [hk, hgen, hiop, hcnt]
    · intro hc
      unfold fireHook hookGate
      have hbeq : (c == 0) = false := by simp [hc]
      simp only [hk, hgen, hiop, hcnt, hbeq]
      simp
      rw [← hiop, ← hgen]
  · intro hk hcnt
    constructor
    · intro hc
      subst hc
      unfold fireHook hookGate
      simp [hk, hgen, hiop, hcnt]
    · intro hc
      unfold fireHook hookGate
      have hbeq : (c == 0) = false := by simp [hc]
      simp only [hk, hgen, hiop, hcnt, hbeq]
      simp
      rw [← hiop, ← hgen]

/-- Witness for C4: a getter hook for key "k0" in a generation-mode state with
counter 0, applied at value 5. -/
theorem C4_prompt_only_gating_witness :
    exGenState.isGeneration = true ∧ exGenState.intervOnPrompt = some true ∧
    exGetterHook.kind = .getter ∧ alookup exGenState.getterCount exGetterHook.key = some 0 ∧
    ((0 = 0 → fireHook exSem exGetterHook 5 exGenState
        = (.ok 5, getterAction exSem exGetterHook
            { exGenState with getterCount := aupdate exGenState.getterCount exGetterHook.key 1 } 5,
           [])) ∧
     ((0 : Nat) ≠ 0 → fireHook exSem exGetterHook 5 exGenState = (.ok 5, exGenState, []))) :=
  ⟨rfl, rfl, rfl, by decide,
   (C4_prompt_only_gating exSem exGetterHook exGenState 5 0 rfl rfl).1 rfl (by decide)⟩

/-- Claim C7 (code bug): `_batch_process_unit_location` cannot reconstruct the
serial location dict the claim (and `forward`'s serial mode) requires.
On the documented serial input format for two registered "pos"-unit points it
raises ValueError in its source-index scan, which runs int() on the string
"1.0.pos" obtained by splitting the key piece "source_1.0.pos" at "_"; even
the serial aggregation step alone raises KeyError on those inputs, because
line 842 builds the non-final prefix as "source_0->source1" with no
underscore before the successor index, while forward's serial mode looks up
"source_0->source_1". -/
theorem C7_batch_serial_key_bug :
    batchProcessUnitLocation "serial" ["pos", "pos"]
      [("source_0->source_1.0.pos", [[0]]), ("source_0->source_1.1.pos", [[1]]),
       ("source_1->base.0.pos", [[0]]), ("source_1->base.1.pos", [[2]])]
      = .error .valueError ∧
    serialAggr
      [("source_0->source_1.0.pos", [[0]]), ("source_0->source_1.1.pos", [[1]]),
       ("source_1->base.0.pos", [[0]]), ("source_1->base.1.pos", [[2]])] 2 ["pos", "pos"] 0
      = .error .keyError ∧
    serialLocKey 0 2 = "source_0->source_1" :=
  ⟨by decide, by decide, by decide⟩

/-- Claim C3 (code bug): `generate` never returns the intervened pair when
sources are supplied. Its setter-construction expressions (source lines 692
and 735) evaluate the bare name `subspaces`, which `generate` — unlike
`forward` — does not bind, so with at least one registered intervention point
both modes raise NameError at the first setter construction: here a parallel
and a serial two-point generate call with sources both fail, while the
sources-free pass-through completes and returns the generation output. -/
theorem C3_generate_unbound_subspaces :
    (generate exCfgParallel exSem exM
        ⟨1, some [10, 20], [("sources->base", ([exLoc, exLoc], [exLoc, exLoc]))],
         none, true, 3⟩ exState).1 = .error .nameError ∧
    (generate exCfgSerial exSem exM
        ⟨1, some [10, 20],
         [("source_0->source_1", ([exLoc], [exLoc])), ("source_1->base", ([exLoc], [exLoc]))],
         none, true, 3⟩ exState).1 = .error .nameError ∧
    (generate exCfgParallel exSem exM ⟨1, none, [], none, true, 3⟩ exState).1
      = .ok (13, none) :=
  ⟨by decide, by decide, by decide⟩

theorem modelCall_no_hooks (cfg : OrchConfig) (sem : Semantics) (M : OpaqueModel)
    (x : Val) (s : OrchState) (h : s.attached = []) :
    modelCall cfg sem M x s
      = (.ok (stagesFrom M 0 M.numModules x), s, [⟨false, x, [], heapCache s⟩]) := by
  unfold modelCall
  rw [h, runFrom_skip cfg sem M [] M.numModules 0 x (by simp)]
  rfl

/-- Counterexample to claim C6: in serial mode with precomputed activations,
forward does not require "sources->base" to be absent from the unit-location
map — here the map contains "sources->base" yet the call succeeds, because
the guard of source line 510 skips the serial-mode asserts whenever
`activations_sources` is supplied. -/
theorem C6_serial_accepts_sources_to_base :
    exCfgSerial.mode = "serial" ∧
    alookup exArgsC6.unitLocations "sources->base" ≠ none ∧
    (forward exCfgSerial exSem exM exArgsC6 exStateAct).1 = .ok (4, some 200) :=
  ⟨rfl, by decide, by decide⟩

/-- Claim C6 (amended): forward fails fast on configuration errors — a call
whose number of sources (or of precomputed activation entries) differs from
the number of registered intervention points is rejected; parallel mode
requires "sources->base" present in the unit-location map; serial mode with
sources supplied and no precomputed activations requires "sources->base"
absent, requires as many location entries as sources, and requires the
per-adjacent-pair serial keys present (a missing serial key for point 0
raises KeyError before any intervention); with precomputed activations
supplied, serial mode skips the "sources->base" absence check. -/
theorem C6_validation (cfg : OrchConfig) (sem : Semantics) (M : OpaqueModel)
    (args : ForwardArgs) (s : OrchState) :
    (∀ srcs, args.sources = some srcs → srcs.length ≠ cfg.sortedKeys.length →
      forward cfg sem M args s = (.error .assertionError, cleanupStates s, [])) ∧
    (∀ ref, args.sources = none → args.activationsSources = some ref →
      ((alookup (cleanupStates s).heap ref).getD []).length ≠ cfg.sortedKeys.length →
      forward cfg sem M args s = (.error .assertionError, cleanupStates s, [])) ∧
    (∀ srcs, cfg.mode = "parallel" → args.sources = some srcs →
      srcs.length = cfg.sortedKeys.length →
      alookup args.unitLocations "sources->base" = none →
      forward cfg sem M args s = (.error .assertionError, cleanupStates s, [])) ∧
    (∀ srcs e, cfg.mode = "serial" → args.sources = some srcs →
      args.activationsSources = none → srcs.length = cfg.sortedKeys.length →
      alookup args.unitLocations "sources->base" = some e →
      forward cfg sem M args s = (.error .assertionError, cleanupStates s, [])) ∧
    (∀ srcs, cfg.mode = "serial" → args.sources = some srcs →
      args.activationsSources = none → srcs.length = cfg.sortedKeys.length →
      srcs.length ≠ args.unitLocations.length →
      alookup args.unitLocations "sources->base" = none →
      forward cfg sem M args s = (.error .assertionError, cleanupStates s, [])) ∧
    (∀ srcs, cfg.mode = "serial" → args.sources = some srcs →
      args.activationsSources = none → srcs.length = cfg.sortedKeys.length →
      srcs.length = args.unitLocations.length →
      alookup args.unitLocations "sources->base" = none →
      0 < cfg.sortedKeys.length →
      alookup args.unitLocations (serialLocKey 0 cfg.sortedKeys.length) = none →
      forward cfg sem M args s
        = (.error .keyError, cleanupStates s, [⟨false, args.base, [], []⟩])) := by
  have hA : (cleanupStates s).attached = [] := rfl
  have hC : heapCache (cleanupStates s) = [] := by
    simp [cleanupStates, setHeapCache, heapCache, alookup_aupdate_self]
  have hsp : ¬ (("serial" : String) = "parallel") := by decide
  refine ⟨?_, ?_, ?_, ?_, ?_, ?_⟩
  · intro srcs hsrc hne
    have hb : (srcs.length == cfg.sortedKeys.length) = false := by simp [hne]
    unfold forward
    simp [hsrc, PyM.bind, pmodifyState, passert, hb]
  · intro ref hsrc hact hne
    unfold forward
    simp [hsrc, hact, PyM.bind, pmodifyState, passertActLen, if_neg hne]
  · intro srcs hmode hsrc hlen hnone
    have hb : (srcs.length == cfg.sortedKeys.length) = true := by simp [hlen]
    unfold forward forwardCore forwardValidate
    simp [hsrc, PyM.bind, pmodifyState, passert, hb, hmode, hnone, pthrow]
  · intro srcs e hmode hsrc hact hlen hsome
    have hb : (srcs.length == cfg.sortedKeys.length) = true := by simp [hlen]
    unfold forward forwardCore forwardValidate
    simp [hsrc, hact, PyM.bind, pmodifyState, passert, hb, hmode, if_neg hsp, hsome, pthrow]
  · intro srcs hmode hsrc hact hlen hulne hnone
    have hb : (srcs.length == cfg.sortedKeys.length) = true := by simp [hlen]
    have hb₂ : (srcs.length == args.unitLocations.length) = false := by simp [hulne]
    unfold forward forwardCore forwardValidate
    simp [hsrc, hact, PyM.bind, pmodifyState, passert, hb, hb₂, hmode, if_neg hsp, hnone]
  · intro srcs hmode hsrc hact hlen hul hnone hpos hser
    rcases hkeys : cfg.sortedKeys with _ | ⟨k₀, kt⟩
    · rw [hkeys] at hpos; simp at hpos
    rw [hkeys] at hser hlen
    simp only [List.length_cons] at hser hlen
    have hb₂ : (srcs.length == args.unitLocations.length) = true := by simp [hul]
    have hul' : args.unitLocations.length = kt.length + 1 := by omega
    unfold forward forwardCore forwardValidate
    simp [hsrc, hact, PyM.bind, PyM.pure, pmodifyState, passert, hb₂, hul', hmode,
      if_neg hsp, hnone, hkeys, hlen, hser,
      modelCall_no_hooks cfg sem M args.base (cleanupStates s) hA,
      List.enum, serialLoop, pyDictGet, pthrow, hC]

/-- Witness for the amended C6: a serial-mode call with one source against two
registered intervention points is rejected with AssertionError. -/
theorem C6_validation_witness :
    ([(10 : Val)].length ≠ exCfgSerial.sortedKeys.length) ∧
    forward exCfgSerial exSem exM ⟨1, some [10], [], none, none⟩ exState
      = (.error .assertionError, cleanupStates exState, []) :=
  ⟨by decide,
   (C6_validation exCfgSerial exSem exM ⟨1, some [10], [], none, none⟩ exState).1
     [10] rfl (by decide)⟩

theorem preservesActRef_pure {α : Type} (a : α) : PreservesActRef (PyM.pure a) :=
  fun _ => rfl

theorem preservesActRef_pthrow {α : Type} (e : PyErr) :
    PreservesActRef (pthrow e : PyM α) := fun _ => rfl

theorem preservesActRef_bind {α β : Type} {m : PyM α} {f : α → PyM β}
    (hm : PreservesActRef m) (hf : ∀ a, PreservesActRef (f a)) :
    PreservesActRef (PyM.bind m f) := by
  intro s
  simp only [PyM.bind]
  rcases hq : m s with ⟨r, s', t⟩
  have hm' := hm s
  rw [hq] at hm'
  cases r with
  | error e => exact hm'
  | ok a =>
    dsimp only
    rcases hq₂ : f a s' with ⟨r₂, s'', t₂⟩
    have h₂ := hf a s'
    rw [hq₂] at h₂
    exact h₂.trans hm'

theorem preservesActRef_modelCall (cfg : OrchConfig) (sem : Semantics) (M : OpaqueModel)
    (x : Val) : PreservesActRef (modelCall cfg sem M x) :=
  fun s => (modelCall_frame cfg sem M x s).1.2.2.1

theorem preservesActRef_modelGenerate (cfg : OrchConfig) (sem : Semantics) (M : OpaqueModel)
    (g : Nat) (x : Val) : PreservesActRef (modelGenerate cfg sem M g x) :=
  fun s => (modelGenerate_frame cfg sem M g x s).1.2.2.1

theorem preservesActRef_attachHook (kind : HookKind) (key : String) (locS locB : Loc)
    (sub : Option Subsp) : PreservesActRef (attachHook kind key locS locB sub) :=
  fun _ => rfl

theorem preservesActRef_removeHandlers (ids : List Nat) :
    PreservesActRef (removeHandlers ids) := fun _ => rfl

theorem preservesActRef_pyListGet {β : Type} (l : List β) (i : Nat) :
    PreservesActRef (pyListGet l i) := by
  intro s
  unfold pyListGet
  cases l.get? i <;> rfl

theorem preservesActRef_subAt (subs : Option (List (Option Subsp))) (i : Nat) :
    PreservesActRef (subAt subs i) := by
  intro s
  unfold subAt
  rcases subs with _ | l
  · rfl
  · rcases hq : l.get? i with _ | x <;> simp only [hq] <;> rfl

theorem preservesActRef_interventionSetter :
    ∀ (keys : List String) (locsS locsB : List Loc) (subs : Option (List (Option Subsp))),
      PreservesActRef (interventionSetter keys locsS locsB subs) := by
  intro keys
  induction keys with
  | nil => intro locsS locsB subs _; rfl
  | cons k kt ih =>
    intro locsS locsB subs
    unfold interventionSetter
    rcases locsS with _ | ⟨locS, lst⟩
    · exact preservesActRef_pthrow _
    rcases locsB with _ | ⟨locB, lbt⟩
    · exact preservesActRef_pthrow _
    rcases subs with _ | subl
    · exact preservesActRef_bind (preservesActRef_attachHook _ _ _ _ _)
        (fun _ => preservesActRef_bind (ih lst lbt none)
          (fun _ => preservesActRef_pure _))
    · rcases subl with _ | ⟨sub, subt⟩
      · exact preservesActRef_pthrow _
      · exact preservesActRef_bind (preservesActRef_attachHook _ _ _ _ _)
          (fun _ => preservesActRef_bind (ih lst lbt (some subt))
            (fun _ => preservesActRef_pure _))

theorem preservesActRef_parallelActivationsCheck :
    ∀ keys : List String, PreservesActRef (parallelActivationsCheck keys) := by
  intro keys
  induction keys with
  | nil => intro _; rfl
  | cons k kt ih =>
    unfold parallelActivationsCheck
    refine preservesActRef_bind ?_ (fun _ => ih)
    intro s
    cases (alookup (heapCache s) k).isSome <;> rfl

theorem preservesActRef_parallelSetterLoop (ulS ulB : List Loc)
    (subs : Option (List (Option Subsp))) :
    ∀ (pairs : List (Nat × String)) (acc : List Nat),
      PreservesActRef (parallelSetterLoop ulS ulB subs pairs acc) := by
  intro pairs
  induction pairs with
  | nil => intro acc _; rfl
  | cons p pt ih =>
    intro acc
    obtain ⟨i, key⟩ := p
    unfold parallelSetterLoop
    exact preservesActRef_bind (preservesActRef_pyListGet _ _)
      (fun _ => preservesActRef_bind (preservesActRef_pyListGet _ _)
        (fun _ => preservesActRef_bind (preservesActRef_subAt _ _)
          (fun _ => preservesActRef_bind (preservesActRef_interventionSetter _ _ _ _)
            (fun _ => ih _))))

theorem PyM.bind_apply_ok {α β : Type} {m : PyM α} (f : α → PyM β) {s s' : OrchState}
    {a : α} {t : List Event} (h : m s = (.ok a, s', t)) :
    PyM.bind m f s = ((f a s').1, (f a s').2.1, t ++ (f a s').2.2) := by
  simp only [PyM.bind, h]

theorem PyM.bind_apply_error {α β : Type} {m : PyM α} (f : α → PyM β) {s s' : OrchState}
    {e : PyErr} {t : List Event} (h : m s = (.error e, s', t)) :
    PyM.bind m f s = (.error e, s', t) := by
  simp only [PyM.bind, h]

theorem forwardValidate_parallel (cfg : OrchConfig) (sources : Option (List Val))
    (ul : List (String × (List Loc × List Loc))) (acts : Option Nat)
    (e : List Loc × List Loc) (s : OrchState) (hmode : cfg.mode = "parallel")
    (h : alookup ul "sources->base" = some e) :
    forwardValidate cfg sources ul acts s = (.ok (some e), s, []) := by
  unfold forwardValidate
  rw [if_pos hmode, h]
  rfl

/-- Claim C10: a parallel-mode call given caller-supplied precomputed
activations rebinds `self.activations` to that very dict object rather than
copying it — the call leaves `actRef` pointing at the caller's heap cell
whatever else happens afterwards — and, consequently, the next top-level
call's opening cleanup clears the caller's dict in place: a subsequent plain
forward leaves the caller's cell holding the empty dict while completing
normally. -/
theorem C10_activations_aliasing (cfg : OrchConfig) (sem : Semantics) (M : OpaqueModel)
    (args : ForwardArgs) (ref : Nat) (s : OrchState)
    (hmode : cfg.mode = "parallel")
    (hact : args.activationsSources = some ref)
    (hsrc : args.sources = none)
    (hlen : ((alookup (cleanupStates s).heap ref).getD []).length = cfg.sortedKeys.length)
    (hsb : ∃ e, alookup args.unitLocations "sources->base" = some e) :
    (forward cfg sem M args s).2.1.actRef = ref ∧
    (∀ args₂ : ForwardArgs, args₂.sources = none → args₂.activationsSources = none →
      alookup (forward cfg sem M args₂ (forward cfg sem M args s).2.1).2.1.heap ref
        = some [] ∧
      (forward cfg sem M args₂ (forward cfg sem M args s).2.1).1
        = .ok (stagesFrom M 0 M.numModules args₂.base, none)) := by
  obtain ⟨⟨ulS, ulB⟩, hsb⟩ := hsb
  have e2 : passertActLen ref cfg.sortedKeys.length (cleanupStates s)
      = (.ok (), cleanupStates s, []) := by
    unfold passertActLen
    rw [if_pos hlen]
  have hfw : (forward cfg sem M args s).2.1
      = (forwardCore cfg sem M args (cleanupStates s)).2.1 := by
    unfold forward
    rw [PyM.bind_apply_ok _ (rfl :
      pmodifyState cleanupStates s = (.ok (), cleanupStates s, []))]
    simp only [hsrc, hact]
    rw [PyM.bind_apply_ok _ e2]
  have hcore : (forwardCore cfg sem M args (cleanupStates s)).2.1.actRef = ref := by
    unfold forwardCore
    rw [PyM.bind_apply_ok _
      (forwardValidate_parallel cfg args.sources args.unitLocations args.activationsSources
        ⟨ulS, ulB⟩ (cleanupStates s) hmode hsb)]
    dsimp only
    rw [PyM.bind_apply_ok _ (modelCall_no_hooks cfg sem M args.base (cleanupStates s) rfl)]
    dsimp only
    simp only [hmode, hact]
    rw [if_pos trivial]
    rw [PyM.bind_assoc]
    rw [PyM.bind_apply_ok _ (rfl :
      pmodifyState (fun s' => { s' with actRef := ref }) (cleanupStates s)
        = (.ok (), { cleanupStates s with actRef := ref }, []))]
    dsimp only
    have hrest : PreservesActRef
        (PyM.bind (parallelActivationsCheck cfg.sortedKeys) (fun _ =>
          PyM.bind (parallelSetterLoop ulS ulB args.subspaces cfg.sortedKeys.enum [])
            (fun setIds =>
          PyM.bind (modelCall cfg sem M args.base) (fun cf =>
          PyM.bind (removeHandlers setIds) (fun _ =>
          PyM.pure (stagesFrom M 0 M.numModules args.base, some cf)))))) :=
      preservesActRef_bind (preservesActRef_parallelActivationsCheck _)
        (fun _ => preservesActRef_bind (preservesActRef_parallelSetterLoop _ _ _ _ _)
          (fun _ => preservesActRef_bind (preservesActRef_modelCall _ _ _ _)
            (fun _ => preservesActRef_bind (preservesActRef_removeHandlers _)
              (fun _ => preservesActRef_pure _))))
    exact (hrest { cleanupStates s with actRef := ref }).trans rfl
  have href : (forward cfg sem M args s).2.1.actRef = ref := hfw ▸ hcore
  refine ⟨href, ?_⟩
  intro args₂ hs2 ha2
  set s₁ := (forward cfg sem M args s).2.1 with hs₁
  have hclean : alookup (cleanupStates s₁).heap ref = some [] := by
    unfold cleanupStates setHeapCache
    dsimp only
    rw [href]
    exact alookup_aupdate_self _ _ _
  have hfw2 : forward cfg sem M args₂ s₁
      = (.ok (stagesFrom M 0 M.numModules args₂.base, none),
         cleanupStates s₁,
         [] ++ ([⟨false, args₂.base, [], heapCache (cleanupStates s₁)⟩] ++ [])) := by
    unfold forward
    rw [PyM.bind_apply_ok _ (rfl :
      pmodifyState cleanupStates s₁ = (.ok (), cleanupStates s₁, []))]
    simp only [hs2, ha2]
    rw [PyM.bind_apply_ok _
      (modelCall_no_hooks cfg sem M args₂.base (cleanupStates s₁) rfl)]
    rfl
  rw [hfw2]
  exact ⟨hclean, rfl⟩

/-- Witness for C10: a two-point parallel instance given the caller dict in
heap cell 7; the call rebinds to cell 7 and the next plain forward leaves
cell 7 empty. -/
theorem C10_activations_aliasing_witness :
    exCfgParallel.mode = "parallel" ∧
    ((alookup (cleanupStates exStateAct).heap 7).getD []).length
      = exCfgParallel.sortedKeys.length ∧
    ((forward exCfgParallel exSem exM
        ⟨1, none, [("sources->base", ([exLoc, exLoc], [exLoc, exLoc]))], some 7, none⟩
        exStateAct).2.1.actRef = 7 ∧
     (∀ args₂ : ForwardArgs, args₂.sources = none → args₂.activationsSources = none →
        alookup (forward exCfgParallel exSem exM args₂
            (forward exCfgParallel exSem exM
              ⟨1, none, [("sources->base", ([exLoc, exLoc], [exLoc, exLoc]))], some 7, none⟩
              exStateAct).2.1).2.1.heap 7 = some [] ∧
        (forward exCfgParallel exSem exM args₂
            (forward exCfgParallel exSem exM
              ⟨1, none, [("sources->base", ([exLoc, exLoc], [exLoc, exLoc]))], some 7, none⟩
              exStateAct).2.1).1
          = .ok (stagesFrom exM 0 exM.numModules args₂.base, none))) :=
  ⟨rfl, by decide,
   C10_activations_aliasing exCfgParallel exSem exM
     ⟨1, none, [("sources->base", ([exLoc, exLoc], [exLoc, exLoc]))], some 7, none⟩
     7 exStateAct rfl rfl rfl (by decide) ⟨([exLoc, exLoc], [exLoc, exLoc]), by decide⟩⟩

theorem evOK_nil (n₀ : Nat) : EvOK n₀ [] := by
  intro e he
  simp at he

theorem evOK_append {n₀ : Nat} {t₁ t₂ : List Event} (h₁ : EvOK n₀ t₁) (h₂ : EvOK n₀ t₂) :
    EvOK n₀ (t₁ ++ t₂) := by
  intro e he
  rcases List.mem_append.mp he with h | h
  · exact h₁ e h
  · exact h₂ e h

theorem PyTriple.seq {n₀ : Nat} {P : OrchState → Prop} {α β : Type} {m : PyM α}
    {Q : α → OrchState → Prop} {f : α → PyM β} {R : β → OrchState → Prop}
    (hm : PyTriple n₀ P m Q) (hf : ∀ a, PyTriple n₀ (Q a) (f a) R) :
    PyTriple n₀ P (PyM.bind m f) R := by
  intro s hP
  constructor
  · intro b s'' t hb
    simp only [PyM.bind] at hb
    rcases hq : m s with ⟨r1, s1, t1⟩
    rw [hq] at hb
    cases r1 with
    | error e => simp at hb
    | ok a =>
      dsimp only at hb
      rcases hq₂ : f a s1 with ⟨r2, s2, t2⟩
      rw [hq₂] at hb
      dsimp only at hb
      simp only [Prod.mk.injEq] at hb
      obtain ⟨hr, hs, ht⟩ := hb
      subst hr
      subst hs
      have h₁ := (hm s hP).1 a s1 t1 hq
      have h₂ := (hf a s1 h₁.1).1 b s2 t2 hq₂
      exact ⟨h₂.1, ht ▸ evOK_append h₁.2 h₂.2⟩
  · intro e s'' t hb
    simp only [PyM.bind] at hb
    rcases hq : m s with ⟨r1, s1, t1⟩
    rw [hq] at hb
    cases r1 with
    | error e₁ =>
      dsimp only at hb
      simp only [Prod.mk.injEq, Except.error.injEq] at hb
      obtain ⟨hr, hs, ht⟩ := hb
      exact ht ▸ (hm s hP).2 e₁ s1 t1 hq
    | ok a =>
      dsimp only at hb
      rcases hq₂ : f a s1 with ⟨r2, s2, t2⟩
      rw [hq₂] at hb
      dsimp only at hb
      simp only [Prod.mk.injEq] at hb
      obtain ⟨hr, hs, ht⟩ := hb
      subst hr
      have h₁ := (hm s hP).1 a s1 t1 hq
      have h₂ := (hf a s1 h₁.1).2 e s2 t2 hq₂
      exact ht ▸ evOK_append h₁.2 h₂

theorem PyTriple.conseq {n₀ : Nat} {P P' : OrchState → Prop} {α : Type} {m : PyM α}
    {Q Q' : α → OrchState → Prop} (hm : PyTriple n₀ P m Q)
    (hP : ∀ s, P' s → P s) (hQ : ∀ a s, Q a s → Q' a s) :
    PyTriple n₀ P' m Q' := by
  intro s hP'
  refine ⟨fun a s' t hq => ?_, fun e s' t hq => (hm s (hP s hP')).2 e s' t hq⟩
  have h := (hm s (hP s hP')).1 a s' t hq
  exact ⟨hQ a s' h.1, h.2⟩

theorem PyTriple.pure' {n₀ : Nat} {P : OrchState → Prop} {α : Type} (a : α)
    {Q : α → OrchState → Prop} (h : ∀ s, P s → Q a s) :
    PyTriple n₀ P (PyM.pure a) Q := by
  intro s hP
  refine ⟨fun b s' t hq => ?_, fun e s' t hq => ?_⟩
  · simp only [PyM.pure, Prod.mk.injEq, Except.ok.injEq] at hq
    obtain ⟨hab, hs, ht⟩ := hq
    subst hab
    subst hs
    exact ⟨h s hP, ht ▸ evOK_nil n₀⟩
  · simp [PyM.pure] at hq

theorem PyTriple.throw' {n₀ : Nat} {P : OrchState → Prop} {α : Type} (e : PyErr)
    {Q : α → OrchState → Prop} : PyTriple n₀ P (pthrow e : PyM α) Q := by
  intro s _
  refine ⟨fun a s' t hq => ?_, fun e' s' t hq => ?_⟩
  · simp [pthrow] at hq
  · simp only [pthrow, Prod.mk.injEq] at hq
    exact hq.2.2 ▸ evOK_nil n₀

theorem PyTriple.ofStatePure {n₀ : Nat} {P : OrchState → Prop} {α : Type} {m : PyM α}
    (hm : StatePure m) : PyTriple n₀ P m (fun _ s => P s) := by
  intro s hP
  have h := hm s
  refine ⟨fun a s' t hq => ?_, fun e s' t hq => ?_⟩
  · rw [hq] at h
    dsimp only at h
    obtain ⟨hs, ht⟩ := h
    subst hs
    exact ⟨hP, ht ▸ evOK_nil n₀⟩
  · rw [hq] at h
    dsimp only at h
    exact h.2 ▸ evOK_nil n₀

theorem PyTriple.withFact {n₀ : Nat} {P : OrchState → Prop} {C : Prop} {α : Type}
    {m : PyM α} {Q : α → OrchState → Prop}
    (h : C → PyTriple n₀ P m Q) :
    PyTriple n₀ (fun s => P s ∧ C) m Q := by
  intro s hs
  exact h hs.2 s hs.1

theorem statePure_pure {α : Type} (a : α) : StatePure (PyM.pure a) :=
  fun _ => ⟨rfl, rfl⟩

theorem statePure_pthrow {α : Type} (e : PyErr) : StatePure (pthrow e : PyM α) :=
  fun _ => ⟨rfl, rfl⟩

theorem statePure_passert (b : Bool) : StatePure (passert b) :=
  fun _ => ⟨rfl, rfl⟩

theorem statePure_passertActLen (ref n : Nat) : StatePure (passertActLen ref n) :=
  fun _ => ⟨rfl, rfl⟩

theorem statePure_pyDictGet {β : Type} (d : List (String × β)) (k : String) :
    StatePure (pyDictGet d k) := by
  intro s
  unfold pyDictGet
  cases alookup d k with
  | none => exact ⟨rfl, rfl⟩
  | some v => exact ⟨rfl, rfl⟩

theorem statePure_pyListGet {β : Type} (l : List β) (i : Nat) :
    StatePure (pyListGet l i) := by
  intro s
  unfold pyListGet
  cases l.get? i with
  | none => exact ⟨rfl, rfl⟩
  | some v => exact ⟨rfl, rfl⟩

theorem statePure_subAt (subs : Option (List (Option Subsp))) (i : Nat) :
    StatePure (subAt subs i) := by
  cases subs with
  | none => exact statePure_pure none
  | some l =>
    cases hg : l.get? i with
    | none =>
      have heq : subAt (some l) i = pthrow .indexError := by
        simp only [subAt, hg]
      rw [heq]
      exact statePure_pthrow _
    | some x =>
      have heq : subAt (some l) i = PyM.pure (some [x]) := by
        simp only [subAt, hg]
      rw [heq]
      exact statePure_pure _

theorem statePure_bind {α β : Type} {m : PyM α} {f : α → PyM β}
    (hm : StatePure m) (hf : ∀ a, StatePure (f a)) : StatePure (PyM.bind m f) := by
  intro s
  show ((PyM.bind m f) s).2.1 = s ∧ ((PyM.bind m f) s).2.2 = []
  have h := hm s
  rcases hq : m s with ⟨r, s₁, t₁⟩
  rw [hq] at h
  dsimp only at h
  obtain ⟨hs, ht⟩ := h
  cases r with
  | error e =>
    simp only [PyM.bind, hq]
    exact ⟨hs, ht⟩
  | ok a =>
    simp only [PyM.bind, hq]
    have h₂ := hf a s₁
    rcases hq₂ : f a s₁ with ⟨r₂, s₂, t₂⟩
    rw [hq₂] at h₂
    dsimp only at h₂
    refine ⟨?_, ?_⟩
    · show s₂ = s
      exact h₂.1.trans hs
    · show t₁ ++ t₂ = []
      simp [ht, h₂.2]

theorem statePure_parallelActivationsCheck (keys : List String) :
    StatePure (parallelActivationsCheck keys) := by
  induction keys with
  | nil => exact statePure_pure ()
  | cons k t ih => exact statePure_bind (fun _ => ⟨rfl, rfl⟩) (fun _ => ih)

theorem statePure_forwardValidate (cfg : OrchConfig) (sources : Option (List Val))
    (ul : List (String × (List Loc × List Loc))) (acts : Option Nat) :
    StatePure (forwardValidate cfg sources ul acts) := by
  unfold forwardValidate
  split
  · cases halk : alookup ul "sources->base" with
    | none => exact statePure_pthrow _
    | some e => exact statePure_pure _
  · split
    · cases halk : alookup ul "sources->base" with
      | some e => exact statePure_pthrow _
      | none =>
        cases sources with
        | some srcs => exact statePure_bind (statePure_passert _) (fun _ => statePure_pure _)
        | none => exact statePure_pure _
    · exact statePure_pure _

theorem hidBound_frame {n₀ : Nat} {s s' : OrchState} (hf : RunFrame s s') :
    HidBound n₀ s → HidBound n₀ s' := by
  rintro ⟨h1, h2⟩
  obtain ⟨ha, hn, _, _, _⟩ := hf
  refine ⟨by rw [hn]; exact h1, ?_⟩
  intro h hh
  rw [ha] at hh
  rw [hn]
  exact h2 h hh

theorem hidBound_filter {n₀ : Nat} {s : OrchState} (p : Hook → Bool) (hb : HidBound n₀ s) :
    HidBound n₀ { s with attached := s.attached.filter p } := by
  refine ⟨hb.1, ?_⟩
  intro h hh
  exact hb.2 h (List.mem_of_mem_filter hh)

theorem attached_nil_of_ledger_nil {s : OrchState} (h : s.attached.map Hook.hid = []) :
    s.attached = [] := by
  cases hat : s.attached with
  | nil => rfl
  | cons a l => rw [hat] at h; simp at h

theorem contains_false_of_not_mem {ids : List Nat} {n : Nat} (h : ¬ n ∈ ids) :
    ids.contains n = false := by
  cases hc : ids.contains n
  · rfl
  · exact absurd (List.elem_iff.mp hc) h

theorem filter_keep_of_not_mem (l : List Hook) (ids : List Nat)
    (h : ∀ x ∈ l, ¬ x.hid ∈ ids) :
    l.filter (fun x => !(ids.contains x.hid)) = l := by
  apply List.filter_eq_self.mpr
  intro x hx
  rw [contains_false_of_not_mem (h x hx)]
  rfl

theorem filter_drop_of_all_mem (l : List Hook) (ids : List Nat)
    (h : ∀ x ∈ l, x.hid ∈ ids) :
    l.filter (fun x => !(ids.contains x.hid)) = [] := by
  apply List.filter_eq_nil_iff.mpr
  intro x hx
  simp only [Bool.not_eq_true']
  intro hcon
  exact absurd (h x hx) (by simpa using hcon)

theorem modelCall_triple (n₀ : Nat) (cfg : OrchConfig) (sem : Semantics) (M : OpaqueModel)
    (x : Val) (P : OrchState → Prop)
    (hF : ∀ s s', RunFrame s s' → P s → P s')
    (hB : ∀ s, P s → HidBound n₀ s) :
    PyTriple n₀ P (modelCall cfg sem M x) (fun _ s => P s) := by
  intro s hP
  have hfr := modelCall_frame cfg sem M x s
  have hev : EvOK n₀ ((modelCall cfg sem M x) s).2.2 := by
    rw [hfr.2]
    intro e he h hh
    simp only [List.mem_singleton] at he
    subst he
    exact ((hB s hP).2 h hh).1
  refine ⟨fun a s' t hq => ?_, fun e s' t hq => ?_⟩
  · rw [hq] at hfr hev
    exact ⟨hF s s' hfr.1 hP, hev⟩
  · rw [hq] at hev
    exact hev

theorem pmodify_triple (n₀ : Nat) (f : OrchState → OrchState) {P : OrchState → Prop}
    {Q : Unit → OrchState → Prop} (h : ∀ s, P s → Q () (f s)) :
    PyTriple n₀ P (pmodifyState f) Q := by
  intro s hP
  refine ⟨fun a s' t hq => ?_, fun e s' t hq => ?_⟩
  · simp only [pmodifyState, Prod.mk.injEq] at hq
    obtain ⟨_, hs, ht⟩ := hq
    subst hs
    exact ⟨h s hP, ht ▸ evOK_nil n₀⟩
  · simp [pmodifyState] at hq

theorem removeHandlers_post (n₀ : Nat) (ids : List Nat) {P : OrchState → Prop}
    {Q : Unit → OrchState → Prop}
    (h : ∀ s, P s →
      Q () { s with attached := s.attached.filter (fun x => !(ids.contains x.hid)) }) :
    PyTriple n₀ P (removeHandlers ids) Q :=
  pmodify_triple n₀ _ h

theorem interventionGetter_single (k : String) (loc : Loc) (s : OrchState) :
    interventionGetter [k] [loc] s =
      (.ok [s.nextHid],
       { s with attached := s.attached ++ [⟨s.nextHid, .getter, k, loc, [], none⟩],
                nextHid := s.nextHid + 1 }, []) := rfl

theorem interventionSetter_single_none (k : String) (lS lB : Loc) (s : OrchState) :
    interventionSetter [k] [lS] [lB] none s =
      (.ok [s.nextHid],
       { s with attached := s.attached ++ [⟨s.nextHid, .setter, k, lS, lB, none⟩],
                nextHid := s.nextHid + 1 }, []) := rfl

theorem interventionSetter_single_some (k : String) (lS lB : Loc) (x : Option Subsp)
    (s : OrchState) :
    interventionSetter [k] [lS] [lB] (some [x]) s =
      (.ok [s.nextHid],
       { s with attached := s.attached ++ [⟨s.nextHid, .setter, k, lS, lB, x⟩],
                nextHid := s.nextHid + 1 }, []) := rfl

theorem removeHandlers_eval (ids : List Nat) (s : OrchState) :
    removeHandlers ids s =
      (.ok (), { s with attached := s.attached.filter (fun h => !(ids.contains h.hid)) },
       []) := rfl

theorem getter_single_triple (n₀ : Nat) (k : String) (loc : Loc) (acc : List Nat) :
    PyTriple n₀ (fun s => HidBound n₀ s ∧ s.attached.map Hook.hid = acc)
      (interventionGetter [k] [loc])
      (fun gids s => ∃ g : Hook, ∃ old : List Hook,
        s.attached = old ++ [g] ∧ old.map Hook.hid = acc ∧ gids = [g.hid] ∧
        (∀ x ∈ old, ¬ x.hid ∈ gids) ∧ HidBound n₀ s) := by
  intro s hP
  obtain ⟨hb, hl⟩ := hP
  refine ⟨fun a s' t hq => ?_, fun e s' t hq => ?_⟩
  · rw [interventionGetter_single] at hq
    simp only [Prod.mk.injEq, Except.ok.injEq] at hq
    obtain ⟨ha, hs, ht⟩ := hq
    subst ha
    subst hs
    refine ⟨⟨⟨s.nextHid, .getter, k, loc, [], none⟩, s.attached, rfl, hl, rfl, ?_, ?_⟩,
      ht ▸ evOK_nil n₀⟩
    · intro x hx hmem
      simp only [List.mem_singleton] at hmem
      exact absurd hmem (Nat.ne_of_lt (hb.2 x hx).2)
    · refine ⟨Nat.le_succ_of_le hb.1, ?_⟩
      intro x hx
      rcases List.mem_append.mp hx with hx | hx
      · exact ⟨(hb.2 x hx).1, Nat.lt_succ_of_lt (hb.2 x hx).2⟩
      · simp only [List.mem_singleton] at hx
        subst hx
        exact ⟨hb.1, Nat.lt_succ_self _⟩
  · rw [interventionGetter_single] at hq
    simp at hq

theorem setter_single_triple (n₀ : Nat) (k : String) (lS lB : Loc)
    (sub : Option (List (Option Subsp))) (acc : List Nat)
    (hsub : sub = none ∨ ∃ x, sub = some [x]) :
    PyTriple n₀ (fun s => HidBound n₀ s ∧ s.attached.map Hook.hid = acc)
      (interventionSetter [k] [lS] [lB] sub)
      (fun sids s => HidBound n₀ s ∧ s.attached.map Hook.hid = acc ++ sids) := by
  have key : ∀ (x : Option Subsp) (s : OrchState),
      HidBound n₀ s → s.attached.map Hook.hid = acc →
      HidBound n₀ ({ s with
          attached := s.attached ++ [⟨s.nextHid, .setter, k, lS, lB, x⟩],
          nextHid := s.nextHid + 1 } : OrchState) ∧
      ({ s with
          attached := s.attached ++ [⟨s.nextHid, .setter, k, lS, lB, x⟩],
          nextHid := s.nextHid + 1 } : OrchState).attached.map Hook.hid
        = acc ++ [s.nextHid] := by
    intro x s hb hl
    constructor
    · refine ⟨Nat.le_succ_of_le hb.1, ?_⟩
      intro h hh
      rcases List.mem_append.mp hh with hh | hh
      · exact ⟨(hb.2 h hh).1, Nat.lt_succ_of_lt (hb.2 h hh).2⟩
      · simp only [List.mem_singleton] at hh
        subst hh
        exact ⟨hb.1, Nat.lt_succ_self _⟩
    · show (s.attached ++ [(⟨s.nextHid, .setter, k, lS, lB, x⟩ : Hook)]).map Hook.hid
          = acc ++ [s.nextHid]
      rw [List.map_append, hl]
      rfl
  rcases hsub with hn | ⟨x, hx⟩
  · subst hn
    intro s hP
    obtain ⟨hb, hl⟩ := hP
    refine ⟨fun a s' t hq => ?_, fun e s' t hq => ?_⟩
    · rw [interventionSetter_single_none] at hq
      simp only [Prod.mk.injEq, Except.ok.injEq] at hq
      obtain ⟨ha, hs, ht⟩ := hq
      subst ha
      subst hs
      exact ⟨key none s hb hl, ht ▸ evOK_nil n₀⟩
    · rw [interventionSetter_single_none] at hq
      simp at hq
  · subst hx
    intro s hP
    obtain ⟨hb, hl⟩ := hP
    refine ⟨fun a s' t hq => ?_, fun e s' t hq => ?_⟩
    · rw [interventionSetter_single_some] at hq
      simp only [Prod.mk.injEq, Except.ok.injEq] at hq
      obtain ⟨ha, hs, ht⟩ := hq
      subst ha
      subst hs
      exact ⟨key x s hb hl, ht ▸ evOK_nil n₀⟩
    · rw [interventionSetter_single_some] at hq
      simp at hq

theorem subAt_triple (n₀ : Nat) (subs : Option (List (Option Subsp))) (i : Nat)
    (P : OrchState → Prop) :
    PyTriple n₀ P (subAt subs i)
      (fun sub s => P s ∧ (sub = none ∨ ∃ x, sub = some [x])) := by
  cases subs with
  | none => exact PyTriple.pure' none (fun s hP => ⟨hP, Or.inl rfl⟩)
  | some l =>
    cases hg : l.get? i with
    | none =>
      have heq : subAt (some l) i = pthrow .indexError := by
        simp only [subAt, hg]
      rw [heq]
      exact PyTriple.throw' _
    | some x =>
      have heq : subAt (some l) i = PyM.pure (some [x]) := by
        simp only [subAt, hg]
      rw [heq]
      exact PyTriple.pure' (some [x]) (fun s hP => ⟨hP, Or.inr ⟨x, rfl⟩⟩)

theorem removeHandlers_pair_triple (n₀ : Nat) (gids acc : List Nat) :
    PyTriple n₀
      (fun s => ∃ g : Hook, ∃ old : List Hook,
        s.attached = old ++ [g] ∧ old.map Hook.hid = acc ∧ gids = [g.hid] ∧
        (∀ x ∈ old, ¬ x.hid ∈ gids) ∧ HidBound n₀ s)
      (removeHandlers gids)
      (fun _ s => HidBound n₀ s ∧ s.attached.map Hook.hid = acc) :=
  removeHandlers_post n₀ gids (by
    intro s hs
    obtain ⟨g, old, hat, hold, hgid, hfresh, hb⟩ := hs
    have hfil : s.attached.filter (fun x => !(gids.contains x.hid)) = old := by
      rw [hat, List.filter_append]
      have h1 : old.filter (fun x => !(gids.contains x.hid)) = old :=
        filter_keep_of_not_mem old gids hfresh
      have h2 : ([g] : List Hook).filter (fun x => !(gids.contains x.hid)) = [] := by
        apply filter_drop_of_all_mem
        intro x hx
        simp only [List.mem_singleton] at hx
        subst hx
        rw [hgid]
        exact List.mem_singleton.mpr rfl
      rw [h1, h2, List.append_nil]
    refine ⟨hidBound_filter _ hb, ?_⟩
    show (s.attached.filter (fun x => !(gids.contains x.hid))).map Hook.hid = acc
    rw [hfil]
    exact hold)

theorem removeHandlers_all_triple (n₀ : Nat) (acc : List Nat) :
    PyTriple n₀ (fun s => HidBound n₀ s ∧ s.attached.map Hook.hid = acc)
      (removeHandlers acc)
      (fun _ s => HidBound n₀ s ∧ s.attached = []) :=
  removeHandlers_post n₀ acc (by
    intro s hs
    have hfil : s.attached.filter (fun x => !(acc.contains x.hid)) = [] := by
      apply filter_drop_of_all_mem
      intro x hx
      rw [← hs.2]
      exact List.mem_map_of_mem Hook.hid hx
    refine ⟨hidBound_filter _ hs.1, ?_⟩
    show s.attached.filter (fun x => !(acc.contains x.hid)) = []
    exact hfil)

theorem modelCall_qg_triple (n₀ : Nat) (cfg : OrchConfig) (sem : Semantics) (M : OpaqueModel)
    (x : Val) (gids acc : List Nat) :
    PyTriple n₀
      (fun s => ∃ g : Hook, ∃ old : List Hook,
        s.attached = old ++ [g] ∧ old.map Hook.hid = acc ∧ gids = [g.hid] ∧
        (∀ y ∈ old, ¬ y.hid ∈ gids) ∧ HidBound n₀ s)
      (modelCall cfg sem M x)
      (fun _ s => ∃ g : Hook, ∃ old : List Hook,
        s.attached = old ++ [g] ∧ old.map Hook.hid = acc ∧ gids = [g.hid] ∧
        (∀ y ∈ old, ¬ y.hid ∈ gids) ∧ HidBound n₀ s) := by
  refine modelCall_triple n₀ cfg sem M x _ ?_ ?_
  · intro s s' hfr hs
    obtain ⟨g, old, hat, hold, hgid, hfresh, hb⟩ := hs
    exact ⟨g, old, by rw [hfr.1]; exact hat, hold, hgid, hfresh, hidBound_frame hfr hb⟩
  · intro s hs
    obtain ⟨g, old, _, _, _, _, hb⟩ := hs
    exact hb

theorem modelCall_ledger_triple (n₀ : Nat) (cfg : OrchConfig) (sem : Semantics)
    (M : OpaqueModel) (x : Val) (acc : List Nat) :
    PyTriple n₀ (fun s => HidBound n₀ s ∧ s.attached.map Hook.hid = acc)
      (modelCall cfg sem M x)
      (fun _ s => HidBound n₀ s ∧ s.attached.map Hook.hid = acc) := by
  refine modelCall_triple n₀ cfg sem M x _ ?_ ?_
  · intro s s' hfr hs
    exact ⟨hidBound_frame hfr hs.1, by rw [hfr.1]; exact hs.2⟩
  · exact fun s hs => hs.1

theorem actWrite_triple (n₀ : Nat) (ref : Nat) (key : String) {P : OrchState → Prop}
    (hP : ∀ s c, P s → P { s with heap := aupdate s.heap s.actRef c }) :
    PyTriple n₀ P
      (fun s =>
        (match alookup ((alookup s.heap ref).getD []) key with
         | none => ((.error .keyError : Except PyErr Unit), s, ([] : List Event))
         | some v =>
           (.ok (), setHeapCache s (aupdate (heapCache s) key v), ([] : List Event))))
      (fun _ s => P s) := by
  intro s hs
  refine ⟨fun a s' t hq => ?_, fun e s' t hq => ?_⟩
  · dsimp only at hq
    cases halk : alookup ((alookup s.heap ref).getD []) key with
    | none =>
      rw [halk] at hq
      simp at hq
    | some v =>
      rw [halk] at hq
      simp only [Prod.mk.injEq] at hq
      obtain ⟨_, hsq, ht⟩ := hq
      rw [← hsq]
      exact ⟨hP s _ hs, ht ▸ evOK_nil n₀⟩
  · dsimp only at hq
    cases halk : alookup ((alookup s.heap ref).getD []) key with
    | none =>
      rw [halk] at hq
      simp only [Prod.mk.injEq] at hq
      exact hq.2.2 ▸ evOK_nil n₀
    | some v =>
      rw [halk] at hq
      simp at hq

theorem serial_dropAcc_triple (n₀ : Nat) (acc : List Nat) :
    PyTriple n₀ (fun s => HidBound n₀ s ∧ s.attached.map Hook.hid = acc)
      (if acc.isEmpty then PyM.pure acc
       else PyM.bind (removeHandlers acc) (fun _ => PyM.pure ([] : List Nat)))
      (fun accBase s => HidBound n₀ s ∧ s.attached.map Hook.hid = accBase) := by
  by_cases hae : acc.isEmpty = true
  · rw [if_pos hae]
    exact PyTriple.pure' acc (fun s h => h)
  · rw [if_neg hae]
    refine PyTriple.seq (removeHandlers_all_triple n₀ acc) (fun _ => ?_)
    exact PyTriple.pure' [] (fun s h => ⟨h.1, by rw [h.2]; rfl⟩)

theorem serial_getter_step_triple (n₀ : Nat) (cfg : OrchConfig) (sem : Semantics)
    (M : OpaqueModel) (key : String) (locS : Loc) (srcs : List Val) (i : Nat)
    (acc : List Nat) :
    PyTriple n₀ (fun s => HidBound n₀ s ∧ s.attached.map Hook.hid = acc)
      (PyM.bind (interventionGetter [key] [locS]) (fun gids =>
       PyM.bind (pyListGet srcs i) (fun src =>
       PyM.bind (modelCall cfg sem M src) (fun _ =>
       PyM.bind (removeHandlers gids) (fun _ =>
       if acc.isEmpty then PyM.pure acc
       else PyM.bind (removeHandlers acc) (fun _ => PyM.pure ([] : List Nat)))))))
      (fun accBase s => HidBound n₀ s ∧ s.attached.map Hook.hid = accBase) := by
  refine PyTriple.seq (getter_single_triple n₀ key locS acc) (fun gids => ?_)
  refine PyTriple.seq (PyTriple.ofStatePure (statePure_pyListGet srcs i)) (fun src => ?_)
  refine PyTriple.seq (modelCall_qg_triple n₀ cfg sem M src gids acc) (fun _ => ?_)
  refine PyTriple.seq (removeHandlers_pair_triple n₀ gids acc) (fun _ => ?_)
  exact serial_dropAcc_triple n₀ acc

theorem serialLoop_triple (n₀ : Nat) (cfg : OrchConfig) (sem : Semantics) (M : OpaqueModel)
    (n : Nat) (sources : Option (List Val)) (ul : List (String × (List Loc × List Loc)))
    (actSrcRef : Option Nat) (subs : Option (List (Option Subsp))) :
    ∀ (pairs : List (Nat × String)) (acc : List Nat),
      PyTriple n₀ (fun s => HidBound n₀ s ∧ s.attached.map Hook.hid = acc)
        (serialLoop cfg sem M n sources ul actSrcRef subs pairs acc)
        (fun out s => HidBound n₀ s ∧ s.attached.map Hook.hid = out) := by
  intro pairs
  induction pairs with
  | nil =>
    intro acc
    exact PyTriple.pure' acc (fun s h => h)
  | cons p rest ih =>
    intro acc
    obtain ⟨i, key⟩ := p
    refine PyTriple.seq
      (PyTriple.ofStatePure (statePure_pyDictGet ul (serialLocKey i n))) (fun entry => ?_)
    refine PyTriple.seq
      (PyTriple.ofStatePure (statePure_pyListGet entry.1 0)) (fun locS => ?_)
    refine PyTriple.seq
      (PyTriple.ofStatePure (statePure_pyListGet entry.2 0)) (fun locB => ?_)
    have htail : ∀ accBase : List Nat,
        PyTriple n₀ (fun s => HidBound n₀ s ∧ s.attached.map Hook.hid = accBase)
          (PyM.bind (subAt subs i) (fun sub =>
           PyM.bind (interventionSetter [key] [locS] [locB] sub) (fun sids =>
           serialLoop cfg sem M n sources ul actSrcRef subs rest (accBase ++ sids))))
          (fun out s => HidBound n₀ s ∧ s.attached.map Hook.hid = out) := by
      intro accBase
      refine PyTriple.seq (subAt_triple n₀ subs i _)
        (fun sub => PyTriple.withFact (fun hsub => ?_))
      refine PyTriple.seq (setter_single_triple n₀ key locS locB sub accBase hsub)
        (fun sids => ?_)
      exact ih (accBase ++ sids)
    rcases actSrcRef with _ | ref
    · rcases sources with _ | srcs
      · have hmid : PyTriple n₀ (fun s => HidBound n₀ s ∧ s.attached.map Hook.hid = acc)
            (pthrow .typeError : PyM (List Nat))
            (fun accBase s => HidBound n₀ s ∧ s.attached.map Hook.hid = accBase) :=
          PyTriple.throw' _
        exact PyTriple.seq hmid htail
      · exact PyTriple.seq (serial_getter_step_triple n₀ cfg sem M key locS srcs i acc) htail
    · have hmid : PyTriple n₀ (fun s => HidBound n₀ s ∧ s.attached.map Hook.hid = acc)
          (PyM.bind
            (fun s =>
              (match alookup ((alookup s.heap ref).getD []) key with
               | none => ((.error .keyError : Except PyErr Unit), s, ([] : List Event))
               | some v =>
                 (.ok (), setHeapCache s (aupdate (heapCache s) key v), ([] : List Event))))
            (fun _ => PyM.pure acc))
          (fun accBase s => HidBound n₀ s ∧ s.attached.map Hook.hid = accBase) :=
        PyTriple.seq (actWrite_triple n₀ ref key (fun s c h => h))
          (fun _ => PyTriple.pure' acc (fun s h => h))
      exact PyTriple.seq hmid htail

theorem parallelGetterLoop_triple (n₀ : Nat) (cfg : OrchConfig) (sem : Semantics)
    (M : OpaqueModel) (sources : List Val) (ulS : List Loc) (acc : List Nat) :
    ∀ pairs : List (Nat × String),
      PyTriple n₀ (fun s => HidBound n₀ s ∧ s.attached.map Hook.hid = acc)
        (parallelGetterLoop cfg sem M sources ulS pairs)
        (fun _ s => HidBound n₀ s ∧ s.attached.map Hook.hid = acc) := by
  intro pairs
  induction pairs with
  | nil => exact PyTriple.pure' () (fun s h => h)
  | cons p rest ih =>
    obtain ⟨i, key⟩ := p
    refine PyTriple.seq (PyTriple.ofStatePure (statePure_pyListGet ulS i)) (fun loc => ?_)
    refine PyTriple.seq (getter_single_triple n₀ key loc acc) (fun gids => ?_)
    refine PyTriple.seq (PyTriple.ofStatePure (statePure_pyListGet sources i)) (fun src => ?_)
    refine PyTriple.seq (modelCall_qg_triple n₀ cfg sem M src gids acc) (fun _ => ?_)
    exact PyTriple.seq (removeHandlers_pair_triple n₀ gids acc) (fun _ => ih)

theorem parallelSetterLoop_triple (n₀ : Nat) (ulS ulB : List Loc)
    (subs : Option (List (Option Subsp))) :
    ∀ (pairs : List (Nat × String)) (acc : List Nat),
      PyTriple n₀ (fun s => HidBound n₀ s ∧ s.attached.map Hook.hid = acc)
        (parallelSetterLoop ulS ulB subs pairs acc)
        (fun out s => HidBound n₀ s ∧ s.attached.map Hook.hid = out) := by
  intro pairs
  induction pairs with
  | nil =>
    intro acc
    exact PyTriple.pure' acc (fun s h => h)
  | cons p rest ih =>
    intro acc
    obtain ⟨i, key⟩ := p
    refine PyTriple.seq (PyTriple.ofStatePure (statePure_pyListGet ulS i)) (fun locS => ?_)
    refine PyTriple.seq (PyTriple.ofStatePure (statePure_pyListGet ulB i)) (fun locB => ?_)
    refine PyTriple.seq (subAt_triple n₀ subs i _)
      (fun sub => PyTriple.withFact (fun hsub => ?_))
    refine PyTriple.seq (setter_single_triple n₀ key locS locB sub acc hsub)
      (fun sids => ?_)
    exact ih (acc ++ sids)

theorem forwardCore_triple (n₀ : Nat) (cfg : OrchConfig) (sem : Semantics) (M : OpaqueModel)
    (args : ForwardArgs) :
    PyTriple n₀ (fun s => HidBound n₀ s ∧ s.attached.map Hook.hid = [])
      (forwardCore cfg sem M args)
      (fun _ s => s.attached = []) := by
  refine PyTriple.seq (PyTriple.ofStatePure
    (statePure_forwardValidate cfg args.sources args.unitLocations args.activationsSources))
    (fun ulPair => ?_)
  refine PyTriple.seq (modelCall_ledger_triple n₀ cfg sem M args.base []) (fun baseOutputs => ?_)
  by_cases hpar : cfg.mode = "parallel"
  · rw [if_pos hpar]
    rcases ulPair with _ | ⟨ulS, ulB⟩
    · exact PyTriple.throw' _
    · have hfirst : PyTriple n₀
          (fun s => HidBound n₀ s ∧ s.attached.map Hook.hid = [])
          (match args.activationsSources with
           | none =>
             match args.sources with
             | some srcs => parallelGetterLoop cfg sem M srcs ulS cfg.sortedKeys.enum
             | none => pthrow .typeError
           | some ref =>
             PyM.bind (pmodifyState (fun s => { s with actRef := ref }))
               (fun _ => parallelActivationsCheck cfg.sortedKeys))
          (fun _ s => HidBound n₀ s ∧ s.attached.map Hook.hid = []) := by
        cases args.activationsSources with
        | none =>
          cases args.sources with
          | some srcs => exact parallelGetterLoop_triple n₀ cfg sem M srcs ulS [] _
          | none => exact PyTriple.throw' _
        | some ref =>
          have h1 : PyTriple n₀ (fun s => HidBound n₀ s ∧ s.attached.map Hook.hid = [])
              (pmodifyState (fun s => { s with actRef := ref }))
              (fun _ s => HidBound n₀ s ∧ s.attached.map Hook.hid = ([] : List Nat)) :=
            pmodify_triple n₀ _ (fun s h => h)
          exact PyTriple.seq h1 (fun _ =>
            PyTriple.ofStatePure (statePure_parallelActivationsCheck cfg.sortedKeys))
      refine PyTriple.seq hfirst (fun _ => ?_)
      refine PyTriple.seq
        (parallelSetterLoop_triple n₀ ulS ulB args.subspaces cfg.sortedKeys.enum [])
        (fun setIds => ?_)
      refine PyTriple.seq (modelCall_ledger_triple n₀ cfg sem M args.base setIds)
        (fun cf => ?_)
      refine PyTriple.seq (removeHandlers_all_triple n₀ setIds) (fun _ => ?_)
      exact PyTriple.pure' _ (fun s h => h.2)
  · rw [if_neg hpar]
    by_cases hser : cfg.mode = "serial"
    · rw [if_pos hser]
      refine PyTriple.seq
        (serialLoop_triple n₀ cfg sem M cfg.sortedKeys.length args.sources args.unitLocations
          args.activationsSources args.subspaces cfg.sortedKeys.enum [])
        (fun setIds => ?_)
      refine PyTriple.seq (modelCall_ledger_triple n₀ cfg sem M args.base setIds)
        (fun cf => ?_)
      refine PyTriple.seq (removeHandlers_all_triple n₀ setIds) (fun _ => ?_)
      exact PyTriple.pure' _ (fun s h => h.2)
    · rw [if_neg hser]
      exact PyTriple.throw' _

theorem forward_hook_triple (n₀ : Nat) (cfg : OrchConfig) (sem : Semantics) (M : OpaqueModel)
    (args : ForwardArgs) :
    PyTriple n₀ (fun s => n₀ ≤ s.nextHid) (forward cfg sem M args)
      (fun _ s => s.attached = []) := by
  have hclean : PyTriple n₀ (fun s => n₀ ≤ s.nextHid) (pmodifyState cleanupStates)
      (fun _ s => HidBound n₀ s ∧ s.attached.map Hook.hid = ([] : List Nat)) :=
    pmodify_triple n₀ _ (fun s h => ⟨⟨h, fun x hx => absurd hx (List.not_mem_nil x)⟩, rfl⟩)
  refine PyTriple.seq hclean (fun _ => ?_)
  rcases hsrc : args.sources with _ | srcs
  · rcases hact : args.activationsSources with _ | ref
    · refine PyTriple.seq (modelCall_ledger_triple n₀ cfg sem M args.base []) (fun out => ?_)
      exact PyTriple.pure' _ (fun s h => attached_nil_of_ledger_nil h.2)
    · refine PyTriple.seq
        (PyTriple.ofStatePure (statePure_passertActLen ref cfg.sortedKeys.length))
        (fun _ => ?_)
      exact forwardCore_triple n₀ cfg sem M args
  · refine PyTriple.seq (PyTriple.ofStatePure (statePure_passert _)) (fun _ => ?_)
    exact forwardCore_triple n₀ cfg sem M args

/-- Claim C8 (counterexample): hook pairing is not exception-safe. A
serial-mode forward whose location map lacks point 1's key
"source_1->base" raises KeyError on iteration 1 — after point 0's setter
hook was registered — and the call leaves that setter attached to the model
as the exception propagates, contradicting the claim that a call raising
partway leaves no stray hooks (forward has no try/finally around its
schedule). -/
theorem C8_stray_hook_on_error :
    (forward exCfgSerial exSem exM exArgsC8err exState).1 = .error .keyError ∧
    (forward exCfgSerial exSem exM exArgsC8err exState).2.1.attached.map
      (fun h => (h.kind, h.key)) = [(.setter, "k0")] := by
  decide

/-- Claim C8 (amended): hook registrations are strictly paired within one
top-level forward call on every successful path — a forward call that
returns normally leaves no hooks attached to the opaque model — and every
hook present at any model invocation of the call (every hook recorded in the
call's trace) was registered by that call itself: its handler id is at least
the allocator value at entry, forward's opening cleanup having removed all
earlier hooks. On exception paths pairing can fail
(`C8_stray_hook_on_error`). -/
theorem C8_hook_pairing (cfg : OrchConfig) (sem : Semantics) (M : OpaqueModel)
    (args : ForwardArgs) (s : OrchState) :
    (∀ out s' t, forward cfg sem M args s = (.ok out, s', t) → s'.attached = []) ∧
    (∀ e ∈ (forward cfg sem M args s).2.2, ∀ h ∈ e.hooks, s.nextHid ≤ h.hid) := by
  have hm := forward_hook_triple s.nextHid cfg sem M args s (Nat.le_refl _)
  constructor
  · intro out s' t hq
    exact (hm.1 out s' t hq).1
  · rcases hq : forward cfg sem M args s with ⟨r, s', t⟩
    cases r with
    | ok out => exact (hm.1 out s' t hq).2
    | error er => exact hm.2 er s' t hq

/-- Witness for C8: on the concrete successful serial run, the final state
has no attached hooks, obtained through `C8_hook_pairing`. -/
theorem C8_hook_pairing_witness :
    (forward exCfgSerial exSem exM exArgsC8ok exState).2.1.attached = [] :=
  (C8_hook_pairing exCfgSerial exSem exM exArgsC8ok exState).1 (4, some 13)
    (forward exCfgSerial exSem exM exArgsC8ok exState).2.1
    (forward exCfgSerial exSem exM exArgsC8ok exState).2.2
    (by decide)

theorem aupdate_fresh {α β : Type} [DecidableEq α] (l : List (α × β)) (a : α) (b : β)
    (h : alookup l a = none) : aupdate l a b = l ++ [(a, b)] := by
  induction l with
  | nil => rfl
  | cons hd t ih =>
    obtain ⟨x, y⟩ := hd
    unfold alookup at h
    unfold aupdate
    by_cases hx : x = a
    · rw [if_pos hx] at h
      simp at h
    · rw [if_neg hx] at h
      rw [if_neg hx, ih h]
      rfl

theorem alookup_append {α β : Type} [DecidableEq α] (l₁ l₂ : List (α × β)) (a : α) :
    alookup (l₁ ++ l₂) a =
      match alookup l₁ a with
      | some b => some b
      | none => alookup l₂ a := by
  induction l₁ with
  | nil => rfl
  | cons hd t ih =>
    obtain ⟨x, y⟩ := hd
    by_cases hx : x = a
    · simp [alookup, hx]
    · simp [alookup, hx, ih]

theorem alookup_range_map_none {β : Type} (f : Nat → String) (g : Nat → β) (u : Nat)
    (k : String) (hk : ∀ i, i < u → f i ≠ k) :
    alookup ((List.range u).map (fun i => (f i, g i))) k = none := by
  induction u with
  | zero => rfl
  | succ u ih =>
    rw [List.range_succ, List.map_append, alookup_append]
    rw [ih (fun i hi => hk i (by omega))]
    simp [alookup, hk u (by omega)]

theorem alookup_range_map {β : Type} (f : Nat → String) (g : Nat → β) (u j : Nat)
    (hj : j < u) (hinj : ∀ a b, a < u → b < u → f a = f b → a = b) :
    alookup ((List.range u).map (fun i => (f i, g i))) (f j) = some (g j) := by
  induction u with
  | zero => omega
  | succ u ih =>
    rw [List.range_succ, List.map_append, alookup_append]
    by_cases hju : j < u
    · rw [ih hju (fun a b ha hb hab => hinj a b (by omega) (by omega) hab)]
    · have hj' : j = u := by omega
      subst hj'
      rw [alookup_range_map_none f g j (f j) (fun i hi hfi =>
        by have := hinj i j (by omega) (by omega) hfi; omega)]
      simp [alookup]

theorem keys_getD_inj (keys : List String) (hnod : keys.Nodup) (a b : Nat)
    (ha : a < keys.length) (hb : b < keys.length)
    (h : keys.getD a "" = keys.getD b "") : a = b := by
  rw [List.getD_eq_get keys "" ha, List.getD_eq_get keys "" hb] at h
  exact (List.Nodup.getElem_inj_iff hnod).mp h

theorem parallelCache_snoc (cfg : OrchConfig) (sem : Semantics) (M : OpaqueModel)
    (ulS : List Loc) (srcs : List Val) (u : Nat) :
    parallelCache cfg sem M ulS srcs (u + 1)
      = parallelCache cfg sem M ulS srcs u
        ++ [(cfg.sortedKeys.getD u "", parallelCapture cfg sem M ulS srcs u)] := by
  unfold parallelCache
  rw [List.range_succ, List.map_append]
  rfl

theorem serialCache_snoc (cfg : OrchConfig) (sem : Semantics) (M : OpaqueModel)
    (key : Nat → String) (src : Nat → Val) (locS locB : Nat → Loc) (u : Nat) :
    serialCache cfg sem M key src locS locB (u + 1)
      = serialCache cfg sem M key src locS locB u
        ++ [(key u, chainCapture cfg sem M key src locS locB u)] := by
  unfold serialCache
  rw [List.range_succ, List.map_append]
  rfl

theorem heapCache_midState (s : OrchState) (c : Cache) (att : List Hook) (nh : Nat) :
    heapCache (midState s c att nh) = c := by
  unfold heapCache midState
  dsimp only
  rw [alookup_aupdate_self]
  rfl

theorem cleanupStates_eq_midState (s : OrchState) :
    cleanupStates s = midState s [] [] s.nextHid := rfl

theorem pyListGet_eval {β : Type} (l : List β) (i : Nat) (x : β) (h : l.get? i = some x)
    (s : OrchState) : pyListGet l i s = (.ok x, s, []) := by
  unfold pyListGet
  rw [h]
  rfl

theorem pyDictGet_eval {β : Type} (d : List (String × β)) (k : String) (x : β)
    (h : alookup d k = some x) (s : OrchState) : pyDictGet d k s = (.ok x, s, []) := by
  unfold pyDictGet
  rw [h]
  rfl

theorem PyM.bind_eval {α β : Type} {m : PyM α} {f : α → PyM β} {s s₁ s₂ : OrchState}
    {a : α} {t₁ : List Event} {r : Except PyErr β} {t₂ : List Event}
    (h₁ : m s = (.ok a, s₁, t₁)) (h₂ : f a s₁ = (r, s₂, t₂)) :
    PyM.bind m f s = (r, s₂, t₁ ++ t₂) := by
  simp only [PyM.bind, h₁, h₂]

theorem fireHook_getter_eval (sem : Semantics) (h : Hook) (v : Val) (s : OrchState)
    (hk : h.kind = .getter) (hgen : s.isGeneration = false) :
    fireHook sem h v s = (.ok v, getterAction sem h s v, []) := by
  unfold fireHook
  rw [hk, hgen]
  rfl

theorem fireHook_setter_eval (sem : Semantics) (h : Hook) (v : Val) (s : OrchState)
    (hk : h.kind = .setter) (hgen : s.isGeneration = false) (srcv : Val)
    (hcache : alookup (heapCache s) h.key = some srcv) (hsub : h.subspace = none) :
    fireHook sem h v s = (.ok (setterEdit sem h.key h.locBase none srcv v), s, []) := by
  unfold fireHook
  rw [hk, hgen]
  show (setterAction sem h s v, s, []) = _
  unfold setterAction
  rw [hcache]
  unfold setterEdit
  rw [hsub]

theorem hooksRun_getter_from (cfg : OrchConfig) (sem : Semantics) (M : OpaqueModel)
    (g : Hook) (lo cnt : Nat) (v : Val) (s : OrchState)
    (hk : g.kind = .getter) (hgen : s.isGeneration = false) :
    hooksRun cfg sem M [g] lo cnt v s =
      (.ok (stagesFrom M (cfg.modOf g.key + 1) (lo + cnt - (cfg.modOf g.key + 1))
             (stagesFrom M lo (cfg.modOf g.key + 1 - lo) v)),
       getterAction sem g s (stagesFrom M lo (cfg.modOf g.key + 1 - lo) v), []) := by
  show (PyM.bind (fireHook sem g (stagesFrom M lo (cfg.modOf g.key + 1 - lo) v)) (fun v₁ =>
      hooksRun cfg sem M [] (cfg.modOf g.key + 1) (lo + cnt - (cfg.modOf g.key + 1)) v₁)) s = _
  rw [PyM.bind_eval (fireHook_getter_eval sem g _ s hk hgen) rfl]
  rfl

theorem hooksRun_setter_getter_from (cfg : OrchConfig) (sem : Semantics) (M : OpaqueModel)
    (hS hG : Hook) (lo cnt : Nat) (v : Val) (s : OrchState)
    (hkS : hS.kind = .setter) (hsubS : hS.subspace = none) (hkG : hG.kind = .getter)
    (hgen : s.isGeneration = false) (srcv : Val)
    (hcache : alookup (heapCache s) hS.key = some srcv) :
    hooksRun cfg sem M [hS, hG] lo cnt v s =
      (.ok (stagesFrom M (cfg.modOf hG.key + 1)
             (cfg.modOf hS.key + 1 + (lo + cnt - (cfg.modOf hS.key + 1))
               - (cfg.modOf hG.key + 1))
             (stagesFrom M (cfg.modOf hS.key + 1)
               (cfg.modOf hG.key + 1 - (cfg.modOf hS.key + 1))
               (setterEdit sem hS.key hS.locBase none srcv
                 (stagesFrom M lo (cfg.modOf hS.key + 1 - lo) v)))),
       getterAction sem hG s
         (stagesFrom M (cfg.modOf hS.key + 1)
           (cfg.modOf hG.key + 1 - (cfg.modOf hS.key + 1))
           (setterEdit sem hS.key hS.locBase none srcv
             (stagesFrom M lo (cfg.modOf hS.key + 1 - lo) v))), []) := by
  show (PyM.bind (fireHook sem hS (stagesFrom M lo (cfg.modOf hS.key + 1 - lo) v)) (fun v₁ =>
      hooksRun cfg sem M [hG] (cfg.modOf hS.key + 1)
        (lo + cnt - (cfg.modOf hS.key + 1)) v₁)) s = _
  rw [PyM.bind_eval (fireHook_setter_eval sem hS _ s hkS hgen srcv hcache hsubS)
      (hooksRun_getter_from cfg sem M hG _ _ _ s hkG hgen)]
  rfl

theorem hooksRun_setters (cfg : OrchConfig) (sem : Semantics) (M : OpaqueModel)
    (cap : String → Val) :
    ∀ (hs : List Hook) (lo : Nat) (v : Val) (s : OrchState),
      s.isGeneration = false →
      lo ≤ M.numModules →
      (∀ h ∈ hs, h.kind = .setter ∧ h.subspace = none ∧ cfg.modOf h.key < M.numModules ∧
        alookup (heapCache s) h.key = some (cap h.key)) →
      hooksRun cfg sem M hs lo (M.numModules - lo) v s =
        (.ok (multiEdit cfg sem M (hs.map (fun h => (h.key, h.locBase, cap h.key))) lo v),
         s, []) := by
  intro hs
  induction hs with
  | nil => intro lo v s _ _ _; rfl
  | cons h t ih =>
    intro lo v s hgen hlo hall
    obtain ⟨hk, hsubn, hmlt, hcache⟩ := hall h (by simp)
    show (PyM.bind (fireHook sem h (stagesFrom M lo (cfg.modOf h.key + 1 - lo) v)) (fun v₁ =>
        hooksRun cfg sem M t (cfg.modOf h.key + 1)
          (lo + (M.numModules - lo) - (cfg.modOf h.key + 1)) v₁)) s = _
    have harith : lo + (M.numModules - lo) - (cfg.modOf h.key + 1)
        = M.numModules - (cfg.modOf h.key + 1) := by omega
    rw [harith]
    rw [PyM.bind_eval (fireHook_setter_eval sem h _ s hk hgen _ hcache hsubn)
      (ih (cfg.modOf h.key + 1) _ s hgen (by omega)
        (fun h' hh' => hall h' (List.mem_cons_of_mem h hh')))]
    rfl

theorem get?_getD {β : Type} (l : List β) (i : Nat) (d : β) (h : i < l.length) :
    l.get? i = some (l.getD i d) := by
  rw [List.get?_eq_get h, List.getD_eq_getElem l d h]
  rfl

theorem pairwise_range_map {β : Type} (f : Nat → β) (R : β → β → Prop) (n : Nat)
    (h : ∀ i j, i < j → j < n → R (f i) (f j)) :
    List.Pairwise R ((List.range n).map f) := by
  rw [List.pairwise_map]
  exact (List.pairwise_lt_range n).imp_of_mem
    (fun ha hb hab => h _ _ hab (List.mem_range.mp hb))

theorem hooksRun_getter_zero (cfg : OrchConfig) (sem : Semantics) (M : OpaqueModel)
    (g : Hook) (v : Val) (s : OrchState)
    (hk : g.kind = .getter) (hgen : s.isGeneration = false) :
    hooksRun cfg sem M [g] 0 M.numModules v s =
      (.ok (stagesFrom M (cfg.modOf g.key + 1) (M.numModules - (cfg.modOf g.key + 1))
             (stagesFrom M 0 (cfg.modOf g.key + 1) v)),
       getterAction sem g s (stagesFrom M 0 (cfg.modOf g.key + 1) v), []) := by
  rw [hooksRun_getter_from cfg sem M g 0 M.numModules v s hk hgen]
  rw [Nat.sub_zero, Nat.zero_add]

theorem pgLoop_eval (cfg : OrchConfig) (sem : Semantics) (M : OpaqueModel)
    (ulS : List Loc) (srcs : List Val) (s : OrchState)
    (hrange : ∀ i, i < cfg.sortedKeys.length →
      cfg.modOf (cfg.sortedKeys.getD i "") < M.numModules)
    (hnod : cfg.sortedKeys.Nodup)
    (hsl : cfg.sortedKeys.length ≤ srcs.length)
    (hull : cfg.sortedKeys.length ≤ ulS.length) :
    ∀ d u, u + d = cfg.sortedKeys.length →
      parallelGetterLoop cfg sem M srcs ulS (List.enumFrom u (cfg.sortedKeys.drop u))
          (midState s (parallelCache cfg sem M ulS srcs u) [] (s.nextHid + u))
        = (.ok (),
           midState s (parallelCache cfg sem M ulS srcs cfg.sortedKeys.length) []
             (s.nextHid + cfg.sortedKeys.length),
           (List.range' u d).map (fun i =>
             ⟨false, srcs.getD i 0,
              [mkGetter (s.nextHid + i) (cfg.sortedKeys.getD i "") (ulS.getD i [])],
              parallelCache cfg sem M ulS srcs i⟩)) := by
  intro d
  induction d with
  | zero =>
    intro u hu
    rw [List.drop_eq_nil_of_le (by omega)]
    rw [show u = cfg.sortedKeys.length from by omega]
    rfl
  | succ d ih =>
    intro u hu
    have hu' : u < cfg.sortedKeys.length := by omega
    rw [List.drop_eq_get_cons hu']
    rw [show cfg.sortedKeys.get ⟨u, hu'⟩ = cfg.sortedKeys.getD u "" from
      (List.getD_eq_getElem cfg.sortedKeys "" hu').symm]
    have h₁ : pyListGet ulS u
        (midState s (parallelCache cfg sem M ulS srcs u) [] (s.nextHid + u))
        = (.ok (ulS.getD u []),
           midState s (parallelCache cfg sem M ulS srcs u) [] (s.nextHid + u), []) :=
      pyListGet_eval ulS u _ (get?_getD ulS u [] (by omega)) _
    have h₂ : interventionGetter [cfg.sortedKeys.getD u ""] [ulS.getD u []]
        (midState s (parallelCache cfg sem M ulS srcs u) [] (s.nextHid + u))
        = (.ok [s.nextHid + u],
           midState s (parallelCache cfg sem M ulS srcs u)
             [mkGetter (s.nextHid + u) (cfg.sortedKeys.getD u "") (ulS.getD u [])]
             (s.nextHid + (u + 1)), []) := by
      rw [interventionGetter_single]
      rfl
    have h₃ : pyListGet srcs u
        (midState s (parallelCache cfg sem M ulS srcs u)
          [mkGetter (s.nextHid + u) (cfg.sortedKeys.getD u "") (ulS.getD u [])]
          (s.nextHid + (u + 1)))
        = (.ok (srcs.getD u 0),
           midState s (parallelCache cfg sem M ulS srcs u)
             [mkGetter (s.nextHid + u) (cfg.sortedKeys.getD u "") (ulS.getD u [])]
             (s.nextHid + (u + 1)), []) :=
      pyListGet_eval srcs u _ (get?_getD srcs u 0 (by omega)) _
    have hnone : alookup (parallelCache cfg sem M ulS srcs u)
        (cfg.sortedKeys.getD u "") = none := by
      unfold parallelCache
      exact alookup_range_map_none _ _ u _ (fun i hi he => by
        have := keys_getD_inj cfg.sortedKeys hnod i u (by omega) hu' he
        omega)
    have h₄ : modelCall cfg sem M (srcs.getD u 0)
        (midState s (parallelCache cfg sem M ulS srcs u)
          [mkGetter (s.nextHid + u) (cfg.sortedKeys.getD u "") (ulS.getD u [])]
          (s.nextHid + (u + 1)))
        = (.ok (stagesFrom M (cfg.modOf (cfg.sortedKeys.getD u "") + 1)
                 (M.numModules - (cfg.modOf (cfg.sortedKeys.getD u "") + 1))
                 (stagesFrom M 0 (cfg.modOf (cfg.sortedKeys.getD u "") + 1)
                   (srcs.getD u 0))),
           midState s (parallelCache cfg sem M ulS srcs (u + 1))
             [mkGetter (s.nextHid + u) (cfg.sortedKeys.getD u "") (ulS.getD u [])]
             (s.nextHid + (u + 1)),
           [⟨false, srcs.getD u 0,
             [mkGetter (s.nextHid + u) (cfg.sortedKeys.getD u "") (ulS.getD u [])],
             parallelCache cfg sem M ulS srcs u⟩]) := by
      unfold modelCall
      rw [show (midState s (parallelCache cfg sem M ulS srcs u)
          [mkGetter (s.nextHid + u) (cfg.sortedKeys.getD u "") (ulS.getD u [])]
          (s.nextHid + (u + 1))).attached
        = [mkGetter (s.nextHid + u) (cfg.sortedKeys.getD u "") (ulS.getD u [])] from rfl]
      rw [heapCache_midState]
      rw [runFrom_eq_hooksRun cfg sem M
        [mkGetter (s.nextHid + u) (cfg.sortedKeys.getD u "") (ulS.getD u [])]
        0 M.numModules (srcs.getD u 0)
        (List.pairwise_singleton _ _)
        (fun h hh => by
          rw [List.mem_singleton] at hh
          subst hh
          exact ⟨Nat.zero_le _, by rw [Nat.zero_add]; exact hrange u hu'⟩)]
      rw [hooksRun_getter_zero cfg sem M _ _ _ rfl rfl]
      dsimp only
      refine Prod.ext rfl (Prod.ext ?_ rfl)
      show getterAction sem
          (mkGetter (s.nextHid + u) (cfg.sortedKeys.getD u "") (ulS.getD u []))
          (midState s (parallelCache cfg sem M ulS srcs u)
            [mkGetter (s.nextHid + u) (cfg.sortedKeys.getD u "") (ulS.getD u [])]
            (s.nextHid + (u + 1)))
          (stagesFrom M 0
            (cfg.modOf (mkGetter (s.nextHid + u) (cfg.sortedKeys.getD u "")
              (ulS.getD u [])).key + 1) (srcs.getD u 0))
        = midState s (parallelCache cfg sem M ulS srcs (u + 1))
            [mkGetter (s.nextHid + u) (cfg.sortedKeys.getD u "") (ulS.getD u [])]
            (s.nextHid + (u + 1))
      unfold getterAction
      rw [heapCache_midState]
      dsimp only [mkGetter]
      rw [aupdate_fresh _ _ _ hnone]
      rw [show sem.gatherF (cfg.sortedKeys.getD u "") (ulS.getD u [])
          (stagesFrom M 0 (cfg.modOf (cfg.sortedKeys.getD u "") + 1) (srcs.getD u 0))
        = parallelCapture cfg sem M ulS srcs u from rfl]
      rw [← parallelCache_snoc]
      unfold setHeapCache midState
      dsimp only
      rw [aupdate_aupdate_self]
    have h₅ : removeHandlers [s.nextHid + u]
        (midState s (parallelCache cfg sem M ulS srcs (u + 1))
          [mkGetter (s.nextHid + u) (cfg.sortedKeys.getD u "") (ulS.getD u [])]
          (s.nextHid + (u + 1)))
        = (.ok (),
           midState s (parallelCache cfg sem M ulS srcs (u + 1)) []
             (s.nextHid + (u + 1)), []) := by
      rw [removeHandlers_eval]
      rw [show (midState s (parallelCache cfg sem M ulS srcs (u + 1))
          [mkGetter (s.nextHid + u) (cfg.sortedKeys.getD u "") (ulS.getD u [])]
          (s.nextHid + (u + 1))).attached.filter
            (fun h => !(([s.nextHid + u] : List Nat).contains h.hid))
        = [] from filter_drop_of_all_mem _ _ (by
          intro x hx
          rw [show (midState s (parallelCache cfg sem M ulS srcs (u + 1))
            [mkGetter (s.nextHid + u) (cfg.sortedKeys.getD u "") (ulS.getD u [])]
            (s.nextHid + (u + 1))).attached
            = [mkGetter (s.nextHid + u) (cfg.sortedKeys.getD u "") (ulS.getD u [])]
            from rfl] at hx
          rw [List.mem_singleton] at hx
          subst hx
          simp [mkGetter])]
      rfl
    have h₆ := ih (u + 1) (by omega)
    exact PyM.bind_eval h₁ (PyM.bind_eval h₂ (PyM.bind_eval h₃
      (PyM.bind_eval h₄ (PyM.bind_eval h₅ h₆))))

theorem psLoop_eval (cfg : OrchConfig) (sem : Semantics) (M : OpaqueModel)
    (ulS ulB : List Loc) (srcs : List Val) (s : OrchState)
    (hull : cfg.sortedKeys.length ≤ ulS.length)
    (hulB : cfg.sortedKeys.length ≤ ulB.length) :
    ∀ d u, u + d = cfg.sortedKeys.length →
      parallelSetterLoop ulS ulB none (List.enumFrom u (cfg.sortedKeys.drop u))
          ((List.range u).map (fun i => s.nextHid + cfg.sortedKeys.length + i))
          (midState s (parallelCache cfg sem M ulS srcs cfg.sortedKeys.length)
            ((List.range u).map (fun i =>
              mkSetter (s.nextHid + cfg.sortedKeys.length + i) (cfg.sortedKeys.getD i "")
                (ulS.getD i []) (ulB.getD i [])))
            (s.nextHid + cfg.sortedKeys.length + u))
        = (.ok ((List.range cfg.sortedKeys.length).map
             (fun i => s.nextHid + cfg.sortedKeys.length + i)),
           midState s (parallelCache cfg sem M ulS srcs cfg.sortedKeys.length)
             ((List.range cfg.sortedKeys.length).map (fun i =>
               mkSetter (s.nextHid + cfg.sortedKeys.length + i) (cfg.sortedKeys.getD i "")
                 (ulS.getD i []) (ulB.getD i [])))
             (s.nextHid + cfg.sortedKeys.length + cfg.sortedKeys.length),
           []) := by
  intro d
  induction d with
  | zero =>
    intro u hu
    rw [List.drop_eq_nil_of_le (by omega)]
    rw [show u = cfg.sortedKeys.length from by omega]
    rfl
  | succ d ih =>
    intro u hu
    have hu' : u < cfg.sortedKeys.length := by omega
    rw [List.drop_eq_get_cons hu']
    rw [show cfg.sortedKeys.get ⟨u, hu'⟩ = cfg.sortedKeys.getD u "" from
      (List.getD_eq_getElem cfg.sortedKeys "" hu').symm]
    have h₁ : pyListGet ulS u
        (midState s (parallelCache cfg sem M ulS srcs cfg.sortedKeys.length)
          ((List.range u).map (fun i =>
            mkSetter (s.nextHid + cfg.sortedKeys.length + i) (cfg.sortedKeys.getD i "")
              (ulS.getD i []) (ulB.getD i [])))
          (s.nextHid + cfg.sortedKeys.length + u))
        = (.ok (ulS.getD u []),
           midState s (parallelCache cfg sem M ulS srcs cfg.sortedKeys.length)
             ((List.range u).map (fun i =>
               mkSetter (s.nextHid + cfg.sortedKeys.length + i) (cfg.sortedKeys.getD i "")
                 (ulS.getD i []) (ulB.getD i [])))
             (s.nextHid + cfg.sortedKeys.length + u), []) :=
      pyListGet_eval ulS u _ (get?_getD ulS u [] (by omega)) _
    have h₂ : pyListGet ulB u
        (midState s (parallelCache cfg sem M ulS srcs cfg.sortedKeys.length)
          ((List.range u).map (fun i =>
            mkSetter (s.nextHid + cfg.sortedKeys.length + i) (cfg.sortedKeys.getD i "")
              (ulS.getD i []) (ulB.getD i [])))
          (s.nextHid + cfg.sortedKeys.length + u))
        = (.ok (ulB.getD u []),
           midState s (parallelCache cfg sem M ulS srcs cfg.sortedKeys.length)
             ((List.range u).map (fun i =>
               mkSetter (s.nextHid + cfg.sortedKeys.length + i) (cfg.sortedKeys.getD i "")
                 (ulS.getD i []) (ulB.getD i [])))
             (s.nextHid + cfg.sortedKeys.length + u), []) :=
      pyListGet_eval ulB u _ (get?_getD ulB u [] (by omega)) _
    have h₃ : subAt none u
        (midState s (parallelCache cfg sem M ulS srcs cfg.sortedKeys.length)
          ((List.range u).map (fun i =>
            mkSetter (s.nextHid + cfg.sortedKeys.length + i) (cfg.sortedKeys.getD i "")
              (ulS.getD i []) (ulB.getD i [])))
          (s.nextHid + cfg.sortedKeys.length + u))
        = (.ok none,
           midState s (parallelCache cfg sem M ulS srcs cfg.sortedKeys.length)
             ((List.range u).map (fun i =>
               mkSetter (s.nextHid + cfg.sortedKeys.length + i) (cfg.sortedKeys.getD i "")
                 (ulS.getD i []) (ulB.getD i [])))
             (s.nextHid + cfg.sortedKeys.length + u), []) := rfl
    have hatt : (List.range u).map (fun i =>
          mkSetter (s.nextHid + cfg.sortedKeys.length + i) (cfg.sortedKeys.getD i "")
            (ulS.getD i []) (ulB.getD i []))
        ++ [(⟨s.nextHid + cfg.sortedKeys.length + u, .setter, cfg.sortedKeys.getD u "",
             ulS.getD u [], ulB.getD u [], none⟩ : Hook)]
        = (List.range (u + 1)).map (fun i =>
            mkSetter (s.nextHid + cfg.sortedKeys.length + i) (cfg.sortedKeys.getD i "")
              (ulS.getD i []) (ulB.getD i [])) := by
      rw [List.range_succ, List.map_append]
      rfl
    have h₄ : interventionSetter [cfg.sortedKeys.getD u ""] [ulS.getD u []] [ulB.getD u []]
        none
        (midState s (parallelCache cfg sem M ulS srcs cfg.sortedKeys.length)
          ((List.range u).map (fun i =>
            mkSetter (s.nextHid + cfg.sortedKeys.length + i) (cfg.sortedKeys.getD i "")
              (ulS.getD i []) (ulB.getD i [])))
          (s.nextHid + cfg.sortedKeys.length + u))
        = (.ok [s.nextHid + cfg.sortedKeys.length + u],
           midState s (parallelCache cfg sem M ulS srcs cfg.sortedKeys.length)
             ((List.range (u + 1)).map (fun i =>
               mkSetter (s.nextHid + cfg.sortedKeys.length + i) (cfg.sortedKeys.getD i "")
                 (ulS.getD i []) (ulB.getD i [])))
             (s.nextHid + cfg.sortedKeys.length + (u + 1)), []) := by
      rw [interventionSetter_single_none]
      refine Prod.ext rfl (Prod.ext ?_ rfl)
      show _ = (midState s (parallelCache cfg sem M ulS srcs cfg.sortedKeys.length)
        ((List.range (u + 1)).map (fun i =>
          mkSetter (s.nextHid + cfg.sortedKeys.length + i) (cfg.sortedKeys.getD i "")
            (ulS.getD i []) (ulB.getD i [])))
        (s.nextHid + cfg.sortedKeys.length + (u + 1)) : OrchState)
      dsimp only [midState]
      rw [hatt]
      rfl
    have hacc : (List.range u).map (fun i => s.nextHid + cfg.sortedKeys.length + i)
        ++ [s.nextHid + cfg.sortedKeys.length + u]
        = (List.range (u + 1)).map (fun i => s.nextHid + cfg.sortedKeys.length + i) := by
      rw [List.range_succ, List.map_append]
      rfl
    have h₅ : parallelSetterLoop ulS ulB none
        (List.enumFrom (u + 1) (cfg.sortedKeys.drop (u + 1)))
        ((List.range u).map (fun i => s.nextHid + cfg.sortedKeys.length + i)
          ++ [s.nextHid + cfg.sortedKeys.length + u])
        (midState s (parallelCache cfg sem M ulS srcs cfg.sortedKeys.length)
          ((List.range (u + 1)).map (fun i =>
            mkSetter (s.nextHid + cfg.sortedKeys.length + i) (cfg.sortedKeys.getD i "")
              (ulS.getD i []) (ulB.getD i [])))
          (s.nextHid + cfg.sortedKeys.length + (u + 1)))
        = (.ok ((List.range cfg.sortedKeys.length).map
             (fun i => s.nextHid + cfg.sortedKeys.length + i)),
           midState s (parallelCache cfg sem M ulS srcs cfg.sortedKeys.length)
             ((List.range cfg.sortedKeys.length).map (fun i =>
               mkSetter (s.nextHid + cfg.sortedKeys.length + i) (cfg.sortedKeys.getD i "")
                 (ulS.getD i []) (ulB.getD i [])))
             (s.nextHid + cfg.sortedKeys.length + cfg.sortedKeys.length),
           []) := by
      rw [hacc]
      exact ih (u + 1) (by omega)
    exact PyM.bind_eval h₁ (PyM.bind_eval h₂ (PyM.bind_eval h₃ (PyM.bind_eval h₄ h₅)))

/-- Claim C2: in parallel mode, forward runs the opaque model exactly once
per source with only that point's getter hook attached (capturing that
point's slice into the activations cache and detaching the getter before the
next source), then attaches the setter hooks of all registered points
simultaneously and runs the opaque model exactly once on `base` — the
resulting counterfactual output is the multi-point edit in which each setter
consumes the cache entry for its own key — and all setters are detached
after that single pass. The trace is: the hook-free base reference run, one
run per source with exactly that point's getter, and one final base run with
all setters attached at once. -/
theorem C2_parallel_schedule (cfg : OrchConfig) (sem : Semantics) (M : OpaqueModel)
    (args : ForwardArgs) (s : OrchState) (srcs : List Val) (ulS ulB : List Loc)
    (hmode : cfg.mode = "parallel")
    (hsrc : args.sources = some srcs)
    (hact : args.activationsSources = none)
    (hsub : args.subspaces = none)
    (hul : alookup args.unitLocations "sources->base" = some (ulS, ulB))
    (hlen : srcs.length = cfg.sortedKeys.length)
    (hull : cfg.sortedKeys.length ≤ ulS.length)
    (hulB : cfg.sortedKeys.length ≤ ulB.length)
    (hnod : cfg.sortedKeys.Nodup)
    (hmono : ∀ i j, i < j → j < cfg.sortedKeys.length →
      cfg.modOf (cfg.sortedKeys.getD i "") < cfg.modOf (cfg.sortedKeys.getD j ""))
    (hrange : ∀ i, i < cfg.sortedKeys.length →
      cfg.modOf (cfg.sortedKeys.getD i "") < M.numModules) :
    forward cfg sem M args s =
      (.ok (stagesFrom M 0 M.numModules args.base,
        some (multiEdit cfg sem M
          ((List.range cfg.sortedKeys.length).map (fun i =>
            (cfg.sortedKeys.getD i "", ulB.getD i [],
             parallelCapture cfg sem M ulS srcs i))) 0 args.base)),
       midState s (parallelCache cfg sem M ulS srcs cfg.sortedKeys.length) []
         (s.nextHid + cfg.sortedKeys.length + cfg.sortedKeys.length),
       ⟨false, args.base, [], []⟩ ::
         (List.range cfg.sortedKeys.length).map (fun i =>
           ⟨false, srcs.getD i 0,
            [mkGetter (s.nextHid + i) (cfg.sortedKeys.getD i "") (ulS.getD i [])],
            parallelCache cfg sem M ulS srcs i⟩)
         ++ [⟨false, args.base,
              (List.range cfg.sortedKeys.length).map (fun i =>
                mkSetter (s.nextHid + cfg.sortedKeys.length + i)
                  (cfg.sortedKeys.getD i "") (ulS.getD i []) (ulB.getD i [])),
              parallelCache cfg sem M ulS srcs cfg.sortedKeys.length⟩]) := by
  have hcap : ∀ i, i < cfg.sortedKeys.length →
      alookup (parallelCache cfg sem M ulS srcs cfg.sortedKeys.length)
        (cfg.sortedKeys.getD i "") = some (parallelCapture cfg sem M ulS srcs i) := by
    intro i hi
    unfold parallelCache
    exact alookup_range_map _ _ cfg.sortedKeys.length i hi
      (fun a b ha hb hab => keys_getD_inj cfg.sortedKeys hnod a b ha hb hab)
  have hbase : modelCall cfg sem M args.base (midState s [] [] s.nextHid)
      = (.ok (stagesFrom M 0 M.numModules args.base), midState s [] [] s.nextHid,
         [⟨false, args.base, [], []⟩]) := by
    unfold modelCall
    rw [show (midState s [] [] s.nextHid).attached = ([] : List Hook) from rfl]
    rw [runFrom_skip cfg sem M [] M.numModules 0 args.base (by simp)]
    rw [heapCache_midState]
    rfl
  have hpw : List.Pairwise (fun a b : Hook => cfg.modOf a.key < cfg.modOf b.key)
      ((List.range cfg.sortedKeys.length).map (fun i =>
        mkSetter (s.nextHid + cfg.sortedKeys.length + i) (cfg.sortedKeys.getD i "")
          (ulS.getD i []) (ulB.getD i []))) :=
    pairwise_range_map _ _ _ (fun i j hij hj => by
      dsimp only [mkSetter]
      exact hmono i j hij hj)
  have hall : ∀ h ∈ (List.range cfg.sortedKeys.length).map (fun i =>
        mkSetter (s.nextHid + cfg.sortedKeys.length + i) (cfg.sortedKeys.getD i "")
          (ulS.getD i []) (ulB.getD i [])),
      h.kind = .setter ∧ h.subspace = none ∧ cfg.modOf h.key < M.numModules ∧
      alookup (heapCache (midState s (parallelCache cfg sem M ulS srcs
          cfg.sortedKeys.length)
        ((List.range cfg.sortedKeys.length).map (fun i =>
          mkSetter (s.nextHid + cfg.sortedKeys.length + i) (cfg.sortedKeys.getD i "")
            (ulS.getD i []) (ulB.getD i [])))
        (s.nextHid + cfg.sortedKeys.length + cfg.sortedKeys.length))) h.key
        = some ((fun k => (alookup (parallelCache cfg sem M ulS srcs
            cfg.sortedKeys.length) k).getD 0) h.key) := by
    intro h hh
    rw [List.mem_map] at hh
    obtain ⟨i, hmem, heq⟩ := hh
    rw [List.mem_range] at hmem
    subst heq
    refine ⟨rfl, rfl, ?_, ?_⟩
    · dsimp only [mkSetter]
      exact hrange i hmem
    · rw [heapCache_midState]
      dsimp only [mkSetter]
      rw [hcap i hmem]
      rfl
  have hmap : ((List.range cfg.sortedKeys.length).map (fun i =>
        mkSetter (s.nextHid + cfg.sortedKeys.length + i) (cfg.sortedKeys.getD i "")
          (ulS.getD i []) (ulB.getD i []))).map (fun h =>
        (h.key, h.locBase,
         (fun k => (alookup (parallelCache cfg sem M ulS srcs
           cfg.sortedKeys.length) k).getD 0) h.key))
      = (List.range cfg.sortedKeys.length).map (fun i =>
          (cfg.sortedKeys.getD i "", ulB.getD i [],
           parallelCapture cfg sem M ulS srcs i)) := by
    rw [List.map_map]
    apply List.map_congr_left
    intro i hi
    rw [List.mem_range] at hi
    show (cfg.sortedKeys.getD i "", ulB.getD i [],
      (alookup (parallelCache cfg sem M ulS srcs cfg.sortedKeys.length)
        (cfg.sortedKeys.getD i "")).getD 0) = _
    rw [hcap i hi]
    rfl
  have hfinal : modelCall cfg sem M args.base
      (midState s (parallelCache cfg sem M ulS srcs cfg.sortedKeys.length)
        ((List.range cfg.sortedKeys.length).map (fun i =>
          mkSetter (s.nextHid + cfg.sortedKeys.length + i) (cfg.sortedKeys.getD i "")
            (ulS.getD i []) (ulB.getD i [])))
        (s.nextHid + cfg.sortedKeys.length + cfg.sortedKeys.length))
      = (.ok (multiEdit cfg sem M
          ((List.range cfg.sortedKeys.length).map (fun i =>
            (cfg.sortedKeys.getD i "", ulB.getD i [],
             parallelCapture cfg sem M ulS srcs i))) 0 args.base),
         midState s (parallelCache cfg sem M ulS srcs cfg.sortedKeys.length)
           ((List.range cfg.sortedKeys.length).map (fun i =>
             mkSetter (s.nextHid + cfg.sortedKeys.length + i) (cfg.sortedKeys.getD i "")
               (ulS.getD i []) (ulB.getD i [])))
           (s.nextHid + cfg.sortedKeys.length + cfg.sortedKeys.length),
         [⟨false, args.base,
           (List.range cfg.sortedKeys.length).map (fun i =>
             mkSetter (s.nextHid + cfg.sortedKeys.length + i) (cfg.sortedKeys.getD i "")
               (ulS.getD i []) (ulB.getD i [])),
           parallelCache cfg sem M ulS srcs cfg.sortedKeys.length⟩]) := by
    unfold modelCall
    rw [show (midState s (parallelCache cfg sem M ulS srcs cfg.sortedKeys.length)
        ((List.range cfg.sortedKeys.length).map (fun i =>
          mkSetter (s.nextHid + cfg.sortedKeys.length + i) (cfg.sortedKeys.getD i "")
            (ulS.getD i []) (ulB.getD i [])))
        (s.nextHid + cfg.sortedKeys.length + cfg.sortedKeys.length)).attached
      = (List.range cfg.sortedKeys.length).map (fun i =>
          mkSetter (s.nextHid + cfg.sortedKeys.length + i) (cfg.sortedKeys.getD i "")
            (ulS.getD i []) (ulB.getD i [])) from rfl]
    rw [heapCache_midState]
    rw [runFrom_eq_hooksRun cfg sem M _ 0 M.numModules args.base hpw
      (fun h hh => by
        rw [List.mem_map] at hh
        obtain ⟨i, hmem, heq⟩ := hh
        rw [List.mem_range] at hmem
        subst heq
        refine ⟨Nat.zero_le _, ?_⟩
        rw [Nat.zero_add]
        dsimp only [mkSetter]
        exact hrange i hmem)]
    have hsr := hooksRun_setters cfg sem M
      (fun k => (alookup (parallelCache cfg sem M ulS srcs
        cfg.sortedKeys.length) k).getD 0)
      ((List.range cfg.sortedKeys.length).map (fun i =>
        mkSetter (s.nextHid + cfg.sortedKeys.length + i) (cfg.sortedKeys.getD i "")
          (ulS.getD i []) (ulB.getD i [])))
      0 args.base
      (midState s (parallelCache cfg sem M ulS srcs cfg.sortedKeys.length)
        ((List.range cfg.sortedKeys.length).map (fun i =>
          mkSetter (s.nextHid + cfg.sortedKeys.length + i) (cfg.sortedKeys.getD i "")
            (ulS.getD i []) (ulB.getD i [])))
        (s.nextHid + cfg.sortedKeys.length + cfg.sortedKeys.length))
      rfl (Nat.zero_le _) hall
    rw [Nat.sub_zero] at hsr
    rw [hsr, hmap]
  have hremove : removeHandlers
      ((List.range cfg.sortedKeys.length).map
        (fun i => s.nextHid + cfg.sortedKeys.length + i))
      (midState s (parallelCache cfg sem M ulS srcs cfg.sortedKeys.length)
        ((List.range cfg.sortedKeys.length).map (fun i =>
          mkSetter (s.nextHid + cfg.sortedKeys.length + i) (cfg.sortedKeys.getD i "")
            (ulS.getD i []) (ulB.getD i [])))
        (s.nextHid + cfg.sortedKeys.length + cfg.sortedKeys.length))
      = (.ok (),
         midState s (parallelCache cfg sem M ulS srcs cfg.sortedKeys.length) []
           (s.nextHid + cfg.sortedKeys.length + cfg.sortedKeys.length), []) := by
    rw [removeHandlers_eval]
    rw [show (midState s (parallelCache cfg sem M ulS srcs cfg.sortedKeys.length)
        ((List.range cfg.sortedKeys.length).map (fun i =>
          mkSetter (s.nextHid + cfg.sortedKeys.length + i) (cfg.sortedKeys.getD i "")
            (ulS.getD i []) (ulB.getD i [])))
        (s.nextHid + cfg.sortedKeys.length + cfg.sortedKeys.length)).attached.filter
          (fun h => !((((List.range cfg.sortedKeys.length).map
            (fun i => s.nextHid + cfg.sortedKeys.length + i)) : List Nat).contains h.hid))
      = [] from filter_drop_of_all_mem _ _ (by
        intro x hx
        rw [show (midState s (parallelCache cfg sem M ulS srcs cfg.sortedKeys.length)
            ((List.range cfg.sortedKeys.length).map (fun i =>
              mkSetter (s.nextHid + cfg.sortedKeys.length + i) (cfg.sortedKeys.getD i "")
                (ulS.getD i []) (ulB.getD i [])))
            (s.nextHid + cfg.sortedKeys.length + cfg.sortedKeys.length)).attached
          = (List.range cfg.sortedKeys.length).map (fun i =>
              mkSetter (s.nextHid + cfg.sortedKeys.length + i) (cfg.sortedKeys.getD i "")
                (ulS.getD i []) (ulB.getD i [])) from rfl] at hx
        rw [List.mem_map] at hx
        obtain ⟨i, hmem, heq⟩ := hx
        subst heq
        dsimp only [mkSetter]
        exact List.mem_map.mpr ⟨i, hmem, rfl⟩)]
    rfl
  rw [show (List.range cfg.sortedKeys.length).map (fun i =>
        (⟨false, srcs.getD i 0,
          [mkGetter (s.nextHid + i) (cfg.sortedKeys.getD i "") (ulS.getD i [])],
          parallelCache cfg sem M ulS srcs i⟩ : Event))
      = (List.range' 0 cfg.sortedKeys.length).map (fun i =>
          (⟨false, srcs.getD i 0,
            [mkGetter (s.nextHid + i) (cfg.sortedKeys.getD i "") (ulS.getD i [])],
            parallelCache cfg sem M ulS srcs i⟩ : Event))
      from by rw [List.range_eq_range']]
  have h_pass : passert (srcs.length == cfg.sortedKeys.length) (midState s [] [] s.nextHid)
      = (.ok (), midState s [] [] s.nextHid, []) := by
    unfold passert
    rw [hlen]
    simp
  have h_validate := forwardValidate_parallel cfg (some srcs) args.unitLocations
    none (ulS, ulB) (midState s [] [] s.nextHid) hmode hul
  have h_getters := pgLoop_eval cfg sem M ulS srcs s hrange hnod
    (by omega) hull cfg.sortedKeys.length 0 (by omega)
  have h_setters := psLoop_eval cfg sem M ulS ulB srcs s hull hulB
    cfg.sortedKeys.length 0 (by omega)
  have h_clean : pmodifyState cleanupStates s
      = (.ok (), midState s [] [] s.nextHid, []) := rfl
  have h_pure : PyM.pure (stagesFrom M 0 M.numModules args.base,
      some (multiEdit cfg sem M
        ((List.range cfg.sortedKeys.length).map (fun i =>
          (cfg.sortedKeys.getD i "", ulB.getD i [],
           parallelCapture cfg sem M ulS srcs i))) 0 args.base))
      (midState s (parallelCache cfg sem M ulS srcs cfg.sortedKeys.length) []
        (s.nextHid + cfg.sortedKeys.length + cfg.sortedKeys.length))
      = (.ok (stagesFrom M 0 M.numModules args.base,
          some (multiEdit cfg sem M
            ((List.range cfg.sortedKeys.length).map (fun i =>
              (cfg.sortedKeys.getD i "", ulB.getD i [],
               parallelCapture cfg sem M ulS srcs i))) 0 args.base)),
         midState s (parallelCache cfg sem M ulS srcs cfg.sortedKeys.length) []
           (s.nextHid + cfg.sortedKeys.length + cfg.sortedKeys.length), []) := rfl
  unfold forward forwardCore
  rw [hsrc, hact, hsub, hmode]
  show _ = (.ok (stagesFrom M 0 M.numModules args.base,
      some (multiEdit cfg sem M
        ((List.range cfg.sortedKeys.length).map (fun i =>
          (cfg.sortedKeys.getD i "", ulB.getD i [],
           parallelCapture cfg sem M ulS srcs i))) 0 args.base)),
    midState s (parallelCache cfg sem M ulS srcs cfg.sortedKeys.length) []
      (s.nextHid + cfg.sortedKeys.length + cfg.sortedKeys.length),
    [] ++ ([] ++ ([] ++ ([(⟨false, args.base, [], []⟩ : Event)] ++
      ((List.range' 0 cfg.sortedKeys.length).map (fun i =>
        (⟨false, srcs.getD i 0,
          [mkGetter (s.nextHid + i) (cfg.sortedKeys.getD i "") (ulS.getD i [])],
          parallelCache cfg sem M ulS srcs i⟩ : Event))
       ++ ([] ++ ([(⟨false, args.base,
            (List.range cfg.sortedKeys.length).map (fun i =>
              mkSetter (s.nextHid + cfg.sortedKeys.length + i)
                (cfg.sortedKeys.getD i "") (ulS.getD i []) (ulB.getD i [])),
            parallelCache cfg sem M ulS srcs cfg.sortedKeys.length⟩ : Event)]
          ++ ([] ++ []))))))))
  refine PyM.bind_eval h_clean ?_
  refine PyM.bind_eval h_pass ?_
  refine PyM.bind_eval h_validate ?_
  refine PyM.bind_eval hbase ?_
  refine PyM.bind_eval h_getters ?_
  refine PyM.bind_eval h_setters ?_
  refine @PyM.bind_eval _ _ (modelCall cfg sem M args.base)
    (fun cf => PyM.bind (removeHandlers ((List.range cfg.sortedKeys.length).map
      (fun i => s.nextHid + cfg.sortedKeys.length + i)))
      (fun x => PyM.pure (stagesFrom M 0 M.numModules args.base, some cf)))
    (midState s (parallelCache cfg sem M ulS srcs cfg.sortedKeys.length)
      ((List.range cfg.sortedKeys.length).map (fun i =>
        mkSetter (s.nextHid + cfg.sortedKeys.length + i) (cfg.sortedKeys.getD i "")
          (ulS.getD i []) (ulB.getD i [])))
      (s.nextHid + cfg.sortedKeys.length + cfg.sortedKeys.length))
    _ _ _ _ _ _ hfinal ?_
  exact @PyM.bind_eval _ _ (removeHandlers ((List.range cfg.sortedKeys.length).map
      (fun i => s.nextHid + cfg.sortedKeys.length + i)))
    (fun x => PyM.pure (stagesFrom M 0 M.numModules args.base,
      some (multiEdit cfg sem M ((List.range cfg.sortedKeys.length).map (fun i =>
        (cfg.sortedKeys.getD i "", ulB.getD i [],
         parallelCapture cfg sem M ulS srcs i))) 0 args.base)))
    (midState s (parallelCache cfg sem M ulS srcs cfg.sortedKeys.length)
      ((List.range cfg.sortedKeys.length).map (fun i =>
        mkSetter (s.nextHid + cfg.sortedKeys.length + i) (cfg.sortedKeys.getD i "")
          (ulS.getD i []) (ulB.getD i [])))
      (s.nextHid + cfg.sortedKeys.length + cfg.sortedKeys.length))
    _ _ _ _ _ _ hremove h_pure

/-- Witness for C2: on the concrete two-point parallel fixture the schedule
theorem yields the counterfactual output 23 (base run 4 with both cached
source slices written in). -/
theorem C2_parallel_schedule_witness :
    (forward exCfgParallel exSem exM exArgsC2 exState).1 = .ok (4, some 23) := by
  rw [C2_parallel_schedule exCfgParallel exSem exM exArgsC2 exState [10, 20]
    [exLoc, exLoc] [exLoc, exLoc] rfl rfl rfl rfl rfl rfl (by decide) (by decide)
    (by decide)
    (by
      intro i j hij hj
      rw [show exCfgParallel.sortedKeys.length = 2 from rfl] at hj
      have hj1 : j = 1 := by omega
      subst hj1
      have hi0 : i = 0 := by omega
      subst hi0
      decide)
    (by
      intro i hi
      rw [show exCfgParallel.sortedKeys.length = 2 from rfl] at hi
      rcases i with _ | _ | n
      · decide
      · decide
      · omega)]
  decide

theorem hooksRun_setter_getter_zero (cfg : OrchConfig) (sem : Semantics) (M : OpaqueModel)
    (hS hG : Hook) (v : Val) (s : OrchState)
    (hkS : hS.kind = .setter) (hsubS : hS.subspace = none) (hkG : hG.kind = .getter)
    (hgen : s.isGeneration = false) (srcv : Val)
    (hcache : alookup (heapCache s) hS.key = some srcv)
    (hlt : cfg.modOf hS.key < cfg.modOf hG.key) (hmG : cfg.modOf hG.key < M.numModules) :
    hooksRun cfg sem M [hS, hG] 0 M.numModules v s =
      (.ok (stagesFrom M (cfg.modOf hG.key + 1) (M.numModules - (cfg.modOf hG.key + 1))
             (stagesFrom M (cfg.modOf hS.key + 1) (cfg.modOf hG.key - cfg.modOf hS.key)
               (setterEdit sem hS.key hS.locBase none srcv
                 (stagesFrom M 0 (cfg.modOf hS.key + 1) v)))),
       getterAction sem hG s
         (stagesFrom M (cfg.modOf hS.key + 1) (cfg.modOf hG.key - cfg.modOf hS.key)
           (setterEdit sem hS.key hS.locBase none srcv
             (stagesFrom M 0 (cfg.modOf hS.key + 1) v))), []) := by
  rw [hooksRun_setter_getter_from cfg sem M hS hG 0 M.numModules v s hkS hsubS hkG hgen
    srcv hcache]
  rw [Nat.sub_zero]
  rw [show cfg.modOf hS.key + 1 + (0 + M.numModules - (cfg.modOf hS.key + 1))
      - (cfg.modOf hG.key + 1) = M.numModules - (cfg.modOf hG.key + 1) from by omega]
  rw [show cfg.modOf hG.key + 1 - (cfg.modOf hS.key + 1)
      = cfg.modOf hG.key - cfg.modOf hS.key from by omega]

theorem serialLoop_eval (cfg : OrchConfig) (sem : Semantics) (M : OpaqueModel)
    (ul : List (String × (List Loc × List Loc))) (srcs : List Val) (s : OrchState)
    (ulEnt : Nat → List Loc × List Loc) (eS eB : Nat → Loc)
    (hrange : ∀ i, i < cfg.sortedKeys.length →
      cfg.modOf (cfg.sortedKeys.getD i "") < M.numModules)
    (hnod : cfg.sortedKeys.Nodup)
    (hsl : cfg.sortedKeys.length ≤ srcs.length)
    (hmono : ∀ i j, i < j → j < cfg.sortedKeys.length →
      cfg.modOf (cfg.sortedKeys.getD i "") < cfg.modOf (cfg.sortedKeys.getD j ""))
    (hul : ∀ i, i < cfg.sortedKeys.length →
      alookup ul (serialLocKey i cfg.sortedKeys.length) = some (ulEnt i) ∧
      (ulEnt i).1.get? 0 = some (eS i) ∧ (ulEnt i).2.get? 0 = some (eB i)) :
    ∀ d u, 1 ≤ u → u + d = cfg.sortedKeys.length →
      serialLoop cfg sem M cfg.sortedKeys.length (some srcs) ul none none
          (List.enumFrom u (cfg.sortedKeys.drop u))
          [s.nextHid + 2 * (u - 1) + 1]
          (midState s
            (serialCache cfg sem M (fun i => cfg.sortedKeys.getD i "")
              (fun i => srcs.getD i 0) eS eB u)
            [mkSetter (s.nextHid + 2 * (u - 1) + 1) (cfg.sortedKeys.getD (u - 1) "")
              (eS (u - 1)) (eB (u - 1))]
            (s.nextHid + 2 * u))
        = (.ok [s.nextHid + 2 * (cfg.sortedKeys.length - 1) + 1],
           midState s
             (serialCache cfg sem M (fun i => cfg.sortedKeys.getD i "")
               (fun i => srcs.getD i 0) eS eB cfg.sortedKeys.length)
             [mkSetter (s.nextHid + 2 * (cfg.sortedKeys.length - 1) + 1)
               (cfg.sortedKeys.getD (cfg.sortedKeys.length - 1) "")
               (eS (cfg.sortedKeys.length - 1)) (eB (cfg.sortedKeys.length - 1))]
             (s.nextHid + 2 * cfg.sortedKeys.length),
           (List.range' u d).map (fun i =>
             ⟨false, srcs.getD i 0,
              [mkSetter (s.nextHid + 2 * (i - 1) + 1) (cfg.sortedKeys.getD (i - 1) "")
                (eS (i - 1)) (eB (i - 1)),
               mkGetter (s.nextHid + 2 * i) (cfg.sortedKeys.getD i "") (eS i)],
              serialCache cfg sem M (fun i => cfg.sortedKeys.getD i "")
                (fun i => srcs.getD i 0) eS eB i⟩)) := by
  intro d
  induction d with
  | zero =>
    intro u hu1 hu
    rw [List.drop_eq_nil_of_le (by omega)]
    rw [show u = cfg.sortedKeys.length from by omega]
    rfl
  | succ d ih =>
    intro u hu1 hu
    obtain ⟨u', rfl⟩ : ∃ u', u = u' + 1 := ⟨u - 1, by omega⟩
    have hu' : u' + 1 < cfg.sortedKeys.length := by omega
    obtain ⟨hule, hule1, hule2⟩ := hul (u' + 1) hu'
    rw [List.drop_eq_get_cons hu']
    rw [show cfg.sortedKeys.get ⟨u' + 1, hu'⟩ = cfg.sortedKeys.getD (u' + 1) "" from
      (List.getD_eq_getElem cfg.sortedKeys "" hu').symm]
    have h₁ : pyDictGet ul (serialLocKey (u' + 1) cfg.sortedKeys.length)
        (midState s
          (serialCache cfg sem M (fun i => cfg.sortedKeys.getD i "")
            (fun i => srcs.getD i 0) eS eB (u' + 1))
          [mkSetter (s.nextHid + 2 * u' + 1) (cfg.sortedKeys.getD u' "")
            (eS u') (eB u')]
          (s.nextHid + 2 * (u' + 1)))
        = (.ok (ulEnt (u' + 1)),
           midState s
             (serialCache cfg sem M (fun i => cfg.sortedKeys.getD i "")
               (fun i => srcs.getD i 0) eS eB (u' + 1))
             [mkSetter (s.nextHid + 2 * u' + 1) (cfg.sortedKeys.getD u' "")
               (eS u') (eB u')]
             (s.nextHid + 2 * (u' + 1)), []) :=
      pyDictGet_eval ul _ _ hule _
    have h₂ : pyListGet (ulEnt (u' + 1)).1 0
        (midState s
          (serialCache cfg sem M (fun i => cfg.sortedKeys.getD i "")
            (fun i => srcs.getD i 0) eS eB (u' + 1))
          [mkSetter (s.nextHid + 2 * u' + 1) (cfg.sortedKeys.getD u' "")
            (eS u') (eB u')]
          (s.nextHid + 2 * (u' + 1)))
        = (.ok (eS (u' + 1)),
           midState s
             (serialCache cfg sem M (fun i => cfg.sortedKeys.getD i "")
               (fun i => srcs.getD i 0) eS eB (u' + 1))
             [mkSetter (s.nextHid + 2 * u' + 1) (cfg.sortedKeys.getD u' "")
               (eS u') (eB u')]
             (s.nextHid + 2 * (u' + 1)), []) :=
      pyListGet_eval _ 0 _ hule1 _
    have h₃ : pyListGet (ulEnt (u' + 1)).2 0
        (midState s
          (serialCache cfg sem M (fun i => cfg.sortedKeys.getD i "")
            (fun i => srcs.getD i 0) eS eB (u' + 1))
          [mkSetter (s.nextHid + 2 * u' + 1) (cfg.sortedKeys.getD u' "")
            (eS u') (eB u')]
          (s.nextHid + 2 * (u' + 1)))
        = (.ok (eB (u' + 1)),
           midState s
             (serialCache cfg sem M (fun i => cfg.sortedKeys.getD i "")
               (fun i => srcs.getD i 0) eS eB (u' + 1))
             [mkSetter (s.nextHid + 2 * u' + 1) (cfg.sortedKeys.getD u' "")
               (eS u') (eB u')]
             (s.nextHid + 2 * (u' + 1)), []) :=
      pyListGet_eval _ 0 _ hule2 _
    have h₄ : interventionGetter [cfg.sortedKeys.getD (u' + 1) ""] [eS (u' + 1)]
        (midState s
          (serialCache cfg sem M (fun i => cfg.sortedKeys.getD i "")
            (fun i => srcs.getD i 0) eS eB (u' + 1))
          [mkSetter (s.nextHid + 2 * u' + 1) (cfg.sortedKeys.getD u' "")
            (eS u') (eB u')]
          (s.nextHid + 2 * (u' + 1)))
        = (.ok [s.nextHid + 2 * (u' + 1)],
           midState s
             (serialCache cfg sem M (fun i => cfg.sortedKeys.getD i "")
               (fun i => srcs.getD i 0) eS eB (u' + 1))
             [mkSetter (s.nextHid + 2 * u' + 1) (cfg.sortedKeys.getD u' "")
               (eS u') (eB u'),
              mkGetter (s.nextHid + 2 * (u' + 1)) (cfg.sortedKeys.getD (u' + 1) "")
                (eS (u' + 1))]
             (s.nextHid + 2 * (u' + 1) + 1), []) := by
      rw [interventionGetter_single]
      rfl
    have h₅ : pyListGet srcs (u' + 1)
        (midState s
          (serialCache cfg sem M (fun i => cfg.sortedKeys.getD i "")
            (fun i => srcs.getD i 0) eS eB (u' + 1))
          [mkSetter (s.nextHid + 2 * u' + 1) (cfg.sortedKeys.getD u' "")
            (eS u') (eB u'),
           mkGetter (s.nextHid + 2 * (u' + 1)) (cfg.sortedKeys.getD (u' + 1) "")
             (eS (u' + 1))]
          (s.nextHid + 2 * (u' + 1) + 1))
        = (.ok (srcs.getD (u' + 1) 0),
           midState s
             (serialCache cfg sem M (fun i => cfg.sortedKeys.getD i "")
               (fun i => srcs.getD i 0) eS eB (u' + 1))
             [mkSetter (s.nextHid + 2 * u' + 1) (cfg.sortedKeys.getD u' "")
               (eS u') (eB u'),
              mkGetter (s.nextHid + 2 * (u' + 1)) (cfg.sortedKeys.getD (u' + 1) "")
                (eS (u' + 1))]
             (s.nextHid + 2 * (u' + 1) + 1), []) :=
      pyListGet_eval srcs (u' + 1) _ (get?_getD srcs (u' + 1) 0 (by omega)) _
    have hclook : alookup (serialCache cfg sem M (fun i => cfg.sortedKeys.getD i "")
        (fun i => srcs.getD i 0) eS eB (u' + 1)) (cfg.sortedKeys.getD u' "")
        = some (chainCapture cfg sem M (fun i => cfg.sortedKeys.getD i "")
            (fun i => srcs.getD i 0) eS eB u') := by
      unfold serialCache
      exact alookup_range_map _ _ (u' + 1) u' (by omega)
        (fun a b ha hb hab => keys_getD_inj cfg.sortedKeys hnod a b (by omega) (by omega) hab)
    have hnone : alookup (serialCache cfg sem M (fun i => cfg.sortedKeys.getD i "")
        (fun i => srcs.getD i 0) eS eB (u' + 1)) (cfg.sortedKeys.getD (u' + 1) "")
        = none := by
      unfold serialCache
      exact alookup_range_map_none _ _ (u' + 1) _ (fun i hi he => by
        have := keys_getD_inj cfg.sortedKeys hnod i (u' + 1) (by omega) (by omega) he
        omega)
    have h₆ : modelCall cfg sem M (srcs.getD (u' + 1) 0)
        (midState s
          (serialCache cfg sem M (fun i => cfg.sortedKeys.getD i "")
            (fun i => srcs.getD i 0) eS eB (u' + 1))
          [mkSetter (s.nextHid + 2 * u' + 1) (cfg.sortedKeys.getD u' "")
            (eS u') (eB u'),
           mkGetter (s.nextHid + 2 * (u' + 1)) (cfg.sortedKeys.getD (u' + 1) "")
             (eS (u' + 1))]
          (s.nextHid + 2 * (u' + 1) + 1))
        = (.ok (stagesFrom M (cfg.modOf (cfg.sortedKeys.getD (u' + 1) "") + 1)
                 (M.numModules - (cfg.modOf (cfg.sortedKeys.getD (u' + 1) "") + 1))
                 (stagesFrom M (cfg.modOf (cfg.sortedKeys.getD u' "") + 1)
                   (cfg.modOf (cfg.sortedKeys.getD (u' + 1) "")
                     - cfg.modOf (cfg.sortedKeys.getD u' ""))
                   (setterEdit sem (cfg.sortedKeys.getD u' "") (eB u') none
                     (chainCapture cfg sem M (fun i => cfg.sortedKeys.getD i "")
                       (fun i => srcs.getD i 0) eS eB u')
                     (stagesFrom M 0 (cfg.modOf (cfg.sortedKeys.getD u' "") + 1)
                       (srcs.getD (u' + 1) 0))))),
           midState s
             (serialCache cfg sem M (fun i => cfg.sortedKeys.getD i "")
               (fun i => srcs.getD i 0) eS eB (u' + 1 + 1))
             [mkSetter (s.nextHid + 2 * u' + 1) (cfg.sortedKeys.getD u' "")
               (eS u') (eB u'),
              mkGetter (s.nextHid + 2 * (u' + 1)) (cfg.sortedKeys.getD (u' + 1) "")
                (eS (u' + 1))]
             (s.nextHid + 2 * (u' + 1) + 1),
           [⟨false, srcs.getD (u' + 1) 0,
             [mkSetter (s.nextHid + 2 * u' + 1) (cfg.sortedKeys.getD u' "")
               (eS u') (eB u'),
              mkGetter (s.nextHid + 2 * (u' + 1)) (cfg.sortedKeys.getD (u' + 1) "")
                (eS (u' + 1))],
             serialCache cfg sem M (fun i => cfg.sortedKeys.getD i "")
               (fun i => srcs.getD i 0) eS eB (u' + 1)⟩]) := by
      unfold modelCall
      rw [show (midState s
          (serialCache cfg sem M (fun i => cfg.sortedKeys.getD i "")
            (fun i => srcs.getD i 0) eS eB (u' + 1))
          [mkSetter (s.nextHid + 2 * u' + 1) (cfg.sortedKeys.getD u' "")
            (eS u') (eB u'),
           mkGetter (s.nextHid + 2 * (u' + 1)) (cfg.sortedKeys.getD (u' + 1) "")
             (eS (u' + 1))]
          (s.nextHid + 2 * (u' + 1) + 1)).attached
        = [mkSetter (s.nextHid + 2 * u' + 1) (cfg.sortedKeys.getD u' "")
            (eS u') (eB u'),
           mkGetter (s.nextHid + 2 * (u' + 1)) (cfg.sortedKeys.getD (u' + 1) "")
             (eS (u' + 1))] from rfl]
      rw [heapCache_midState]
      rw [runFrom_eq_hooksRun cfg sem M
        [mkSetter (s.nextHid + 2 * u' + 1) (cfg.sortedKeys.getD u' "")
          (eS u') (eB u'),
         mkGetter (s.nextHid + 2 * (u' + 1)) (cfg.sortedKeys.getD (u' + 1) "")
           (eS (u' + 1))]
        0 M.numModules (srcs.getD (u' + 1) 0)
        (by
          constructor
          · intro h' hh'
            rw [List.mem_singleton] at hh'
            subst hh'
            dsimp only [mkSetter, mkGetter]
            exact hmono u' (u' + 1) (by omega) hu'
          · exact List.pairwise_singleton _ _)
        (fun h hh => by
          rcases List.mem_cons.mp hh with hh | hh
          · subst hh
            refine ⟨Nat.zero_le _, ?_⟩
            rw [Nat.zero_add]
            dsimp only [mkSetter]
            exact hrange u' (by omega)
          · rw [List.mem_singleton] at hh
            subst hh
            refine ⟨Nat.zero_le _, ?_⟩
            rw [Nat.zero_add]
            dsimp only [mkGetter]
            exact hrange (u' + 1) hu')]
      rw [hooksRun_setter_getter_zero cfg sem M _ _ _ _ rfl rfl rfl rfl
        (chainCapture cfg sem M (fun i => cfg.sortedKeys.getD i "")
          (fun i => srcs.getD i 0) eS eB u')
        (by rw [heapCache_midState]; exact hclook)
        (by
          dsimp only [mkSetter, mkGetter]
          exact hmono u' (u' + 1) (by omega) hu')
        (by
          dsimp only [mkGetter]
          exact hrange (u' + 1) hu')]
      dsimp only
      refine Prod.ext rfl (Prod.ext ?_ rfl)
      show getterAction sem
          (mkGetter (s.nextHid + 2 * (u' + 1)) (cfg.sortedKeys.getD (u' + 1) "")
            (eS (u' + 1)))
          (midState s
            (serialCache cfg sem M (fun i => cfg.sortedKeys.getD i "")
              (fun i => srcs.getD i 0) eS eB (u' + 1))
            [mkSetter (s.nextHid + 2 * u' + 1) (cfg.sortedKeys.getD u' "")
              (eS u') (eB u'),
             mkGetter (s.nextHid + 2 * (u' + 1)) (cfg.sortedKeys.getD (u' + 1) "")
               (eS (u' + 1))]
            (s.nextHid + 2 * (u' + 1) + 1)) _
        = _
      unfold getterAction
      rw [heapCache_midState]
      dsimp only [mkGetter, mkSetter]
      rw [aupdate_fresh _ _ _ hnone]
      rw [show sem.gatherF (cfg.sortedKeys.getD (u' + 1) "") (eS (u' + 1))
          (stagesFrom M (cfg.modOf (cfg.sortedKeys.getD u' "") + 1)
            (cfg.modOf (cfg.sortedKeys.getD (u' + 1) "")
              - cfg.modOf (cfg.sortedKeys.getD u' ""))
            (setterEdit sem (cfg.sortedKeys.getD u' "") (eB u') none
              (chainCapture cfg sem M (fun i => cfg.sortedKeys.getD i "")
                (fun i => srcs.getD i 0) eS eB u')
              (stagesFrom M 0 (cfg.modOf (cfg.sortedKeys.getD u' "") + 1)
                (srcs.getD (u' + 1) 0))))
        = chainCapture cfg sem M (fun i => cfg.sortedKeys.getD i "")
            (fun i => srcs.getD i 0) eS eB (u' + 1) from rfl]
      rw [← serialCache_snoc]
      unfold setHeapCache midState
      dsimp only
      rw [aupdate_aupdate_self]
    have h₇ : removeHandlers [s.nextHid + 2 * (u' + 1)]
        (midState s
          (serialCache cfg sem M (fun i => cfg.sortedKeys.getD i "")
            (fun i => srcs.getD i 0) eS eB (u' + 1 + 1))
          [mkSetter (s.nextHid + 2 * u' + 1) (cfg.sortedKeys.getD u' "")
            (eS u') (eB u'),
           mkGetter (s.nextHid + 2 * (u' + 1)) (cfg.sortedKeys.getD (u' + 1) "")
             (eS (u' + 1))]
          (s.nextHid + 2 * (u' + 1) + 1))
        = (.ok (),
           midState s
             (serialCache cfg sem M (fun i => cfg.sortedKeys.getD i "")
               (fun i => srcs.getD i 0) eS eB (u' + 1 + 1))
             [mkSetter (s.nextHid + 2 * u' + 1) (cfg.sortedKeys.getD u' "")
               (eS u') (eB u')]
             (s.nextHid + 2 * (u' + 1) + 1), []) := by
      rw [removeHandlers_eval]
      rw [show (midState s
          (serialCache cfg sem M (fun i => cfg.sortedKeys.getD i "")
            (fun i => srcs.getD i 0) eS eB (u' + 1 + 1))
          [mkSetter (s.nextHid + 2 * u' + 1) (cfg.sortedKeys.getD u' "")
            (eS u') (eB u'),
           mkGetter (s.nextHid + 2 * (u' + 1)) (cfg.sortedKeys.getD (u' + 1) "")
             (eS (u' + 1))]
          (s.nextHid + 2 * (u' + 1) + 1)).attached.filter
            (fun h => !(([s.nextHid + 2 * (u' + 1)] : List Nat).contains h.hid))
        = [mkSetter (s.nextHid + 2 * u' + 1) (cfg.sortedKeys.getD u' "")
            (eS u') (eB u')] from by
          rw [show (midState s
              (serialCache cfg sem M (fun i => cfg.sortedKeys.getD i "")
                (fun i => srcs.getD i 0) eS eB (u' + 1 + 1))
              [mkSetter (s.nextHid + 2 * u' + 1) (cfg.sortedKeys.getD u' "")
                (eS u') (eB u'),
               mkGetter (s.nextHid + 2 * (u' + 1)) (cfg.sortedKeys.getD (u' + 1) "")
                 (eS (u' + 1))]
              (s.nextHid + 2 * (u' + 1) + 1)).attached
            = [mkSetter (s.nextHid + 2 * u' + 1) (cfg.sortedKeys.getD u' "")
                (eS u') (eB u')]
              ++ [mkGetter (s.nextHid + 2 * (u' + 1)) (cfg.sortedKeys.getD (u' + 1) "")
                   (eS (u' + 1))] from rfl]
          rw [List.filter_append]
          rw [filter_keep_of_not_mem _ _ (by
            intro x hx
            rw [List.mem_singleton] at hx
            subst hx
            intro hmem
            rw [List.mem_singleton] at hmem
            dsimp only [mkSetter] at hmem
            omega)]
          rw [filter_drop_of_all_mem _ _ (by
            intro x hx
            rw [List.mem_singleton] at hx
            subst hx
            dsimp only [mkGetter]
            exact List.mem_singleton.mpr rfl)]
          rw [List.append_nil]]
      rfl
    have h₈ : PyM.bind (removeHandlers [s.nextHid + 2 * u' + 1])
        (fun x => PyM.pure ([] : List Nat))
        (midState s
          (serialCache cfg sem M (fun i => cfg.sortedKeys.getD i "")
            (fun i => srcs.getD i 0) eS eB (u' + 1 + 1))
          [mkSetter (s.nextHid + 2 * u' + 1) (cfg.sortedKeys.getD u' "")
            (eS u') (eB u')]
          (s.nextHid + 2 * (u' + 1) + 1))
        = (.ok ([] : List Nat),
           midState s
             (serialCache cfg sem M (fun i => cfg.sortedKeys.getD i "")
               (fun i => srcs.getD i 0) eS eB (u' + 1 + 1))
             []
             (s.nextHid + 2 * (u' + 1) + 1), []) := by
      have h8a : removeHandlers [s.nextHid + 2 * u' + 1]
          (midState s
            (serialCache cfg sem M (fun i => cfg.sortedKeys.getD i "")
              (fun i => srcs.getD i 0) eS eB (u' + 1 + 1))
            [mkSetter (s.nextHid + 2 * u' + 1) (cfg.sortedKeys.getD u' "")
              (eS u') (eB u')]
            (s.nextHid + 2 * (u' + 1) + 1))
          = (.ok (),
             midState s
               (serialCache cfg sem M (fun i => cfg.sortedKeys.getD i "")
                 (fun i => srcs.getD i 0) eS eB (u' + 1 + 1))
               []
               (s.nextHid + 2 * (u' + 1) + 1), []) := by
        rw [removeHandlers_eval]
        rw [show (midState s
            (serialCache cfg sem M (fun i => cfg.sortedKeys.getD i "")
              (fun i => srcs.getD i 0) eS eB (u' + 1 + 1))
            [mkSetter (s.nextHid + 2 * u' + 1) (cfg.sortedKeys.getD u' "")
              (eS u') (eB u')]
            (s.nextHid + 2 * (u' + 1) + 1)).attached.filter
              (fun h => !(([s.nextHid + 2 * u' + 1] : List Nat).contains h.hid))
          = [] from filter_drop_of_all_mem _ _ (by
            intro x hx
            rw [show (midState s
                (serialCache cfg sem M (fun i => cfg.sortedKeys.getD i "")
                  (fun i => srcs.getD i 0) eS eB (u' + 1 + 1))
                [mkSetter (s.nextHid + 2 * u' + 1) (cfg.sortedKeys.getD u' "")
                  (eS u') (eB u')]
                (s.nextHid + 2 * (u' + 1) + 1)).attached
              = [mkSetter (s.nextHid + 2 * u' + 1) (cfg.sortedKeys.getD u' "")
                  (eS u') (eB u')] from rfl] at hx
            rw [List.mem_singleton] at hx
            subst hx
            dsimp only [mkSetter]
            exact List.mem_singleton.mpr rfl)]
        rfl
      exact PyM.bind_eval h8a rfl
    have h₉ : interventionSetter [cfg.sortedKeys.getD (u' + 1) ""] [eS (u' + 1)]
        [eB (u' + 1)] none
        (midState s
          (serialCache cfg sem M (fun i => cfg.sortedKeys.getD i "")
            (fun i => srcs.getD i 0) eS eB (u' + 1 + 1))
          []
          (s.nextHid + 2 * (u' + 1) + 1))
        = (.ok [s.nextHid + 2 * (u' + 1) + 1],
           midState s
             (serialCache cfg sem M (fun i => cfg.sortedKeys.getD i "")
               (fun i => srcs.getD i 0) eS eB (u' + 1 + 1))
             [mkSetter (s.nextHid + 2 * (u' + 1) + 1) (cfg.sortedKeys.getD (u' + 1) "")
               (eS (u' + 1)) (eB (u' + 1))]
             (s.nextHid + 2 * (u' + 1) + 1 + 1), []) := by
      rw [interventionSetter_single_none]
      rfl
    have h₁₀ := ih (u' + 1 + 1) (by omega) (by omega)
    have hMID : (PyM.bind (interventionGetter [cfg.sortedKeys.getD (u' + 1) ""]
        [eS (u' + 1)]) (fun gids =>
        PyM.bind (pyListGet srcs (u' + 1)) (fun src =>
        PyM.bind (modelCall cfg sem M src) (fun _ =>
        PyM.bind (removeHandlers gids) (fun _ =>
        if ([s.nextHid + 2 * (u' + 1 - 1) + 1] : List Nat).isEmpty then
          PyM.pure [s.nextHid + 2 * (u' + 1 - 1) + 1]
        else PyM.bind (removeHandlers [s.nextHid + 2 * (u' + 1 - 1) + 1])
          (fun _ => PyM.pure ([] : List Nat)))))))
        (midState s
          (serialCache cfg sem M (fun i => cfg.sortedKeys.getD i "")
            (fun i => srcs.getD i 0) eS eB (u' + 1))
          [mkSetter (s.nextHid + 2 * u' + 1) (cfg.sortedKeys.getD u' "")
            (eS u') (eB u')]
          (s.nextHid + 2 * (u' + 1)))
        = (.ok ([] : List Nat),
           midState s
             (serialCache cfg sem M (fun i => cfg.sortedKeys.getD i "")
               (fun i => srcs.getD i 0) eS eB (u' + 1 + 1))
             []
             (s.nextHid + 2 * (u' + 1) + 1),
           [⟨false, srcs.getD (u' + 1) 0,
             [mkSetter (s.nextHid + 2 * u' + 1) (cfg.sortedKeys.getD u' "")
               (eS u') (eB u'),
              mkGetter (s.nextHid + 2 * (u' + 1)) (cfg.sortedKeys.getD (u' + 1) "")
                (eS (u' + 1))],
             serialCache cfg sem M (fun i => cfg.sortedKeys.getD i "")
               (fun i => srcs.getD i 0) eS eB (u' + 1)⟩]) :=
      PyM.bind_eval h₄ (PyM.bind_eval h₅ (PyM.bind_eval h₆ (PyM.bind_eval h₇ h₈)))
    have h₁₀' : serialLoop cfg sem M cfg.sortedKeys.length (some srcs) ul none none
        (List.enumFrom (u' + 1 + 1) (cfg.sortedKeys.drop (u' + 1 + 1)))
        ([] ++ [s.nextHid + 2 * (u' + 1) + 1])
        (midState s
          (serialCache cfg sem M (fun i => cfg.sortedKeys.getD i "")
            (fun i => srcs.getD i 0) eS eB (u' + 1 + 1))
          [mkSetter (s.nextHid + 2 * (u' + 1) + 1) (cfg.sortedKeys.getD (u' + 1) "")
            (eS (u' + 1)) (eB (u' + 1))]
          (s.nextHid + 2 * (u' + 1) + 1 + 1))
        = (.ok [s.nextHid + 2 * (cfg.sortedKeys.length - 1) + 1],
           midState s
             (serialCache cfg sem M (fun i => cfg.sortedKeys.getD i "")
               (fun i => srcs.getD i 0) eS eB cfg.sortedKeys.length)
             [mkSetter (s.nextHid + 2 * (cfg.sortedKeys.length - 1) + 1)
               (cfg.sortedKeys.getD (cfg.sortedKeys.length - 1) "")
               (eS (cfg.sortedKeys.length - 1)) (eB (cfg.sortedKeys.length - 1))]
             (s.nextHid + 2 * cfg.sortedKeys.length),
           (List.range' (u' + 1 + 1) d).map (fun i =>
             ⟨false, srcs.getD i 0,
              [mkSetter (s.nextHid + 2 * (i - 1) + 1) (cfg.sortedKeys.getD (i - 1) "")
                (eS (i - 1)) (eB (i - 1)),
               mkGetter (s.nextHid + 2 * i) (cfg.sortedKeys.getD i "") (eS i)],
              serialCache cfg sem M (fun i => cfg.sortedKeys.getD i "")
                (fun i => srcs.getD i 0) eS eB i⟩)) := h₁₀
    have hsub : subAt none (u' + 1)
        (midState s
          (serialCache cfg sem M (fun i => cfg.sortedKeys.getD i "")
            (fun i => srcs.getD i 0) eS eB (u' + 1 + 1))
          []
          (s.nextHid + 2 * (u' + 1) + 1))
        = (.ok none,
           midState s
             (serialCache cfg sem M (fun i => cfg.sortedKeys.getD i "")
               (fun i => srcs.getD i 0) eS eB (u' + 1 + 1))
             []
             (s.nextHid + 2 * (u' + 1) + 1), []) := rfl
    have hTAIL : (PyM.bind (subAt none (u' + 1)) (fun sub =>
        PyM.bind (interventionSetter [cfg.sortedKeys.getD (u' + 1) ""] [eS (u' + 1)]
          [eB (u' + 1)] sub) (fun sids =>
        serialLoop cfg sem M cfg.sortedKeys.length (some srcs) ul none none
          (List.enumFrom (u' + 1 + 1) (cfg.sortedKeys.drop (u' + 1 + 1)))
          ([] ++ sids))))
        (midState s
          (serialCache cfg sem M (fun i => cfg.sortedKeys.getD i "")
            (fun i => srcs.getD i 0) eS eB (u' + 1 + 1))
          []
          (s.nextHid + 2 * (u' + 1) + 1))
        = (.ok [s.nextHid + 2 * (cfg.sortedKeys.length - 1) + 1],
           midState s
             (serialCache cfg sem M (fun i => cfg.sortedKeys.getD i "")
               (fun i => srcs.getD i 0) eS eB cfg.sortedKeys.length)
             [mkSetter (s.nextHid + 2 * (cfg.sortedKeys.length - 1) + 1)
               (cfg.sortedKeys.getD (cfg.sortedKeys.length - 1) "")
               (eS (cfg.sortedKeys.length - 1)) (eB (cfg.sortedKeys.length - 1))]
             (s.nextHid + 2 * cfg.sortedKeys.length),
           (List.range' (u' + 1 + 1) d).map (fun i =>
             ⟨false, srcs.getD i 0,
              [mkSetter (s.nextHid + 2 * (i - 1) + 1) (cfg.sortedKeys.getD (i - 1) "")
                (eS (i - 1)) (eB (i - 1)),
               mkGetter (s.nextHid + 2 * i) (cfg.sortedKeys.getD i "") (eS i)],
              serialCache cfg sem M (fun i => cfg.sortedKeys.getD i "")
                (fun i => srcs.getD i 0) eS eB i⟩)) := by
      refine PyM.bind_eval hsub ?_
      refine PyM.bind_eval h₉ ?_
      exact h₁₀'
    exact PyM.bind_eval h₁ (PyM.bind_eval h₂ (PyM.bind_eval h₃
      (PyM.bind_eval hMID hTAIL)))


/-- Claim C1: in serial mode, `forward` visits the registered intervention
points in topological key order; for each non-final point the model run on
the next source happens while that point's setter hook is still registered
(the trace event of iteration `i + 1` lists point `i`'s setter alongside
point `i + 1`'s getter, and the setter is deregistered only inside iteration
`i + 1`), so the activation captured from `source_{i+1}` is the chained
value `chainCapture`, which already contains the edit sourced from
`source_i`. -/
theorem C1_serial_chaining (cfg : OrchConfig) (sem : Semantics) (M : OpaqueModel)
    (args : ForwardArgs) (s : OrchState) (srcs : List Val)
    (ulEnt : Nat → List Loc × List Loc) (eS eB : Nat → Loc)
    (hmode : cfg.mode = "serial")
    (hsrc : args.sources = some srcs)
    (hact : args.activationsSources = none)
    (hsub : args.subspaces = none)
    (hnosb : alookup args.unitLocations "sources->base" = none)
    (hul : ∀ i, i < cfg.sortedKeys.length →
      alookup args.unitLocations (serialLocKey i cfg.sortedKeys.length)
        = some (ulEnt i) ∧
      (ulEnt i).1.get? 0 = some (eS i) ∧ (ulEnt i).2.get? 0 = some (eB i))
    (hlen : srcs.length = cfg.sortedKeys.length)
    (hullen : args.unitLocations.length = cfg.sortedKeys.length)
    (hnod : cfg.sortedKeys.Nodup)
    (hmono : ∀ i j, i < j → j < cfg.sortedKeys.length →
      cfg.modOf (cfg.sortedKeys.getD i "") < cfg.modOf (cfg.sortedKeys.getD j ""))
    (hrange : ∀ i, i < cfg.sortedKeys.length →
      cfg.modOf (cfg.sortedKeys.getD i "") < M.numModules)
    (hn : 0 < cfg.sortedKeys.length) :
    forward cfg sem M args s =
      (.ok (stagesFrom M 0 M.numModules args.base,
        some (multiEdit cfg sem M
          [(cfg.sortedKeys.getD (cfg.sortedKeys.length - 1) "",
            eB (cfg.sortedKeys.length - 1),
            chainCapture cfg sem M (fun i => cfg.sortedKeys.getD i "") (fun i => srcs.getD i 0) eS eB (cfg.sortedKeys.length - 1))]
          0 args.base)),
       midState s (serialCache cfg sem M (fun i => cfg.sortedKeys.getD i "") (fun i => srcs.getD i 0) eS eB cfg.sortedKeys.length) [] (s.nextHid + 2 * cfg.sortedKeys.length),
       ⟨false, args.base, [], []⟩ ::
         ⟨false, srcs.getD 0 0, [mkGetter s.nextHid (cfg.sortedKeys.getD 0 "") (eS 0)], []⟩ ::
         ((List.range' 1 (cfg.sortedKeys.length - 1)).map (fun i =>
           ⟨false, srcs.getD i 0,
            [mkSetter (s.nextHid + 2 * (i - 1) + 1) (cfg.sortedKeys.getD (i - 1) "")
              (eS (i - 1)) (eB (i - 1)),
             mkGetter (s.nextHid + 2 * i) (cfg.sortedKeys.getD i "") (eS i)],
            serialCache cfg sem M (fun i => cfg.sortedKeys.getD i "") (fun i => srcs.getD i 0) eS eB i⟩)
          ++ [⟨false, args.base, [mkSetter (s.nextHid + 2 * (cfg.sortedKeys.length - 1) + 1) (cfg.sortedKeys.getD (cfg.sortedKeys.length - 1) "") (eS (cfg.sortedKeys.length - 1)) (eB (cfg.sortedKeys.length - 1))], serialCache cfg sem M (fun i => cfg.sortedKeys.getD i "") (fun i => srcs.getD i 0) eS eB cfg.sortedKeys.length⟩])) := by
  have h_clean : pmodifyState cleanupStates s
      = (.ok (), midState s [] [] s.nextHid, []) := rfl
  have h_pass : passert (srcs.length == cfg.sortedKeys.length) (midState s [] [] s.nextHid)
      = (.ok (), midState s [] [] s.nextHid, []) := by
    unfold passert
    rw [hlen]
    simp
  have h_validate : forwardValidate cfg (some srcs) args.unitLocations none
      (midState s [] [] s.nextHid)
      = (.ok none, midState s [] [] s.nextHid, []) := by
    unfold forwardValidate
    rw [hmode]
    rw [if_neg (by decide)]
    rw [if_pos (by decide)]
    rw [hnosb]
    show (PyM.bind (passert (srcs.length == args.unitLocations.length))
      (fun x => PyM.pure none)) (midState s [] [] s.nextHid) = _
    have hp2 : passert (srcs.length == args.unitLocations.length) (midState s [] [] s.nextHid)
        = (.ok (), midState s [] [] s.nextHid, []) := by
      unfold passert
      rw [hlen, hullen]
      simp
    exact PyM.bind_eval hp2 rfl
  have hbase : modelCall cfg sem M args.base (midState s [] [] s.nextHid)
      = (.ok (stagesFrom M 0 M.numModules args.base), midState s [] [] s.nextHid,
         [⟨false, args.base, [], []⟩]) := by
    unfold modelCall
    rw [show (midState s [] [] s.nextHid).attached = ([] : List Hook) from rfl]
    rw [runFrom_skip cfg sem M [] M.numModules 0 args.base (by simp)]
    rw [heapCache_midState]
    rfl
  obtain ⟨hul0, hul01, hul02⟩ := hul 0 hn
  have i₁ : pyDictGet args.unitLocations (serialLocKey 0 cfg.sortedKeys.length)
      (midState s [] [] s.nextHid)
      = (.ok (ulEnt 0), midState s [] [] s.nextHid, []) :=
    pyDictGet_eval args.unitLocations _ _ hul0 _
  have i₂ : pyListGet (ulEnt 0).1 0 (midState s [] [] s.nextHid)
      = (.ok (eS 0), midState s [] [] s.nextHid, []) :=
    pyListGet_eval _ 0 _ hul01 _
  have i₃ : pyListGet (ulEnt 0).2 0 (midState s [] [] s.nextHid)
      = (.ok (eB 0), midState s [] [] s.nextHid, []) :=
    pyListGet_eval _ 0 _ hul02 _
  have i₄ : interventionGetter [cfg.sortedKeys.getD 0 ""] [eS 0] (midState s (serialCache cfg sem M (fun i => cfg.sortedKeys.getD i "") (fun i => srcs.getD i 0) eS eB 0) [] s.nextHid)
      = (.ok [s.nextHid], midState s (serialCache cfg sem M (fun i => cfg.sortedKeys.getD i "") (fun i => srcs.getD i 0) eS eB 0) [mkGetter s.nextHid (cfg.sortedKeys.getD 0 "") (eS 0)] (s.nextHid + 1), []) := by
    rw [interventionGetter_single]
    rfl
  have i₅ : pyListGet srcs 0 (midState s (serialCache cfg sem M (fun i => cfg.sortedKeys.getD i "") (fun i => srcs.getD i 0) eS eB 0) [mkGetter s.nextHid (cfg.sortedKeys.getD 0 "") (eS 0)] (s.nextHid + 1))
      = (.ok (srcs.getD 0 0), midState s (serialCache cfg sem M (fun i => cfg.sortedKeys.getD i "") (fun i => srcs.getD i 0) eS eB 0) [mkGetter s.nextHid (cfg.sortedKeys.getD 0 "") (eS 0)] (s.nextHid + 1), []) :=
    pyListGet_eval srcs 0 _ (get?_getD srcs 0 0 (by omega)) _
  have hnone0 : alookup (serialCache cfg sem M (fun i => cfg.sortedKeys.getD i "") (fun i => srcs.getD i 0) eS eB 0) (cfg.sortedKeys.getD 0 "") = none := by
    unfold serialCache
    exact alookup_range_map_none _ _ 0 _ (fun i hi he => by omega)
  have i₆ : modelCall cfg sem M (srcs.getD 0 0) (midState s (serialCache cfg sem M (fun i => cfg.sortedKeys.getD i "") (fun i => srcs.getD i 0) eS eB 0) [mkGetter s.nextHid (cfg.sortedKeys.getD 0 "") (eS 0)] (s.nextHid + 1))
      = (.ok (stagesFrom M (cfg.modOf (cfg.sortedKeys.getD 0 "") + 1)
               (M.numModules - (cfg.modOf (cfg.sortedKeys.getD 0 "") + 1))
               (stagesFrom M 0 (cfg.modOf (cfg.sortedKeys.getD 0 "") + 1) (srcs.getD 0 0))),
         midState s (serialCache cfg sem M (fun i => cfg.sortedKeys.getD i "") (fun i => srcs.getD i 0) eS eB 1) [mkGetter s.nextHid (cfg.sortedKeys.getD 0 "") (eS 0)] (s.nextHid + 1),
         [⟨false, srcs.getD 0 0, [mkGetter s.nextHid (cfg.sortedKeys.getD 0 "") (eS 0)], serialCache cfg sem M (fun i => cfg.sortedKeys.getD i "") (fun i => srcs.getD i 0) eS eB 0⟩]) := by
    unfold modelCall
    rw [show (midState s (serialCache cfg sem M (fun i => cfg.sortedKeys.getD i "") (fun i => srcs.getD i 0) eS eB 0) [mkGetter s.nextHid (cfg.sortedKeys.getD 0 "") (eS 0)] (s.nextHid + 1)).attached = [mkGetter s.nextHid (cfg.sortedKeys.getD 0 "") (eS 0)] from rfl]
    rw [heapCache_midState]
    rw [runFrom_eq_hooksRun cfg sem M [mkGetter s.nextHid (cfg.sortedKeys.getD 0 "") (eS 0)]
      0 M.numModules (srcs.getD 0 0)
      (List.pairwise_singleton _ _)
      (fun h hh => by
        rw [List.mem_singleton] at hh
        subst hh
        refine ⟨Nat.zero_le _, ?_⟩
        rw [Nat.zero_add]
        dsimp only [mkGetter]
        exact hrange 0 hn)]
    rw [hooksRun_getter_zero cfg sem M _ _ _ rfl rfl]
    dsimp only
    refine Prod.ext rfl (Prod.ext ?_ rfl)
    show getterAction sem (mkGetter s.nextHid (cfg.sortedKeys.getD 0 "") (eS 0)) (midState s (serialCache cfg sem M (fun i => cfg.sortedKeys.getD i "") (fun i => srcs.getD i 0) eS eB 0) [mkGetter s.nextHid (cfg.sortedKeys.getD 0 "") (eS 0)] (s.nextHid + 1))
        (stagesFrom M 0 (cfg.modOf (mkGetter s.nextHid (cfg.sortedKeys.getD 0 "") (eS 0)).key + 1) (srcs.getD 0 0))
      = midState s (serialCache cfg sem M (fun i => cfg.sortedKeys.getD i "") (fun i => srcs.getD i 0) eS eB 1) [mkGetter s.nextHid (cfg.sortedKeys.getD 0 "") (eS 0)] (s.nextHid + 1)
    unfold getterAction
    rw [heapCache_midState]
    dsimp only [mkGetter]
    rw [aupdate_fresh _ _ _ hnone0]
    rw [show sem.gatherF (cfg.sortedKeys.getD 0 "") (eS 0)
        (stagesFrom M 0 (cfg.modOf (cfg.sortedKeys.getD 0 "") + 1) (srcs.getD 0 0))
      = chainCapture cfg sem M (fun i => cfg.sortedKeys.getD i "") (fun i => srcs.getD i 0) eS eB 0 from rfl]
    rw [← serialCache_snoc]
    unfold setHeapCache midState
    dsimp only
    rw [aupdate_aupdate_self]
  have i₇ : removeHandlers [s.nextHid] (midState s (serialCache cfg sem M (fun i => cfg.sortedKeys.getD i "") (fun i => srcs.getD i 0) eS eB 1) [mkGetter s.nextHid (cfg.sortedKeys.getD 0 "") (eS 0)] (s.nextHid + 1))
      = (.ok (), midState s (serialCache cfg sem M (fun i => cfg.sortedKeys.getD i "") (fun i => srcs.getD i 0) eS eB 1) [] (s.nextHid + 1), []) := by
    rw [removeHandlers_eval]
    rw [show (midState s (serialCache cfg sem M (fun i => cfg.sortedKeys.getD i "") (fun i => srcs.getD i 0) eS eB 1) [mkGetter s.nextHid (cfg.sortedKeys.getD 0 "") (eS 0)] (s.nextHid + 1)).attached.filter
          (fun h => !(([s.nextHid] : List Nat).contains h.hid)) = []
      from filter_drop_of_all_mem _ _ (by
        intro x hx
        rw [show (midState s (serialCache cfg sem M (fun i => cfg.sortedKeys.getD i "") (fun i => srcs.getD i 0) eS eB 1) [mkGetter s.nextHid (cfg.sortedKeys.getD 0 "") (eS 0)] (s.nextHid + 1)).attached = [mkGetter s.nextHid (cfg.sortedKeys.getD 0 "") (eS 0)] from rfl] at hx
        rw [List.mem_singleton] at hx
        subst hx
        simp [mkGetter])]
    rfl
  have i₈ : (if ([] : List Nat).isEmpty = true then PyM.pure ([] : List Nat)
      else PyM.bind (removeHandlers []) (fun x => PyM.pure ([] : List Nat)))
      (midState s (serialCache cfg sem M (fun i => cfg.sortedKeys.getD i "") (fun i => srcs.getD i 0) eS eB 1) [] (s.nextHid + 1))
      = (.ok ([] : List Nat), midState s (serialCache cfg sem M (fun i => cfg.sortedKeys.getD i "") (fun i => srcs.getD i 0) eS eB 1) [] (s.nextHid + 1), []) := rfl
  have iMID : (PyM.bind (interventionGetter [cfg.sortedKeys.getD 0 ""] [eS 0]) (fun gids =>
      PyM.bind (pyListGet srcs 0) (fun src =>
      PyM.bind (modelCall cfg sem M src) (fun x =>
      PyM.bind (removeHandlers gids) (fun x =>
      if ([] : List Nat).isEmpty = true then PyM.pure ([] : List Nat)
      else PyM.bind (removeHandlers []) (fun x => PyM.pure ([] : List Nat)))))))
      (midState s (serialCache cfg sem M (fun i => cfg.sortedKeys.getD i "") (fun i => srcs.getD i 0) eS eB 0) [] s.nextHid)
      = (.ok ([] : List Nat), midState s (serialCache cfg sem M (fun i => cfg.sortedKeys.getD i "") (fun i => srcs.getD i 0) eS eB 1) [] (s.nextHid + 1), [⟨false, srcs.getD 0 0, [mkGetter s.nextHid (cfg.sortedKeys.getD 0 "") (eS 0)], serialCache cfg sem M (fun i => cfg.sortedKeys.getD i "") (fun i => srcs.getD i 0) eS eB 0⟩]) :=
    PyM.bind_eval i₄ (PyM.bind_eval i₅ (PyM.bind_eval i₆ (PyM.bind_eval i₇ i₈)))
  have isub : subAt none 0 (midState s (serialCache cfg sem M (fun i => cfg.sortedKeys.getD i "") (fun i => srcs.getD i 0) eS eB 1) [] (s.nextHid + 1))
      = (.ok none, midState s (serialCache cfg sem M (fun i => cfg.sortedKeys.getD i "") (fun i => srcs.getD i 0) eS eB 1) [] (s.nextHid + 1), []) := rfl
  have i₉ : interventionSetter [cfg.sortedKeys.getD 0 ""] [eS 0] [eB 0] none (midState s (serialCache cfg sem M (fun i => cfg.sortedKeys.getD i "") (fun i => srcs.getD i 0) eS eB 1) [] (s.nextHid + 1))
      = (.ok [s.nextHid + 1], midState s (serialCache cfg sem M (fun i => cfg.sortedKeys.getD i "") (fun i => srcs.getD i 0) eS eB 1) [mkSetter (s.nextHid + 1) (cfg.sortedKeys.getD 0 "") (eS 0) (eB 0)] (s.nextHid + 1 + 1), []) := by
    rw [interventionSetter_single_none]
    rfl
  have hloop := serialLoop_eval cfg sem M args.unitLocations srcs s ulEnt eS eB
    hrange hnod (by omega) hmono hul (cfg.sortedKeys.length - 1) 1 (by omega)
    (by omega)
  have hloop2 : serialLoop cfg sem M cfg.sortedKeys.length (some srcs) args.unitLocations none none
      (List.enumFrom 1 (cfg.sortedKeys.drop 1)) ([] ++ [s.nextHid + 1]) (midState s (serialCache cfg sem M (fun i => cfg.sortedKeys.getD i "") (fun i => srcs.getD i 0) eS eB 1) [mkSetter (s.nextHid + 1) (cfg.sortedKeys.getD 0 "") (eS 0) (eB 0)] (s.nextHid + 1 + 1))
      = (.ok [s.nextHid + 2 * (cfg.sortedKeys.length - 1) + 1],
         midState s (serialCache cfg sem M (fun i => cfg.sortedKeys.getD i "") (fun i => srcs.getD i 0) eS eB cfg.sortedKeys.length) [mkSetter (s.nextHid + 2 * (cfg.sortedKeys.length - 1) + 1) (cfg.sortedKeys.getD (cfg.sortedKeys.length - 1) "") (eS (cfg.sortedKeys.length - 1)) (eB (cfg.sortedKeys.length - 1))] (s.nextHid + 2 * cfg.sortedKeys.length),
         (List.range' 1 (cfg.sortedKeys.length - 1)).map (fun i =>
           ⟨false, srcs.getD i 0,
            [mkSetter (s.nextHid + 2 * (i - 1) + 1) (cfg.sortedKeys.getD (i - 1) "")
              (eS (i - 1)) (eB (i - 1)),
             mkGetter (s.nextHid + 2 * i) (cfg.sortedKeys.getD i "") (eS i)],
            serialCache cfg sem M (fun i => cfg.sortedKeys.getD i "") (fun i => srcs.getD i 0) eS eB i⟩)) := hloop
  have iTAIL : (PyM.bind (subAt none 0) (fun sub =>
      PyM.bind (interventionSetter [cfg.sortedKeys.getD 0 ""] [eS 0] [eB 0] sub)
        (fun sids =>
        serialLoop cfg sem M cfg.sortedKeys.length (some srcs) args.unitLocations none none
          (List.enumFrom 1 (cfg.sortedKeys.drop 1)) ([] ++ sids))))
      (midState s (serialCache cfg sem M (fun i => cfg.sortedKeys.getD i "") (fun i => srcs.getD i 0) eS eB 1) [] (s.nextHid + 1))
      = (.ok [s.nextHid + 2 * (cfg.sortedKeys.length - 1) + 1],
         midState s (serialCache cfg sem M (fun i => cfg.sortedKeys.getD i "") (fun i => srcs.getD i 0) eS eB cfg.sortedKeys.length) [mkSetter (s.nextHid + 2 * (cfg.sortedKeys.length - 1) + 1) (cfg.sortedKeys.getD (cfg.sortedKeys.length - 1) "") (eS (cfg.sortedKeys.length - 1)) (eB (cfg.sortedKeys.length - 1))] (s.nextHid + 2 * cfg.sortedKeys.length),
         (List.range' 1 (cfg.sortedKeys.length - 1)).map (fun i =>
           ⟨false, srcs.getD i 0,
            [mkSetter (s.nextHid + 2 * (i - 1) + 1) (cfg.sortedKeys.getD (i - 1) "")
              (eS (i - 1)) (eB (i - 1)),
             mkGetter (s.nextHid + 2 * i) (cfg.sortedKeys.getD i "") (eS i)],
            serialCache cfg sem M (fun i => cfg.sortedKeys.getD i "") (fun i => srcs.getD i 0) eS eB i⟩)) := by
    refine PyM.bind_eval isub ?_
    refine PyM.bind_eval i₉ ?_
    exact hloop2
  have hLOOP : serialLoop cfg sem M cfg.sortedKeys.length (some srcs) args.unitLocations none none
      ((0, cfg.sortedKeys.getD 0 "") :: List.enumFrom 1 (cfg.sortedKeys.drop 1)) [] (midState s [] [] s.nextHid)
      = (.ok [s.nextHid + 2 * (cfg.sortedKeys.length - 1) + 1],
         midState s (serialCache cfg sem M (fun i => cfg.sortedKeys.getD i "") (fun i => srcs.getD i 0) eS eB cfg.sortedKeys.length) [mkSetter (s.nextHid + 2 * (cfg.sortedKeys.length - 1) + 1) (cfg.sortedKeys.getD (cfg.sortedKeys.length - 1) "") (eS (cfg.sortedKeys.length - 1)) (eB (cfg.sortedKeys.length - 1))] (s.nextHid + 2 * cfg.sortedKeys.length),
         ⟨false, srcs.getD 0 0, [mkGetter s.nextHid (cfg.sortedKeys.getD 0 "") (eS 0)], serialCache cfg sem M (fun i => cfg.sortedKeys.getD i "") (fun i => srcs.getD i 0) eS eB 0⟩ ::
           (List.range' 1 (cfg.sortedKeys.length - 1)).map (fun i =>
           ⟨false, srcs.getD i 0,
            [mkSetter (s.nextHid + 2 * (i - 1) + 1) (cfg.sortedKeys.getD (i - 1) "")
              (eS (i - 1)) (eB (i - 1)),
             mkGetter (s.nextHid + 2 * i) (cfg.sortedKeys.getD i "") (eS i)],
            serialCache cfg sem M (fun i => cfg.sortedKeys.getD i "") (fun i => srcs.getD i 0) eS eB i⟩)) := by
    show _ = (.ok [s.nextHid + 2 * (cfg.sortedKeys.length - 1) + 1],
      midState s (serialCache cfg sem M (fun i => cfg.sortedKeys.getD i "") (fun i => srcs.getD i 0) eS eB cfg.sortedKeys.length) [mkSetter (s.nextHid + 2 * (cfg.sortedKeys.length - 1) + 1) (cfg.sortedKeys.getD (cfg.sortedKeys.length - 1) "") (eS (cfg.sortedKeys.length - 1)) (eB (cfg.sortedKeys.length - 1))] (s.nextHid + 2 * cfg.sortedKeys.length),
      [] ++ ([] ++ ([] ++ ([(⟨false, srcs.getD 0 0, [mkGetter s.nextHid (cfg.sortedKeys.getD 0 "") (eS 0)], serialCache cfg sem M (fun i => cfg.sortedKeys.getD i "") (fun i => srcs.getD i 0) eS eB 0⟩ : Event)] ++
        (List.range' 1 (cfg.sortedKeys.length - 1)).map (fun i =>
           ⟨false, srcs.getD i 0,
            [mkSetter (s.nextHid + 2 * (i - 1) + 1) (cfg.sortedKeys.getD (i - 1) "")
              (eS (i - 1)) (eB (i - 1)),
             mkGetter (s.nextHid + 2 * i) (cfg.sortedKeys.getD i "") (eS i)],
            serialCache cfg sem M (fun i => cfg.sortedKeys.getD i "") (fun i => srcs.getD i 0) eS eB i⟩)))))
    refine PyM.bind_eval i₁ ?_
    refine PyM.bind_eval i₂ ?_
    refine PyM.bind_eval i₃ ?_
    exact PyM.bind_eval iMID iTAIL
  have hclookN : alookup (serialCache cfg sem M (fun i => cfg.sortedKeys.getD i "") (fun i => srcs.getD i 0) eS eB cfg.sortedKeys.length) (cfg.sortedKeys.getD (cfg.sortedKeys.length - 1) "")
      = some (chainCapture cfg sem M (fun i => cfg.sortedKeys.getD i "") (fun i => srcs.getD i 0) eS eB (cfg.sortedKeys.length - 1)) := by
    unfold serialCache
    exact alookup_range_map _ _ cfg.sortedKeys.length (cfg.sortedKeys.length - 1)
      (by omega)
      (fun a b ha hb hab => keys_getD_inj cfg.sortedKeys hnod a b ha hb hab)
  have f₁ : modelCall cfg sem M args.base (midState s (serialCache cfg sem M (fun i => cfg.sortedKeys.getD i "") (fun i => srcs.getD i 0) eS eB cfg.sortedKeys.length) [mkSetter (s.nextHid + 2 * (cfg.sortedKeys.length - 1) + 1) (cfg.sortedKeys.getD (cfg.sortedKeys.length - 1) "") (eS (cfg.sortedKeys.length - 1)) (eB (cfg.sortedKeys.length - 1))] (s.nextHid + 2 * cfg.sortedKeys.length))
      = (.ok (multiEdit cfg sem M
          [(cfg.sortedKeys.getD (cfg.sortedKeys.length - 1) "",
            eB (cfg.sortedKeys.length - 1),
            chainCapture cfg sem M (fun i => cfg.sortedKeys.getD i "") (fun i => srcs.getD i 0) eS eB (cfg.sortedKeys.length - 1))]
          0 args.base),
         midState s (serialCache cfg sem M (fun i => cfg.sortedKeys.getD i "") (fun i => srcs.getD i 0) eS eB cfg.sortedKeys.length) [mkSetter (s.nextHid + 2 * (cfg.sortedKeys.length - 1) + 1) (cfg.sortedKeys.getD (cfg.sortedKeys.length - 1) "") (eS (cfg.sortedKeys.length - 1)) (eB (cfg.sortedKeys.length - 1))] (s.nextHid + 2 * cfg.sortedKeys.length),
         [⟨false, args.base, [mkSetter (s.nextHid + 2 * (cfg.sortedKeys.length - 1) + 1) (cfg.sortedKeys.getD (cfg.sortedKeys.length - 1) "") (eS (cfg.sortedKeys.length - 1)) (eB (cfg.sortedKeys.length - 1))], serialCache cfg sem M (fun i => cfg.sortedKeys.getD i "") (fun i => srcs.getD i 0) eS eB cfg.sortedKeys.length⟩]) := by
    unfold modelCall
    rw [show (midState s (serialCache cfg sem M (fun i => cfg.sortedKeys.getD i "") (fun i => srcs.getD i 0) eS eB cfg.sortedKeys.length) [mkSetter (s.nextHid + 2 * (cfg.sortedKeys.length - 1) + 1) (cfg.sortedKeys.getD (cfg.sortedKeys.length - 1) "") (eS (cfg.sortedKeys.length - 1)) (eB (cfg.sortedKeys.length - 1))] (s.nextHid + 2 * cfg.sortedKeys.length)).attached = [mkSetter (s.nextHid + 2 * (cfg.sortedKeys.length - 1) + 1) (cfg.sortedKeys.getD (cfg.sortedKeys.length - 1) "") (eS (cfg.sortedKeys.length - 1)) (eB (cfg.sortedKeys.length - 1))] from rfl]
    rw [heapCache_midState]
    rw [runFrom_eq_hooksRun cfg sem M [mkSetter (s.nextHid + 2 * (cfg.sortedKeys.length - 1) + 1) (cfg.sortedKeys.getD (cfg.sortedKeys.length - 1) "") (eS (cfg.sortedKeys.length - 1)) (eB (cfg.sortedKeys.length - 1))]
      0 M.numModules args.base
      (List.pairwise_singleton _ _)
      (fun h hh => by
        rw [List.mem_singleton] at hh
        subst hh
        refine ⟨Nat.zero_le _, ?_⟩
        rw [Nat.zero_add]
        dsimp only [mkSetter]
        exact hrange (cfg.sortedKeys.length - 1) (by omega))]
    have hsr := hooksRun_setters cfg sem M
      (fun k => (alookup (serialCache cfg sem M (fun i => cfg.sortedKeys.getD i "") (fun i => srcs.getD i 0) eS eB cfg.sortedKeys.length) k).getD 0)
      [mkSetter (s.nextHid + 2 * (cfg.sortedKeys.length - 1) + 1) (cfg.sortedKeys.getD (cfg.sortedKeys.length - 1) "") (eS (cfg.sortedKeys.length - 1)) (eB (cfg.sortedKeys.length - 1))] 0 args.base (midState s (serialCache cfg sem M (fun i => cfg.sortedKeys.getD i "") (fun i => srcs.getD i 0) eS eB cfg.sortedKeys.length) [mkSetter (s.nextHid + 2 * (cfg.sortedKeys.length - 1) + 1) (cfg.sortedKeys.getD (cfg.sortedKeys.length - 1) "") (eS (cfg.sortedKeys.length - 1)) (eB (cfg.sortedKeys.length - 1))] (s.nextHid + 2 * cfg.sortedKeys.length))
      rfl (Nat.zero_le _)
      (fun h hh => by
        rw [List.mem_singleton] at hh
        subst hh
        refine ⟨rfl, rfl, ?_, ?_⟩
        · dsimp only [mkSetter]
          exact hrange (cfg.sortedKeys.length - 1) (by omega)
        · rw [heapCache_midState]
          dsimp only [mkSetter]
          rw [hclookN]
          rfl)
    rw [Nat.sub_zero] at hsr
    rw [hsr]
    rw [show ([mkSetter (s.nextHid + 2 * (cfg.sortedKeys.length - 1) + 1) (cfg.sortedKeys.getD (cfg.sortedKeys.length - 1) "") (eS (cfg.sortedKeys.length - 1)) (eB (cfg.sortedKeys.length - 1))].map (fun h => (h.key, h.locBase,
        (fun k => (alookup (serialCache cfg sem M (fun i => cfg.sortedKeys.getD i "") (fun i => srcs.getD i 0) eS eB cfg.sortedKeys.length) k).getD 0) h.key)))
      = [(cfg.sortedKeys.getD (cfg.sortedKeys.length - 1) "",
          eB (cfg.sortedKeys.length - 1),
          chainCapture cfg sem M (fun i => cfg.sortedKeys.getD i "") (fun i => srcs.getD i 0) eS eB (cfg.sortedKeys.length - 1))] from by
        show [(cfg.sortedKeys.getD (cfg.sortedKeys.length - 1) "",
          eB (cfg.sortedKeys.length - 1),
          (alookup (serialCache cfg sem M (fun i => cfg.sortedKeys.getD i "") (fun i => srcs.getD i 0) eS eB cfg.sortedKeys.length) (cfg.sortedKeys.getD (cfg.sortedKeys.length - 1) "")).getD 0)] = _
        rw [hclookN]
        rfl]
  have f₂ : removeHandlers [s.nextHid + 2 * (cfg.sortedKeys.length - 1) + 1] (midState s (serialCache cfg sem M (fun i => cfg.sortedKeys.getD i "") (fun i => srcs.getD i 0) eS eB cfg.sortedKeys.length) [mkSetter (s.nextHid + 2 * (cfg.sortedKeys.length - 1) + 1) (cfg.sortedKeys.getD (cfg.sortedKeys.length - 1) "") (eS (cfg.sortedKeys.length - 1)) (eB (cfg.sortedKeys.length - 1))] (s.nextHid + 2 * cfg.sortedKeys.length))
      = (.ok (), midState s (serialCache cfg sem M (fun i => cfg.sortedKeys.getD i "") (fun i => srcs.getD i 0) eS eB cfg.sortedKeys.length) [] (s.nextHid + 2 * cfg.sortedKeys.length), []) := by
    rw [removeHandlers_eval]
    rw [show (midState s (serialCache cfg sem M (fun i => cfg.sortedKeys.getD i "") (fun i => srcs.getD i 0) eS eB cfg.sortedKeys.length) [mkSetter (s.nextHid + 2 * (cfg.sortedKeys.length - 1) + 1) (cfg.sortedKeys.getD (cfg.sortedKeys.length - 1) "") (eS (cfg.sortedKeys.length - 1)) (eB (cfg.sortedKeys.length - 1))] (s.nextHid + 2 * cfg.sortedKeys.length)).attached.filter
          (fun h => !(([s.nextHid + 2 * (cfg.sortedKeys.length - 1) + 1] : List Nat).contains h.hid)) = []
      from filter_drop_of_all_mem _ _ (by
        intro x hx
        rw [show (midState s (serialCache cfg sem M (fun i => cfg.sortedKeys.getD i "") (fun i => srcs.getD i 0) eS eB cfg.sortedKeys.length) [mkSetter (s.nextHid + 2 * (cfg.sortedKeys.length - 1) + 1) (cfg.sortedKeys.getD (cfg.sortedKeys.length - 1) "") (eS (cfg.sortedKeys.length - 1)) (eB (cfg.sortedKeys.length - 1))] (s.nextHid + 2 * cfg.sortedKeys.length)).attached = [mkSetter (s.nextHid + 2 * (cfg.sortedKeys.length - 1) + 1) (cfg.sortedKeys.getD (cfg.sortedKeys.length - 1) "") (eS (cfg.sortedKeys.length - 1)) (eB (cfg.sortedKeys.length - 1))] from rfl] at hx
        rw [List.mem_singleton] at hx
        subst hx
        simp [mkSetter])]
    rfl
  have f₃ : PyM.pure (stagesFrom M 0 M.numModules args.base,
      some (multiEdit cfg sem M
          [(cfg.sortedKeys.getD (cfg.sortedKeys.length - 1) "",
            eB (cfg.sortedKeys.length - 1),
            chainCapture cfg sem M (fun i => cfg.sortedKeys.getD i "") (fun i => srcs.getD i 0) eS eB (cfg.sortedKeys.length - 1))]
          0 args.base))
      (midState s (serialCache cfg sem M (fun i => cfg.sortedKeys.getD i "") (fun i => srcs.getD i 0) eS eB cfg.sortedKeys.length) [] (s.nextHid + 2 * cfg.sortedKeys.length))
      = (.ok (stagesFrom M 0 M.numModules args.base,
          some (multiEdit cfg sem M
          [(cfg.sortedKeys.getD (cfg.sortedKeys.length - 1) "",
            eB (cfg.sortedKeys.length - 1),
            chainCapture cfg sem M (fun i => cfg.sortedKeys.getD i "") (fun i => srcs.getD i 0) eS eB (cfg.sortedKeys.length - 1))]
          0 args.base)),
         midState s (serialCache cfg sem M (fun i => cfg.sortedKeys.getD i "") (fun i => srcs.getD i 0) eS eB cfg.sortedKeys.length) [] (s.nextHid + 2 * cfg.sortedKeys.length), []) := rfl
  unfold forward forwardCore
  rw [hsrc, hact, hsub, hmode]
  rw [show cfg.sortedKeys.enum
      = (0, cfg.sortedKeys.getD 0 "") :: List.enumFrom 1 (cfg.sortedKeys.drop 1) from by
    rw [show cfg.sortedKeys.enum = List.enumFrom 0 (cfg.sortedKeys.drop 0) from rfl]
    rw [List.drop_eq_get_cons hn]
    rw [show cfg.sortedKeys.get ⟨0, hn⟩ = cfg.sortedKeys.getD 0 "" from
      (List.getD_eq_getElem cfg.sortedKeys "" hn).symm]
    rfl]
  show _ = (.ok (stagesFrom M 0 M.numModules args.base,
      some (multiEdit cfg sem M
          [(cfg.sortedKeys.getD (cfg.sortedKeys.length - 1) "",
            eB (cfg.sortedKeys.length - 1),
            chainCapture cfg sem M (fun i => cfg.sortedKeys.getD i "") (fun i => srcs.getD i 0) eS eB (cfg.sortedKeys.length - 1))]
          0 args.base)),
    midState s (serialCache cfg sem M (fun i => cfg.sortedKeys.getD i "") (fun i => srcs.getD i 0) eS eB cfg.sortedKeys.length) [] (s.nextHid + 2 * cfg.sortedKeys.length),
    [] ++ ([] ++ ([] ++ ([(⟨false, args.base, [], []⟩ : Event)] ++
      (((⟨false, srcs.getD 0 0, [mkGetter s.nextHid (cfg.sortedKeys.getD 0 "") (eS 0)], serialCache cfg sem M (fun i => cfg.sortedKeys.getD i "") (fun i => srcs.getD i 0) eS eB 0⟩ : Event) ::
          (List.range' 1 (cfg.sortedKeys.length - 1)).map (fun i =>
           ⟨false, srcs.getD i 0,
            [mkSetter (s.nextHid + 2 * (i - 1) + 1) (cfg.sortedKeys.getD (i - 1) "")
              (eS (i - 1)) (eB (i - 1)),
             mkGetter (s.nextHid + 2 * i) (cfg.sortedKeys.getD i "") (eS i)],
            serialCache cfg sem M (fun i => cfg.sortedKeys.getD i "") (fun i => srcs.getD i 0) eS eB i⟩)) ++
       ([(⟨false, args.base, [mkSetter (s.nextHid + 2 * (cfg.sortedKeys.length - 1) + 1) (cfg.sortedKeys.getD (cfg.sortedKeys.length - 1) "") (eS (cfg.sortedKeys.length - 1)) (eB (cfg.sortedKeys.length - 1))], serialCache cfg sem M (fun i => cfg.sortedKeys.getD i "") (fun i => srcs.getD i 0) eS eB cfg.sortedKeys.length⟩ : Event)] ++ ([] ++ [])))))))
  refine PyM.bind_eval h_clean ?_
  refine PyM.bind_eval h_pass ?_
  refine PyM.bind_eval h_validate ?_
  refine PyM.bind_eval hbase ?_
  refine PyM.bind_eval hLOOP ?_
  refine @PyM.bind_eval _ _ (modelCall cfg sem M args.base)
    (fun cf => PyM.bind (removeHandlers [s.nextHid + 2 * (cfg.sortedKeys.length - 1) + 1])
      (fun x => PyM.pure (stagesFrom M 0 M.numModules args.base, some cf)))
    (midState s (serialCache cfg sem M (fun i => cfg.sortedKeys.getD i "") (fun i => srcs.getD i 0) eS eB cfg.sortedKeys.length) [mkSetter (s.nextHid + 2 * (cfg.sortedKeys.length - 1) + 1) (cfg.sortedKeys.getD (cfg.sortedKeys.length - 1) "") (eS (cfg.sortedKeys.length - 1)) (eB (cfg.sortedKeys.length - 1))] (s.nextHid + 2 * cfg.sortedKeys.length))
    _ _ _ _ _ _ f₁ ?_
  exact @PyM.bind_eval _ _
    (removeHandlers [s.nextHid + 2 * (cfg.sortedKeys.length - 1) + 1])
    (fun x => PyM.pure (stagesFrom M 0 M.numModules args.base,
      some (multiEdit cfg sem M
          [(cfg.sortedKeys.getD (cfg.sortedKeys.length - 1) "",
            eB (cfg.sortedKeys.length - 1),
            chainCapture cfg sem M (fun i => cfg.sortedKeys.getD i "") (fun i => srcs.getD i 0) eS eB (cfg.sortedKeys.length - 1))]
          0 args.base)))
    (midState s (serialCache cfg sem M (fun i => cfg.sortedKeys.getD i "") (fun i => srcs.getD i 0) eS eB cfg.sortedKeys.length) [mkSetter (s.nextHid + 2 * (cfg.sortedKeys.length - 1) + 1) (cfg.sortedKeys.getD (cfg.sortedKeys.length - 1) "") (eS (cfg.sortedKeys.length - 1)) (eB (cfg.sortedKeys.length - 1))] (s.nextHid + 2 * cfg.sortedKeys.length))
    _ _ _ _ _ _ f₂ f₃

/-- Witness for C1: on the concrete two-point serial fixture the chaining
theorem yields base output 4 and counterfactual output 13, the capture of
source 1 chained through the edit sourced from source 0. -/
theorem C1_serial_chaining_witness :
    (forward exCfgSerial exSem exM exArgsC8ok exState).1 = .ok (4, some 13) := by
  rw [C1_serial_chaining exCfgSerial exSem exM exArgsC8ok exState [10, 20]
    (fun x => ([exLoc], [exLoc])) (fun x => exLoc) (fun x => exLoc)
    rfl rfl rfl rfl (by decide)
    (by
      intro i hi
      rw [show exCfgSerial.sortedKeys.length = 2 from rfl] at hi
      rcases i with _ | _ | m
      · exact ⟨by decide, by decide, by decide⟩
      · exact ⟨by decide, by decide, by decide⟩
      · omega)
    (by decide) (by decide) (by decide)
    (by
      intro i j hij hj
      rw [show exCfgSerial.sortedKeys.length = 2 from rfl] at hj
      have hj1 : j = 1 := by omega
      subst hj1
      have hi0 : i = 0 := by omega
      subst hi0
      decide)
    (by
      intro i hi
      rw [show exCfgSerial.sortedKeys.length = 2 from rfl] at hi
      rcases i with _ | _ | m
      · decide
      · decide
      · omega)
    (by decide)]
  decide

end Pyvene
